import Mathlib

/-!
# MaresiaDB — relevance ranking of the product search (`src/routes/product.js`)

A shallow embedding of the search engine of `src/routes/product.js`
(`normalizarTexto`, `singularizar`, `extrairPalavrasChave`, the two alias
tables, `calcularRelevancia` and the `GET /search` handler), followed by the
theorems that settle the specification's claims about it.

## Conventions of the embedding

* A JavaScript string is the list of its UTF-16 code units (`JSString`), so
  `length` is the JavaScript `length`.
* The built-ins `toLowerCase`, `toUpperCase` and `normalize('NFD')` follow the
  Unicode Character Database on a finite repertoire: Basic Latin, Latin-1
  Supplement and Latin Extended-A (U+0000–U+017F), the combining marks
  U+0300–U+036F, the code units that the case mappings reach from there
  (U+02BC, U+0399, U+039C, U+03B9, U+03BC) and the Hebrew points U+05B4 and
  U+05B7. On texts of these code units the three models are exact, canonical
  reordering included; they leave every other code unit unchanged, which is
  not what the built-ins do, so a statement that depends on the tables is
  made for texts of the repertoire only.
* A property read `obj[key]` on an object literal sees the members inherited
  from `Object.prototype` as well as the literal's own keys.
* A thrown `TypeError` is the `Except.error` result.
* Scores and page numbers are mathematical integers (every value the handler
  computes from a catalog held in memory is far below 2^53); `NaN` is `none`.
* A `Date` is its time value in milliseconds; the clock read by `new Date()`
  is the explicit argument `agora`.
-/

namespace MaresiaDB

/-! ## JavaScript strings -/

/-- A JavaScript string: its sequence of UTF-16 code units. -/
abbrev JSString := List Nat

/-- UTF-16 encoding of one code point. -/
def utf16 (c : Char) : List Nat :=
  if c.toNat < 0x10000 then [c.toNat]
  else [0xD800 + (c.toNat - 0x10000) / 0x400, 0xDC00 + (c.toNat - 0x10000) % 0x400]

/-- The JavaScript string denoted by a string literal. -/
def js (s : String) : JSString :=
  (s.toList.map utf16).flatten

/-- Lower-case mapping in Basic Latin and Latin-1 Supplement: `A`–`Z` and the
capital letters `À`–`Þ` (all but the multiplication sign U+00D7). -/
def lowerLatin1 (c : Nat) : Nat :=
  if 0x41 ≤ c ∧ c ≤ 0x5A then c + 0x20
  else if 0xC0 ≤ c ∧ c ≤ 0xDE ∧ c ≠ 0xD7 then c + 0x20
  else c

/-- Lower-case mapping in Latin Extended-A (U+0100–U+017F): every capital is
followed by its small letter; the capitals are the even code units up to
U+0137 and from U+014A to U+0177, the odd ones from U+0139 to U+0148 and from
U+0179 to U+017E; `İ` (U+0130) becomes the two code units `i` and U+0307, `Ÿ`
(U+0178) becomes `ÿ`; U+0138, U+0149 and U+017F have no lower-case mapping. -/
def lowerLatinA (c : Nat) : List Nat :=
  if c = 0x130 then [0x69, 0x307]
  else if c ≤ 0x137 then (if c % 2 = 0 then [c + 1] else [c])
  else if c = 0x138 then [c]
  else if c ≤ 0x148 then (if c % 2 = 1 then [c + 1] else [c])
  else if c = 0x149 then [c]
  else if c ≤ 0x177 then (if c % 2 = 0 then [c + 1] else [c])
  else if c = 0x178 then [0xFF]
  else if c ≤ 0x17E then (if c % 2 = 1 then [c + 1] else [c])
  else [c]

/-- Lower-case mapping of one code unit (Unicode `UnicodeData.txt` and
`SpecialCasing.txt`): Basic Latin, Latin-1 Supplement, Latin Extended-A and
the Greek capitals `Ι` (U+0399) and `Μ` (U+039C). -/
def lowerUnit (c : Nat) : List Nat :=
  if c < 0x100 then [lowerLatin1 c]
  else if c < 0x180 then lowerLatinA c
  else if c = 0x399 then [0x3B9]
  else if c = 0x39C then [0x3BC]
  else [c]

/-- Model of `String.prototype.toLowerCase`. -/
def toLowerCase (s : JSString) : JSString :=
  (s.map lowerUnit).flatten

/-- Upper-case mapping in Basic Latin and Latin-1 Supplement: `a`–`z`; the
micro sign (to Greek capital `Μ`); `ß` (to the two letters `SS`); the small
letters `à`–`þ` (all but the division sign U+00F7); `ÿ` (to `Ÿ`, U+0178). -/
def upperLatin1 (c : Nat) : List Nat :=
  if 0x61 ≤ c ∧ c ≤ 0x7A then [c - 0x20]
  else if c = 0xB5 then [0x39C]
  else if c = 0xDF then [0x53, 0x53]
  else if 0xE0 ≤ c ∧ c ≤ 0xFE ∧ c ≠ 0xF7 then [c - 0x20]
  else if c = 0xFF then [0x178]
  else [c]

/-- Upper-case mapping in Latin Extended-A (U+0100–U+017F): the small letter of
every pair goes to its capital; the dotless `ı` (U+0131) goes to `I`, `ŉ`
(U+0149) to the two code units U+02BC and `N`, the long `ſ` (U+017F) to `S`. -/
def upperLatinA (c : Nat) : List Nat :=
  if c = 0x131 then [0x49]
  else if c ≤ 0x137 then (if c % 2 = 1 then [c - 1] else [c])
  else if c ≤ 0x139 then [c]
  else if c ≤ 0x148 then (if c % 2 = 0 then [c - 1] else [c])
  else if c = 0x149 then [0x2BC, 0x4E]
  else if c ≤ 0x177 then (if c % 2 = 1 then [c - 1] else [c])
  else if c ≤ 0x179 then [c]
  else if c ≤ 0x17E then (if c % 2 = 0 then [c - 1] else [c])
  else [0x53]

/-- Upper-case mapping of one code unit (Unicode `UnicodeData.txt` and
`SpecialCasing.txt`): Basic Latin, Latin-1 Supplement, Latin Extended-A, the
combining iota subscript U+0345 and the Greek small letters `ι` (U+03B9) and
`μ` (U+03BC). -/
def upperUnit (c : Nat) : List Nat :=
  if c < 0x100 then upperLatin1 c
  else if c < 0x180 then upperLatinA c
  else if c = 0x345 then [0x399]
  else if c = 0x3B9 then [0x399]
  else if c = 0x3BC then [0x39C]
  else [c]

/-- Model of `String.prototype.toUpperCase`. -/
def toUpperCase (s : JSString) : JSString :=
  (s.map upperUnit).flatten

/-- Full canonical decompositions of the letters of Latin-1 Supplement and
Latin Extended-A and of the combining marks U+0340, U+0341, U+0343, U+0344
(Unicode Character Database, field Decomposition_Mapping without a
compatibility tag). -/
def decomposicoes : List (Nat × List Nat) :=
  [ (0xC0, [0x41, 0x300]), (0xC1, [0x41, 0x301]), (0xC2, [0x41, 0x302]),
    (0xC3, [0x41, 0x303]), (0xC4, [0x41, 0x308]), (0xC5, [0x41, 0x30A]),
    (0xC7, [0x43, 0x327]), (0xC8, [0x45, 0x300]), (0xC9, [0x45, 0x301]),
    (0xCA, [0x45, 0x302]), (0xCB, [0x45, 0x308]), (0xCC, [0x49, 0x300]),
    (0xCD, [0x49, 0x301]), (0xCE, [0x49, 0x302]), (0xCF, [0x49, 0x308]),
    (0xD1, [0x4E, 0x303]), (0xD2, [0x4F, 0x300]), (0xD3, [0x4F, 0x301]),
    (0xD4, [0x4F, 0x302]), (0xD5, [0x4F, 0x303]), (0xD6, [0x4F, 0x308]),
    (0xD9, [0x55, 0x300]), (0xDA, [0x55, 0x301]), (0xDB, [0x55, 0x302]),
    (0xDC, [0x55, 0x308]), (0xDD, [0x59, 0x301]), (0xE0, [0x61, 0x300]),
    (0xE1, [0x61, 0x301]), (0xE2, [0x61, 0x302]), (0xE3, [0x61, 0x303]),
    (0xE4, [0x61, 0x308]), (0xE5, [0x61, 0x30A]), (0xE7, [0x63, 0x327]),
    (0xE8, [0x65, 0x300]), (0xE9, [0x65, 0x301]), (0xEA, [0x65, 0x302]),
    (0xEB, [0x65, 0x308]), (0xEC, [0x69, 0x300]), (0xED, [0x69, 0x301]),
    (0xEE, [0x69, 0x302]), (0xEF, [0x69, 0x308]), (0xF1, [0x6E, 0x303]),
    (0xF2, [0x6F, 0x300]), (0xF3, [0x6F, 0x301]), (0xF4, [0x6F, 0x302]),
    (0xF5, [0x6F, 0x303]), (0xF6, [0x6F, 0x308]), (0xF9, [0x75, 0x300]),
    (0xFA, [0x75, 0x301]), (0xFB, [0x75, 0x302]), (0xFC, [0x75, 0x308]),
    (0xFD, [0x79, 0x301]), (0xFF, [0x79, 0x308]), (0x100, [0x41, 0x304]),
    (0x101, [0x61, 0x304]), (0x102, [0x41, 0x306]), (0x103, [0x61, 0x306]),
    (0x104, [0x41, 0x328]), (0x105, [0x61, 0x328]), (0x106, [0x43, 0x301]),
    (0x107, [0x63, 0x301]), (0x108, [0x43, 0x302]), (0x109, [0x63, 0x302]),
    (0x10A, [0x43, 0x307]), (0x10B, [0x63, 0x307]), (0x10C, [0x43, 0x30C]),
    (0x10D, [0x63, 0x30C]), (0x10E, [0x44, 0x30C]), (0x10F, [0x64, 0x30C]),
    (0x112, [0x45, 0x304]), (0x113, [0x65, 0x304]), (0x114, [0x45, 0x306]),
    (0x115, [0x65, 0x306]), (0x116, [0x45, 0x307]), (0x117, [0x65, 0x307]),
    (0x118, [0x45, 0x328]), (0x119, [0x65, 0x328]), (0x11A, [0x45, 0x30C]),
    (0x11B, [0x65, 0x30C]), (0x11C, [0x47, 0x302]), (0x11D, [0x67, 0x302]),
    (0x11E, [0x47, 0x306]), (0x11F, [0x67, 0x306]), (0x120, [0x47, 0x307]),
    (0x121, [0x67, 0x307]), (0x122, [0x47, 0x327]), (0x123, [0x67, 0x327]),
    (0x124, [0x48, 0x302]), (0x125, [0x68, 0x302]), (0x128, [0x49, 0x303]),
    (0x129, [0x69, 0x303]), (0x12A, [0x49, 0x304]), (0x12B, [0x69, 0x304]),
    (0x12C, [0x49, 0x306]), (0x12D, [0x69, 0x306]), (0x12E, [0x49, 0x328]),
    (0x12F, [0x69, 0x328]), (0x130, [0x49, 0x307]), (0x134, [0x4A, 0x302]),
    (0x135, [0x6A, 0x302]), (0x136, [0x4B, 0x327]), (0x137, [0x6B, 0x327]),
    (0x139, [0x4C, 0x301]), (0x13A, [0x6C, 0x301]), (0x13B, [0x4C, 0x327]),
    (0x13C, [0x6C, 0x327]), (0x13D, [0x4C, 0x30C]), (0x13E, [0x6C, 0x30C]),
    (0x143, [0x4E, 0x301]), (0x144, [0x6E, 0x301]), (0x145, [0x4E, 0x327]),
    (0x146, [0x6E, 0x327]), (0x147, [0x4E, 0x30C]), (0x148, [0x6E, 0x30C]),
    (0x14C, [0x4F, 0x304]), (0x14D, [0x6F, 0x304]), (0x14E, [0x4F, 0x306]),
    (0x14F, [0x6F, 0x306]), (0x150, [0x4F, 0x30B]), (0x151, [0x6F, 0x30B]),
    (0x154, [0x52, 0x301]), (0x155, [0x72, 0x301]), (0x156, [0x52, 0x327]),
    (0x157, [0x72, 0x327]), (0x158, [0x52, 0x30C]), (0x159, [0x72, 0x30C]),
    (0x15A, [0x53, 0x301]), (0x15B, [0x73, 0x301]), (0x15C, [0x53, 0x302]),
    (0x15D, [0x73, 0x302]), (0x15E, [0x53, 0x327]), (0x15F, [0x73, 0x327]),
    (0x160, [0x53, 0x30C]), (0x161, [0x73, 0x30C]), (0x162, [0x54, 0x327]),
    (0x163, [0x74, 0x327]), (0x164, [0x54, 0x30C]), (0x165, [0x74, 0x30C]),
    (0x168, [0x55, 0x303]), (0x169, [0x75, 0x303]), (0x16A, [0x55, 0x304]),
    (0x16B, [0x75, 0x304]), (0x16C, [0x55, 0x306]), (0x16D, [0x75, 0x306]),
    (0x16E, [0x55, 0x30A]), (0x16F, [0x75, 0x30A]), (0x170, [0x55, 0x30B]),
    (0x171, [0x75, 0x30B]), (0x172, [0x55, 0x328]), (0x173, [0x75, 0x328]),
    (0x174, [0x57, 0x302]), (0x175, [0x77, 0x302]), (0x176, [0x59, 0x302]),
    (0x177, [0x79, 0x302]), (0x178, [0x59, 0x308]), (0x179, [0x5A, 0x301]),
    (0x17A, [0x7A, 0x301]), (0x17B, [0x5A, 0x307]), (0x17C, [0x7A, 0x307]),
    (0x17D, [0x5A, 0x30C]), (0x17E, [0x7A, 0x30C]), (0x340, [0x300]),
    (0x341, [0x301]), (0x343, [0x313]), (0x344, [0x308, 0x301]) ]

/-- Canonical decomposition of one code unit; no code unit below U+00C0 has
one. -/
def decomporUnit (c : Nat) : List Nat :=
  if c < 0xC0 then [c]
  else
    match decomposicoes.lookup c with
    | some d => d
    | none => [c]

/-- Canonical_Combining_Class of the combining marks U+0300–U+036F (Unicode
Character Database); only the grapheme joiner U+034F has class 0. -/
def cccMarca (c : Nat) : Nat :=
  if c ≤ 0x314 then 230
  else if c = 0x315 then 232
  else if c ≤ 0x319 then 220
  else if c = 0x31A then 232
  else if c = 0x31B then 216
  else if c ≤ 0x320 then 220
  else if c ≤ 0x322 then 202
  else if c ≤ 0x326 then 220
  else if c ≤ 0x328 then 202
  else if c ≤ 0x333 then 220
  else if c ≤ 0x338 then 1
  else if c ≤ 0x33C then 220
  else if c ≤ 0x344 then 230
  else if c = 0x345 then 240
  else if c = 0x346 then 230
  else if c ≤ 0x349 then 220
  else if c ≤ 0x34C then 230
  else if c ≤ 0x34E then 220
  else if c = 0x34F then 0
  else if c ≤ 0x352 then 230
  else if c ≤ 0x356 then 220
  else if c = 0x357 then 230
  else if c = 0x358 then 232
  else if c ≤ 0x35A then 220
  else if c = 0x35B then 230
  else if c = 0x35C then 233
  else if c ≤ 0x35E then 234
  else if c = 0x35F then 233
  else if c ≤ 0x361 then 234
  else if c = 0x362 then 233
  else 230

/-- Canonical_Combining_Class of a code unit: that of the combining marks
U+0300–U+036F and of the Hebrew points hiriq (U+05B4, class 14) and patah
(U+05B7, class 17). -/
def ccc (c : Nat) : Nat :=
  if c < 0x300 then 0
  else if c ≤ 0x36F then cccMarca c
  else if c = 0x5B4 then 14
  else if c = 0x5B7 then 17
  else 0

/-- One step of the Canonical Ordering Algorithm: a code unit put in front of
an ordered text moves behind the marks of a lower, non-zero combining class
that follow it. -/
def inserirMarca (c : Nat) : List Nat → List Nat
  | [] => [c]
  | d :: resto =>
    if 0 < ccc d ∧ ccc d < ccc c then d :: inserirMarca c resto else c :: d :: resto

/-- The Canonical Ordering Algorithm: every run of code units of non-zero
combining class is sorted by class, units of the same class keeping their
order. -/
def ordenarMarcas : List Nat → List Nat
  | [] => []
  | c :: resto => inserirMarca c (ordenarMarcas resto)

/-- Model of `String.prototype.normalize('NFD')`: every code unit is replaced
by its canonical decomposition, then the combining marks are put in canonical
order. -/
def nfd (s : JSString) : JSString :=
  ordenarMarcas (s.map decomporUnit).flatten

/-- The character class of the regular expression `[\u0300-\u036f]`. -/
def isCombiningMark (c : Nat) : Bool :=
  decide (0x300 ≤ c ∧ c ≤ 0x36F)

/-- Model of `.replace(/[\u0300-\u036f]/g, '')`. -/
def removerAcentos (s : JSString) : JSString :=
  s.filter (fun c => !isCombiningMark c)

/-- ECMAScript `WhiteSpace` and `LineTerminator` code points: what `trim`
strips and what the regular expression class `\s` matches. -/
def isWhiteSpace (c : Nat) : Bool :=
  c == 0x09 || c == 0x0A || c == 0x0B || c == 0x0C || c == 0x0D || c == 0x20 ||
  c == 0xA0 || c == 0x1680 || decide (0x2000 ≤ c ∧ c ≤ 0x200A) ||
  c == 0x2028 || c == 0x2029 || c == 0x202F || c == 0x205F || c == 0x3000 ||
  c == 0xFEFF

/-- Model of `String.prototype.trimStart`. -/
def trimStart : JSString → JSString
  | [] => []
  | c :: cs => if isWhiteSpace c then trimStart cs else c :: cs

/-- Model of `String.prototype.trim`. -/
def trim (s : JSString) : JSString :=
  (trimStart (trimStart s).reverse).reverse

/-- Model of `String.prototype.startsWith`. -/
def startsWith : JSString → JSString → Bool
  | _, [] => true
  | [], _ :: _ => false
  | c :: cs, d :: ds => c == d && startsWith cs ds

/-- Model of `String.prototype.includes`: `includes s t` is `s.includes(t)`,
true when `t` occurs in `s` as a contiguous substring. -/
def includes : JSString → JSString → Bool
  | [], t => startsWith [] t
  | c :: cs, t => startsWith (c :: cs) t || includes cs t

/-- Model of `String.prototype.endsWith` for a one-unit suffix. -/
def endsWithUnit (s : JSString) (c : Nat) : Bool :=
  s.getLast? == some c

/-- Worker of `split(/\s+/)`; the flag tells that the previous code unit
belonged to a separator. -/
def splitGo : Bool → JSString → List JSString
  | _, [] => [[]]
  | sep, c :: cs =>
    if isWhiteSpace c then
      if sep then splitGo true cs else [] :: splitGo true cs
    else
      match splitGo false cs with
      | [] => [[c]]
      | t :: ts => (c :: t) :: ts

/-- Model of `String.prototype.split(/\s+/)`: the pieces between maximal runs
of white space (`"".split(/\s+/)` is `[""]`). -/
def splitEspacos (s : JSString) : List JSString :=
  splitGo false s

/-- Model of `[...new Set(xs)]`: the first occurrence of every element, in
order. -/
def semDuplicatas : List JSString → List JSString
  | [] => []
  | x :: xs => x :: (semDuplicatas xs).filter (fun y => !(y == x))

/-! ## Normalizer, stemmer, keyword extractor (product.js lines 9–39) -/

/-- Embedding of `normalizarTexto`. -/
def normalizarTexto (texto : JSString) : JSString :=
  trim (removerAcentos (nfd (toLowerCase texto)))

/-- Embedding of `singularizar`. -/
def singularizar (palavra : JSString) : JSString :=
  if palavra.length > 3 ∧ endsWithUnit palavra 0x73 then palavra.dropLast
  else palavra

/-- The constant `stopWords` of `extrairPalavrasChave`. -/
def stopWords : List JSString :=
  [js "de", js "da", js "do", js "para", js "com", js "em", js "a", js "o",
   js "e", js "the", js "and", js "of", js "in", js "to"]

/-- Embedding of `extrairPalavrasChave`. -/
def extrairPalavrasChave (texto : JSString) : List JSString :=
  semDuplicatas
    ((((splitEspacos (normalizarTexto texto)).filter (fun p => decide (p.length > 1))).filter
        (fun p => !(stopWords.contains p))).map singularizar)

/-! ## Alias tables (product.js lines 41–163) -/

/-- The own properties of the object literal `colorMapping`, in source order. -/
def colorMapping : List (JSString × JSString) :=
  [ (js "red", js "Vermelho"), (js "blue", js "Azul"), (js "green", js "Verde"),
    (js "yellow", js "Amarelo"), (js "black", js "Preto"), (js "white", js "Branco"),
    (js "pink", js "Rosa"), (js "purple", js "Roxo"), (js "orange", js "Laranja"),
    (js "brown", js "Marrom"), (js "gray", js "Cinza"), (js "grey", js "Cinza"),
    (js "coral", js "Coral"), (js "cinnamon", js "Canela"), (js "wine", js "Vinho"),
    (js "daffodil", js "Narciso"), (js "lime", js "Lima"), (js "moss", js "Musgo"),
    (js "pool", js "Piscina"), (js "marine", js "Marine"), (js "lilac", js "Lilás"),
    (js "beige", js "Bege") ]

/-- The own properties of the object literal `categoryMapping`, in source
order. -/
def categoryMapping : List (JSString × JSString) :=
  [ (js "dress", js "vestido"), (js "dresses", js "vestido"), (js "vestido", js "vestido"),
    (js "vestidos", js "vestido"), (js "vest", js "vestido"), (js "shirt", js "camiseta"),
    (js "tshirt", js "camiseta"), (js "t-shirt", js "camiseta"),
    (js "camiseta", js "camiseta"), (js "camisetas", js "camiseta"),
    (js "bikini", js "biquini"), (js "biquini", js "biquini"), (js "biquinis", js "biquini"),
    (js "swimsuit", js "maio"), (js "swimsuits", js "maio"), (js "maio", js "maio"),
    (js "maios", js "maio"), (js "maiô", js "maio"), (js "maiôs", js "maio"),
    (js "short", js "short"), (js "shorts", js "short"), (js "skirt", js "saia"),
    (js "skirts", js "saia"), (js "saia", js "saia"), (js "saias", js "saia"),
    (js "beach towel", js "canga"), (js "towel", js "canga"), (js "beachtowel", js "canga"),
    (js "canga", js "canga"), (js "cangas", js "canga"), (js "sandal", js "sandalia"),
    (js "sandals", js "sandalia"), (js "sandalia", js "sandalia"),
    (js "sandálias", js "sandalia"), (js "sandalias", js "sandalia"),
    (js "flip flop", js "chinelo"), (js "flip-flop", js "chinelo"),
    (js "flipflop", js "chinelo"), (js "flip", js "chinelo"), (js "chinelo", js "chinelo"),
    (js "chinelos", js "chinelo"), (js "umbrella", js "sombrinha"),
    (js "beach umbrella", js "sombrinha"), (js "beachumbrella", js "sombrinha"),
    (js "sombrinha", js "sombrinha"), (js "sombrinhas", js "sombrinha"),
    (js "bag", js "bolsa"), (js "bags", js "bolsa"), (js "beach bag", js "bolsa"),
    (js "beachbag", js "bolsa"), (js "bolsa", js "bolsa"), (js "bolsas", js "bolsa"),
    (js "beachwear", js "praia"), (js "swimwear", js "praia"), (js "beach", js "praia"),
    (js "praia", js "praia"), (js "clothing", js "roupas"), (js "clothes", js "roupas"),
    (js "roupas", js "roupas"), (js "shoes", js "calçados"), (js "footwear", js "calçados"),
    (js "calçados", js "calçados"), (js "calcados", js "calçados"),
    (js "accessories", js "acessorios"), (js "acessórios", js "acessorios"),
    (js "acessorios", js "acessorios"), (js "new", js "novidades"),
    (js "news", js "novidades"), (js "novelty", js "novidades"),
    (js "novelties", js "novidades"), (js "novidades", js "novidades") ]

/-! ## Property reads and thrown errors -/

/-- Names of the members that every object literal inherits from
`Object.prototype` (ECMAScript, sections "Properties of the Object Prototype
Object" and Annex B "Additional Properties of the Object.prototype Object").
Each is a function, and `__proto__` reads as the prototype object itself: the
value is truthy and is not a string. -/
def objectPrototype : List JSString :=
  [js "constructor", js "hasOwnProperty", js "isPrototypeOf",
   js "propertyIsEnumerable", js "toLocaleString", js "toString", js "valueOf",
   js "__proto__", js "__defineGetter__", js "__defineSetter__",
   js "__lookupGetter__", js "__lookupSetter__"]

/-- The value of a property read `obj[chave]` on one of the alias tables. -/
inductive Leitura where
  /-- No own and no inherited property: `undefined`. -/
  | indefinido
  /-- An own property of the literal: its string value. -/
  | texto (valor : JSString)
  /-- A member inherited from `Object.prototype`. -/
  | herdado
  deriving DecidableEq

/-- Model of the property read `obj[chave]` on an object literal whose own
properties are `obj`. -/
def lerPropriedade (obj : List (JSString × JSString)) (chave : JSString) : Leitura :=
  match obj.lookup chave with
  | some valor => .texto valor
  | none => if objectPrototype.contains chave then .herdado else .indefinido

/-- Exceptions thrown by the modelled code. -/
inductive Erro where
  /-- `TypeError`: a call of something that is not a function, such as
  `texto.toLowerCase()` on a value that is not a string. -/
  | typeError
  deriving DecidableEq

deriving instance DecidableEq for Except

/-! ## Products -/

/-- The `collection` projection of a product. -/
structure Colecao where
  id : Nat
  title : Option JSString := none
  description : Option JSString := none
  deriving DecidableEq

/-- A product as selected by the search handler (product.js lines 332–357).
A nullable column is an `Option`; `createdAt` is the time value of the date in
milliseconds. -/
structure Produto where
  id : Nat
  name : Option JSString := none
  description : Option JSString := none
  detailedDescription : Option JSString := none
  price : JSString := []
  size : Option JSString := none
  color : Option JSString := none
  material : Option JSString := none
  category : Option JSString := none
  available : Bool := true
  new : Bool := false
  image1 : Option JSString := none
  image2 : Option JSString := none
  image3 : Option JSString := none
  collection : Option Colecao := none
  createdAt : Option Int := none
  deriving DecidableEq

/-! ## Relevance score (product.js lines 167–265) -/

/-- The array `campos`: the six searched texts (`produto.x || ''`) with their
weights. -/
def campos (produto : Produto) : List (JSString × Int) :=
  [ (produto.name.getD [], 5),
    (produto.category.getD [], 4),
    (produto.description.getD [], 2),
    (produto.detailedDescription.getD [], 1),
    (produto.material.getD [], 3),
    (produto.color.getD [], 2) ]

/-- The loop `for (const palavra of todasPalavras)` (lines 183–188): the
normalized table value of the first word whose read is truthy, `none` (the
initial `null`) when there is none. A truthy read that is not a string makes
`normalizarTexto` throw. -/
def buscarCategoria : List JSString → Except Erro (Option JSString)
  | [] => .ok none
  | palavra :: resto =>
    match lerPropriedade categoryMapping palavra with
    | .indefinido => buscarCategoria resto
    | .texto valor =>
      if valor = [] then buscarCategoria resto
      else .ok (some (normalizarTexto valor))
    | .herdado => .error .typeError

/-- Lines 191–202: what the category block adds to the score. -/
def pontosCategoria (produto : Produto) (categoriaBuscada : Option JSString) : Int :=
  match categoriaBuscada with
  | none => 0
  | some buscada =>
    if buscada = [] then 0
    else
      let categoriaProduto := normalizarTexto (produto.category.getD [])
      if categoriaProduto = buscada then 100
      else if includes categoriaProduto buscada || includes buscada categoriaProduto then 80
      else 0

/-- The condition of line 205–207. -/
def buscaNovidades (palavrasChave : List JSString) (termoPesquisaCompleto : JSString) : Bool :=
  termoPesquisaCompleto == js "novidades" || termoPesquisaCompleto == js "new" ||
  termoPesquisaCompleto == js "novidade" || termoPesquisaCompleto == js "new arrivals" ||
  palavrasChave.contains (js "new") || palavrasChave.contains (js "novidades")

/-- Lines 213–214: `new Date()` moved back by `setDate(getDate() - 30)`, thirty
calendar days, which are 30 × 86 400 000 ms when no daylight-saving change
falls in between. -/
def trintaDiasAtras (agora : Int) : Int :=
  agora - 30 * 86400000

/-- The constant `categoriasNovidades` of line 219. -/
def categoriasNovidades : List JSString :=
  [js "vestido", js "biquini", js "maio", js "short", js "saia", js "camiseta"]

/-- Lines 205–223: what the "novidades" block adds to the score. -/
def pontosNovidades (agora : Int) (produto : Produto) (palavrasChave : List JSString)
    (termoPesquisaCompleto : JSString) : Int :=
  if buscaNovidades palavrasChave termoPesquisaCompleto then
    (if produto.new then 100 else 0)
    + (match produto.createdAt with
       | some criado => if criado > trintaDiasAtras agora then 50 else 0
       | none => 0)
    + (match produto.category with
       | some categoria =>
         if categoriasNovidades.contains (toLowerCase categoria) then 25 else 0
       | none => 0)
  else 0

/-- Lines 231–240: what the colour loop adds for one field. A truthy read of
`colorMapping` that is not a string makes `normalizarTexto` throw. -/
def pontosCor (textoNormalizado textoSingular : JSString) (peso : Int) :
    List JSString → Except Erro Int
  | [] => .ok 0
  | palavra :: resto =>
    match lerPropriedade colorMapping palavra with
    | .indefinido => pontosCor textoNormalizado textoSingular peso resto
    | .texto corMapeada =>
      if corMapeada = [] then pontosCor textoNormalizado textoSingular peso resto
      else
        let corMapeadaNormalizada := normalizarTexto corMapeada
        match pontosCor textoNormalizado textoSingular peso resto with
        | .ok pontos =>
          .ok ((if includes textoNormalizado corMapeadaNormalizada ||
                   includes textoSingular corMapeadaNormalizada then peso * 8 else 0) + pontos)
        | .error e => .error e
    | .herdado => .error .typeError

/-- Lines 243–245: what the full-term test adds for one field. -/
def pontosTermoCompleto (textoNormalizado textoSingular : JSString) (peso : Int)
    (termoPesquisaCompleto : JSString) : Int :=
  if textoNormalizado = termoPesquisaCompleto ∨ textoSingular = termoPesquisaCompleto then
    peso * 10
  else 0

/-- Lines 249–260: what one keyword adds for one field. -/
def pontosPalavra (textoNormalizado textoSingular : JSString) (peso : Int)
    (palavra : JSString) : Int :=
  let palavraSingular := singularizar palavra
  if textoNormalizado = palavra ∨ textoNormalizado = palavraSingular ∨
      textoSingular = palavra ∨ textoSingular = palavraSingular then peso * 5
  else if includes textoNormalizado palavra || includes textoNormalizado palavraSingular ||
      includes textoSingular palavra || includes textoSingular palavraSingular then peso * 2
  else 0

/-- Lines 248–261: the keyword loop of one field. -/
def pontosPalavras (textoNormalizado textoSingular : JSString) (peso : Int)
    (palavrasChave : List JSString) : Int :=
  (palavrasChave.map (pontosPalavra textoNormalizado textoSingular peso)).sum

/-- Lines 226–262, the body of `campos.forEach` for one field: colour loop,
full-term test, keyword loop. -/
def pontosCampo (palavrasChave : List JSString) (termoPesquisaCompleto : JSString)
    (campo : JSString × Int) : Except Erro Int :=
  let textoNormalizado := normalizarTexto campo.1
  let textoSingular := singularizar textoNormalizado
  match pontosCor textoNormalizado textoSingular campo.2 palavrasChave with
  | .ok cor =>
    .ok (cor + pontosTermoCompleto textoNormalizado textoSingular campo.2 termoPesquisaCompleto
          + pontosPalavras textoNormalizado textoSingular campo.2 palavrasChave)
  | .error e => .error e

/-- The loop `campos.forEach` over a list of fields. -/
def pontosCampos (palavrasChave : List JSString) (termoPesquisaCompleto : JSString) :
    List (JSString × Int) → Except Erro Int
  | [] => .ok 0
  | campo :: resto =>
    match pontosCampo palavrasChave termoPesquisaCompleto campo with
    | .ok pontos =>
      match pontosCampos palavrasChave termoPesquisaCompleto resto with
      | .ok outros => .ok (pontos + outros)
      | .error e => .error e
    | .error e => .error e

/-- Embedding of `calcularRelevancia`; `agora` is the clock read by
`new Date()`. The statements `score += x` are collected into one sum, in
source order: category block, "novidades" block, fields. -/
def calcularRelevancia (agora : Int) (produto : Produto) (palavrasChave : List JSString)
    (termoPesquisaCompleto : JSString) : Except Erro Int :=
  match buscarCategoria (termoPesquisaCompleto :: palavrasChave) with
  | .ok categoriaBuscada =>
    match pontosCampos palavrasChave termoPesquisaCompleto (campos produto) with
    | .ok pontos =>
      .ok (pontosCategoria produto categoriaBuscada
            + pontosNovidades agora produto palavrasChave termoPesquisaCompleto + pontos)
    | .error e => .error e
  | .error e => .error e

/-! ## JavaScript numbers, `parseInt`, `slice`, `sort` -/

/-- A JavaScript number as the handler uses them: an integer, or `NaN`
(`none`). -/
abbrev Numero := Option Int

/-- The relational operator `a < b` on numbers: false when an operand is `NaN`. -/
def menor (a b : Numero) : Bool :=
  match a, b with
  | some x, some y => decide (x < y)
  | _, _ => false

/-- Value of a digit in the given radix. -/
def valorDigito (radix : Nat) (c : Nat) : Option Nat :=
  let v :=
    if 0x30 ≤ c ∧ c ≤ 0x39 then some (c - 0x30)
    else if 0x61 ≤ c ∧ c ≤ 0x7A then some (c - 0x61 + 10)
    else if 0x41 ≤ c ∧ c ≤ 0x5A then some (c - 0x41 + 10)
    else none
  match v with
  | some d => if d < radix then some d else none
  | none => none

/-- Reads the longest prefix of digits, left to right: `acc` is the value read
so far and `lidos` tells that at least one digit was read. -/
def lerDigitos (radix : Nat) : Nat → Bool → JSString → Option Nat
  | acc, lidos, [] => if lidos then some acc else none
  | acc, lidos, c :: cs =>
    match valorDigito radix c with
    | some d => lerDigitos radix (acc * radix + d) true cs
    | none => if lidos then some acc else none

/-- Model of `parseInt(s)` without a radix argument: leading white space, an
optional sign, an optional `0x` prefix, then the longest prefix of digits;
`NaN` when there is no digit. -/
def parseInt (s : JSString) : Numero :=
  let s1 := trimStart s
  let negativo := s1.head? == some 0x2D
  let s2 := if s1.head? == some 0x2D ∨ s1.head? == some 0x2B then s1.tail else s1
  let valor :=
    match s2 with
    | 0x30 :: 0x78 :: resto => lerDigitos 16 0 false resto
    | 0x30 :: 0x58 :: resto => lerDigitos 16 0 false resto
    | _ => lerDigitos 10 0 false s2
  match valor with
  | some n => some (if negativo then -(n : Int) else (n : Int))
  | none => none

/-- The integer index that `Array.prototype.slice` computes from an argument
(`NaN` counts as 0, a negative value counts from the end). -/
def indiceRelativo (len : Nat) (v : Numero) : Nat :=
  match v with
  | none => 0
  | some k => if k < 0 then (len + k).toNat else min k.toNat len

/-- Model of `Array.prototype.slice(inicio, fim)`. -/
def slice {α : Type} (xs : List α) (inicio fim : Numero) : List α :=
  (xs.drop (indiceRelativo xs.length inicio)).take
    (indiceRelativo xs.length fim - indiceRelativo xs.length inicio)

/-- Insertion of `x` in front of the first element it does not have to follow
(`cmp x y ≤ 0`). -/
def inserir {α : Type} (cmp : α → α → Int) (x : α) : List α → List α
  | [] => [x]
  | y :: ys => if cmp x y ≤ 0 then x :: y :: ys else y :: inserir cmp x ys

/-- Model of `Array.prototype.sort(cmp)`, which is a stable sort (ECMAScript
2019): for a comparator that is a consistent ordering the result is fixed by
the language, and is computed here by insertion from the right. -/
def sort {α : Type} (cmp : α → α → Int) : List α → List α
  | [] => []
  | x :: xs => inserir cmp x (sort cmp xs)

/-! ## The handler of `GET /search` (product.js lines 290–442) -/

/-- A value of `req.query`. -/
inductive Parametro where
  /-- The parameter is not in the URL: `undefined`. -/
  | ausente
  /-- A string. -/
  | texto (s : JSString)
  /-- An array or an object (a repeated or bracketed parameter), with the
  string that `String(v)` converts it to. -/
  | composto (comoTexto : JSString)
  deriving DecidableEq

/-- A catalog product with its score: `{ ...produto, relevanciaScore: score }`. -/
structure ProdutoComScore where
  produto : Produto
  relevanciaScore : Int
  deriving DecidableEq

/-- Lines 379–382: `todosProdutos.map(...)`; an exception thrown while scoring
a product leaves the `map`. -/
def produtosComScore (agora : Int) (palavrasChave : List JSString)
    (termoPesquisaCompleto : JSString) : List Produto → Except Erro (List ProdutoComScore)
  | [] => .ok []
  | produto :: resto =>
    match calcularRelevancia agora produto palavrasChave termoPesquisaCompleto with
    | .ok score =>
      match produtosComScore agora palavrasChave termoPesquisaCompleto resto with
      | .ok outros => .ok ({ produto := produto, relevanciaScore := score } :: outros)
      | .error e => .error e
    | .error e => .error e

/-- The comparator of line 387: `(a, b) => b.relevanciaScore - a.relevanciaScore`. -/
def compararScore (a b : ProdutoComScore) : Int :=
  b.relevanciaScore - a.relevanciaScore

/-- Lines 385–387: `.filter(p => p.relevanciaScore > 0).sort(...)`. -/
def produtosFiltrados (comScore : List ProdutoComScore) : List ProdutoComScore :=
  sort compararScore (comScore.filter (fun p => decide (p.relevanciaScore > 0)))

/-- Lines 411–413: the page, with the score removed from every product. -/
def produtosPaginados (filtrados : List ProdutoComScore) (skip limitNum : Numero) :
    List Produto :=
  (slice filtrados skip (do let s ← skip; let l ← limitNum; pure (s + l))).map
    (fun p => p.produto)

/-- Line 418: `Math.ceil(total / limitNum)`, for the values of `limitNum` that
pass validation (`NaN`, or an integer of 1 to 100). -/
def totalPages (total : Nat) (limitNum : Numero) : Numero :=
  match limitNum with
  | some l => some (((total : Int) + l - 1) / l)
  | none => none

/-- The object `search` of the response body. -/
structure Busca where
  query : JSString
  normalizedQuery : JSString
  keywords : List JSString
  resultsFound : Nat
  deriving DecidableEq

/-- The object `pagination` of the response body. -/
structure Paginacao where
  page : Numero
  limit : Numero
  total : Nat
  totalPages : Numero
  hasNextPage : Bool
  hasPreviousPage : Bool
  deriving DecidableEq

/-- The body sent by `res.json` (lines 420–436). -/
structure Corpo where
  data : List Produto
  search : Busca
  pagination : Paginacao
  deriving DecidableEq

/-- What the handler answers: an error passed to `next` with its HTTP status,
or the JSON body. -/
inductive Resposta where
  | erro (status : Nat)
  | json (corpo : Corpo)
  deriving DecidableEq

/-- `parseInt(page)` for a query parameter with a numeric default. -/
def parseIntParametro (valor : Parametro) (padrao : Int) : Numero :=
  match valor with
  | .ausente => some padrao
  | .texto s => parseInt s
  | .composto comoTexto => parseInt comoTexto

/-- Embedding of the handler of `GET /search`. `todosProdutos` is what
`prisma.product.findMany` returns and `agora` the clock. An exception thrown
inside the `try` block is answered with status 500 (lines 437–441). -/
def search (agora : Int) (todosProdutos : List Produto) (q page limit : Parametro) :
    Resposta :=
  match q with
  | .ausente => .erro 400
  | .composto _ => .erro 500
  | .texto q =>
    if q = [] ∨ trim q = [] then .erro 400
    else
      let pageNum := parseIntParametro page 1
      let limitNum := parseIntParametro limit 10
      if menor pageNum (some 1) || menor limitNum (some 1) then .erro 400
      else if menor (some 100) limitNum then .erro 400
      else
        let skip : Numero := do let p ← pageNum; let l ← limitNum; pure ((p - 1) * l)
        let termoPesquisaCompleto := normalizarTexto q
        let palavrasChave := extrairPalavrasChave q
        match produtosComScore agora palavrasChave termoPesquisaCompleto todosProdutos with
        | .error _ => .erro 500
        | .ok comScore =>
          let filtrados := produtosFiltrados comScore
          let total := filtrados.length
          let paginas := totalPages total limitNum
          .json
            { data := produtosPaginados filtrados skip limitNum
              search :=
                { query := q
                  normalizedQuery := termoPesquisaCompleto
                  keywords := palavrasChave
                  resultsFound := total }
              pagination :=
                { page := pageNum
                  limit := limitNum
                  total := total
                  totalPages := paginas
                  hasNextPage := menor pageNum paginas
                  hasPreviousPage := menor (some 1) pageNum } }

/-! ## The rules in the words of the specification -/

/-- The category-intent rule as the specification words it: `t` is the first
element of `[normalizedFullQuery, keyword1, ...]` that is a key of the
category alias table, `categoryWanted = normalize(CategoryAliases[t])`; the
rule gives 100 when `normalize(product.category)` equals `categoryWanted`, 80
when one is a substring of the other, and 0 otherwise or when no element is a
key. -/
def regraCategoria (produto : Produto) (termo : JSString) (palavrasChave : List JSString) :
    Int :=
  match (termo :: palavrasChave).find? (fun t => (categoryMapping.lookup t).isSome) with
  | none => 0
  | some t =>
    let categoryWanted := normalizarTexto ((categoryMapping.lookup t).getD [])
    let categoria := normalizarTexto (produto.category.getD [])
    if categoria = categoryWanted then 100
    else if categoryWanted <:+: categoria ∨ categoria <:+: categoryWanted then 80
    else 0

/-- The colour-alias rule as the specification words it, for one field and one
keyword: `w × 8` when the keyword is a key of the colour alias table and the
normalized colour is a substring of the normalized field or of its singular. -/
def regraCor (textoNormalizado textoSingular : JSString) (peso : Int) (palavra : JSString) :
    Int :=
  match colorMapping.lookup palavra with
  | none => 0
  | some cor =>
    if normalizarTexto cor <:+: textoNormalizado ∨ normalizarTexto cor <:+: textoSingular then
      peso * 8
    else 0

/-- The per-field keyword rule as the specification words it, for one field
and one keyword `k` with `k' = singularize(k)`: `w × 5` when the normalized
field or its singular equals `k` or `k'`; otherwise `w × 2` when there is
substring containment in either direction between `k` or `k'` and the
normalized field or its singular; otherwise 0. -/
def regraPalavra (textoNormalizado textoSingular : JSString) (peso : Int)
    (palavra : JSString) : Int :=
  if textoNormalizado = palavra ∨ textoNormalizado = singularizar palavra ∨
      textoSingular = palavra ∨ textoSingular = singularizar palavra then peso * 5
  else if (palavra <:+: textoNormalizado ∨ singularizar palavra <:+: textoNormalizado ∨
      palavra <:+: textoSingular ∨ singularizar palavra <:+: textoSingular) ∨
      (textoNormalizado <:+: palavra ∨ textoNormalizado <:+: singularizar palavra ∨
      textoSingular <:+: palavra ∨ textoSingular <:+: singularizar palavra) then peso * 2
  else 0

/-! ## Fixtures of the specification's scenarios -/

/-- A product whose only text is the name "Azul". -/
def itemAzul : Produto :=
  { id := 4, name := some (js "Azul") }


/-- Scenario A: the product `{name: "Vestido Azul", category: "vestido"}`. -/
def vestidoAzul : Produto :=
  { id := 1, name := some (js "Vestido Azul"), category := some (js "vestido") }

/-- Scenario A: the product `{name: "Sandália", category: "sandalia"}`. -/
def sandalia : Produto :=
  { id := 2, name := some (js "Sandália"), category := some (js "sandalia") }

/-- Scenario B: a product flagged `new`, created at time 0. -/
def novoItem : Produto :=
  { id := 3, name := some (js "Biquini Sol"), new := true, createdAt := some 0 }

/-- The body answered to `GET /search?q=dress` over the catalog
`[sandalia, vestidoAzul]`. -/
def corpoDress : Corpo :=
  { data := [vestidoAzul]
    search :=
      { query := js "dress"
        normalizedQuery := js "dress"
        keywords := [js "dres"]
        resultsFound := 1 }
    pagination :=
      { page := some 1
        limit := some 10
        total := 1
        totalPages := some 1
        hasNextPage := false
        hasPreviousPage := false } }

/-- The body answered to `GET /search?q=dress&page=abc` over the catalog
`[vestidoAzul]`: the page is `NaN` and `data` is empty although one product
was found. -/
def corpoPaginaNaN : Corpo :=
  { data := []
    search :=
      { query := js "dress"
        normalizedQuery := js "dress"
        keywords := [js "dres"]
        resultsFound := 1 }
    pagination :=
      { page := none
        limit := some 10
        total := 1
        totalPages := some 1
        hasNextPage := false
        hasPreviousPage := false } }

/-- The body answered to `GET /search?q=dress&limit=abc` over the catalog
`[vestidoAzul]`: the limit and the number of pages are `NaN`. -/
def corpoLimiteNaN : Corpo :=
  { data := []
    search :=
      { query := js "dress"
        normalizedQuery := js "dress"
        keywords := [js "dres"]
        resultsFound := 1 }
    pagination :=
      { page := some 1
        limit := none
        total := 1
        totalPages := none
        hasNextPage := false
        hasPreviousPage := false } }

/-- Scenario B: a sandal flagged `new`, created on day 365. -/
def sandaliaNova : Produto :=
  { id := 5, name := some (js "Sandália"), category := some (js "sandalia"), new := true,
    createdAt := some 31536000000 }

/-- Scenario B: the same sandal, not flagged `new`, created on day 0. -/
def sandaliaVelha : Produto :=
  { id := 6, name := some (js "Sandália"), category := some (js "sandalia"), new := false,
    createdAt := some 0 }

/-- The body answered on day 366 to `GET /search?q=novidades` over the catalog
`[sandaliaVelha, sandaliaNova]`. -/
def corpoNovidades : Corpo :=
  { data := [sandaliaNova]
    search :=
      { query := js "novidades"
        normalizedQuery := js "novidades"
        keywords := [js "novidade"]
        resultsFound := 1 }
    pagination :=
      { page := some 1
        limit := some 10
        total := 1
        totalPages := some 1
        hasNextPage := false
        hasPreviousPage := false } }

/-- A product without a category. -/
def semCategoria : Produto :=
  { id := 7, name := some (js "Canga Listrada") }

/-- A product of the colour "Musgo". -/
def itemMusgo : Produto :=
  { id := 8, name := some (js "Canga"), color := some (js "Musgo") }

/-! ## Lemmas on the stable sort -/

theorem inserir_perm {α : Type} (cmp : α → α → Int) (x : α) (l : List α) :
    (inserir cmp x l).Perm (x :: l) := by
  induction l with
  | nil => simp [inserir]
  | cons y ys ih =>
    unfold inserir
    split
    · exact List.Perm.refl _
    · exact (List.Perm.cons y ih).trans (List.Perm.swap x y ys)

theorem sort_perm {α : Type} (cmp : α → α → Int) (l : List α) : (sort cmp l).Perm l := by
  induction l with
  | nil => simp [sort]
  | cons x xs ih =>
    unfold sort
    exact (inserir_perm cmp x _).trans (List.Perm.cons x ih)

theorem inserir_sorted (x : ProdutoComScore) (l : List ProdutoComScore)
    (h : l.Pairwise (fun a b => b.relevanciaScore ≤ a.relevanciaScore)) :
    (inserir compararScore x l).Pairwise
      (fun a b => b.relevanciaScore ≤ a.relevanciaScore) := by
  induction l with
  | nil => simp [inserir]
  | cons y ys ih =>
    have hy := List.pairwise_cons.mp h
    unfold inserir
    split
    · rename_i hle
      have hxy : y.relevanciaScore ≤ x.relevanciaScore := by
        unfold compararScore at hle; omega
      refine List.pairwise_cons.mpr ⟨?_, h⟩
      intro b hb
      rcases List.mem_cons.mp hb with rfl | hb
      · exact hxy
      · exact le_trans (hy.1 b hb) hxy
    · rename_i hgt
      have hxy : x.relevanciaScore ≤ y.relevanciaScore := by
        unfold compararScore at hgt; omega
      refine List.pairwise_cons.mpr ⟨?_, ih hy.2⟩
      intro b hb
      rcases List.mem_cons.mp ((inserir_perm compararScore x ys).mem_iff.mp hb) with rfl | hb
      · exact hxy
      · exact hy.1 b hb

theorem sort_sorted (l : List ProdutoComScore) :
    (sort compararScore l).Pairwise (fun a b => b.relevanciaScore ≤ a.relevanciaScore) := by
  induction l with
  | nil => simp [sort]
  | cons x xs ih =>
    unfold sort
    exact inserir_sorted x _ ih

theorem inserir_filter_score (s : Int) (x : ProdutoComScore) (l : List ProdutoComScore) :
    (inserir compararScore x l).filter (fun p => decide (p.relevanciaScore = s)) =
      (x :: l).filter (fun p => decide (p.relevanciaScore = s)) := by
  induction l with
  | nil => simp [inserir]
  | cons y ys ih =>
    unfold inserir
    split
    · rfl
    · rename_i hgt
      have hxy : x.relevanciaScore < y.relevanciaScore := by
        unfold compararScore at hgt; omega
      rw [List.filter_cons, ih]
      by_cases hx : x.relevanciaScore = s
      · have hys : ¬ y.relevanciaScore = s := by omega
        simp [List.filter_cons, hx, hys]
      · simp [List.filter_cons, hx]

theorem sort_filter_score (s : Int) (l : List ProdutoComScore) :
    (sort compararScore l).filter (fun p => decide (p.relevanciaScore = s)) =
      l.filter (fun p => decide (p.relevanciaScore = s)) := by
  induction l with
  | nil => simp [sort]
  | cons x xs ih =>
    unfold sort
    rw [inserir_filter_score, List.filter_cons, List.filter_cons, ih]

/-! ## Lemmas on the scoring pass -/

theorem produtosComScore_ok (agora : Int) (palavrasChave : List JSString) (termo : JSString)
    (todosProdutos : List Produto) (comScore : List ProdutoComScore)
    (h : produtosComScore agora palavrasChave termo todosProdutos = .ok comScore) :
    comScore.map (fun p => p.produto) = todosProdutos ∧
      ∀ p ∈ comScore,
        calcularRelevancia agora p.produto palavrasChave termo = .ok p.relevanciaScore := by
  induction todosProdutos generalizing comScore with
  | nil =>
    simp only [produtosComScore, Except.ok.injEq] at h
    subst h
    simp
  | cons produto resto ih =>
    unfold produtosComScore at h
    split at h
    · rename_i score hscore
      split at h
      · rename_i outros houtros
        simp only [Except.ok.injEq] at h
        subst h
        obtain ⟨h1, h2⟩ := ih outros houtros
        refine ⟨by simp [h1], ?_⟩
        intro p hp
        rcases List.mem_cons.mp hp with rfl | hp
        · exact hscore
        · exact h2 p hp
      · cases h
    · cases h

/-! ## C1, C2: filtering and ordering in the handler -/

/-- C1: whenever the handler of `GET /search` answers with a body, the query
is a string `consulta`, every catalog product was scored by
`calcularRelevancia` (the scored list `comScore` is the catalog, in catalog
order, each product with its score), and the list `produtosFiltrados` from
which the page is cut holds exactly the scored products with a score greater
than 0, each as often as in the catalog: none with score 0, none with a
positive score missing. `resultsFound` and `pagination.total` are both the
number of those products. -/
theorem search_lista_filtrada (agora : Int) (todosProdutos : List Produto)
    (q page limit : Parametro) (corpo : Corpo)
    (h : search agora todosProdutos q page limit = .json corpo) :
    ∃ (consulta : JSString) (comScore : List ProdutoComScore),
      q = .texto consulta ∧
      produtosComScore agora (extrairPalavrasChave consulta) (normalizarTexto consulta)
        todosProdutos = .ok comScore ∧
      comScore.map (fun p => p.produto) = todosProdutos ∧
      (∀ p ∈ comScore,
        calcularRelevancia agora p.produto (extrairPalavrasChave consulta)
          (normalizarTexto consulta) = .ok p.relevanciaScore) ∧
      (produtosFiltrados comScore).Perm
        (comScore.filter (fun p => decide (p.relevanciaScore > 0))) ∧
      (∀ p, p ∈ produtosFiltrados comScore ↔ p ∈ comScore ∧ 0 < p.relevanciaScore) ∧
      corpo.data =
        produtosPaginados (produtosFiltrados comScore)
          (do let p ← parseIntParametro page 1; let l ← parseIntParametro limit 10
              pure ((p - 1) * l))
          (parseIntParametro limit 10) ∧
      corpo.search.resultsFound =
        (comScore.filter (fun p => decide (p.relevanciaScore > 0))).length ∧
      corpo.pagination.total = corpo.search.resultsFound := by
  have hperm : ∀ cs : List ProdutoComScore,
      (produtosFiltrados cs).Perm (cs.filter (fun p => decide (p.relevanciaScore > 0))) :=
    fun cs => sort_perm compararScore _
  unfold search at h
  cases q with
  | ausente => simp at h
  | composto t => simp at h
  | texto consulta =>
    simp only at h
    split at h
    · simp at h
    · split at h
      · simp at h
      · split at h
        · simp at h
        · split at h
          · simp at h
          · rename_i comScore hcs
            simp only [Resposta.json.injEq] at h
            subst h
            obtain ⟨h1, h2⟩ := produtosComScore_ok _ _ _ _ _ hcs
            refine ⟨consulta, comScore, rfl, hcs, h1, h2, hperm comScore, ?_, rfl, ?_, rfl⟩
            · intro p
              rw [(hperm comScore).mem_iff]
              simp
            · exact (hperm comScore).length_eq

/-- Witness of C1: `GET /search?q=dress` over the two products of scenario A. -/
theorem search_lista_filtrada_witness :
    search 0 [sandalia, vestidoAzul] (.texto (js "dress")) .ausente .ausente
        = .json corpoDress ∧
      ∃ comScore : List ProdutoComScore,
        comScore.map (fun p => p.produto) = [sandalia, vestidoAzul] ∧
        (∀ p, p ∈ produtosFiltrados comScore ↔ p ∈ comScore ∧ 0 < p.relevanciaScore) ∧
        corpoDress.search.resultsFound =
          (comScore.filter (fun p => decide (p.relevanciaScore > 0))).length :=
  ⟨by decide,
    match search_lista_filtrada 0 [sandalia, vestidoAzul] (.texto (js "dress")) .ausente
        .ausente corpoDress (by decide) with
    | ⟨_, comScore, _, _, h3, _, _, h6, _, h8, _⟩ => ⟨comScore, h3, h6, h8⟩⟩

/-- C2: when the scoring pass over the catalog completes, the scored list is
the catalog in catalog order, and the filtered list of the handler
(`produtosFiltrados`) is ordered by non-increasing score and keeps candidates
of equal score in catalog order: for every score `s` the candidates of score
`s` form the same sequence in the result as in the scored catalog, and two
candidates of equal positive score that occur in the order `a`, `b` in the
scored catalog occur in that order in the result. -/
theorem produtosFiltrados_ordem_estavel (agora : Int) (palavrasChave : List JSString)
    (termo : JSString) (todosProdutos : List Produto) (comScore : List ProdutoComScore)
    (h : produtosComScore agora palavrasChave termo todosProdutos = .ok comScore) :
    comScore.map (fun p => p.produto) = todosProdutos ∧
      (produtosFiltrados comScore).Pairwise
        (fun a b => b.relevanciaScore ≤ a.relevanciaScore) ∧
      (∀ s : Int,
        (produtosFiltrados comScore).filter (fun p => decide (p.relevanciaScore = s)) =
          (comScore.filter (fun p => decide (p.relevanciaScore > 0))).filter
            (fun p => decide (p.relevanciaScore = s))) ∧
      (∀ a b : ProdutoComScore, a.relevanciaScore = b.relevanciaScore →
        0 < a.relevanciaScore → List.Sublist [a, b] comScore →
        List.Sublist [a, b] (produtosFiltrados comScore)) := by
  refine ⟨(produtosComScore_ok _ _ _ _ _ h).1, sort_sorted _, fun s => sort_filter_score s _, ?_⟩
  intro a b hab ha hsub
  have h1 := (hsub.filter (fun p => decide (p.relevanciaScore > 0))).filter
    (fun p => decide (p.relevanciaScore = a.relevanciaScore))
  have hb : 0 < b.relevanciaScore := hab ▸ ha
  have h2 : ([a, b].filter (fun p => decide (p.relevanciaScore > 0))).filter
      (fun p => decide (p.relevanciaScore = a.relevanciaScore)) = [a, b] := by
    simp [List.filter_cons, ha, hb, hab]
  rw [h2, ← sort_filter_score a.relevanciaScore] at h1
  exact h1.trans (List.filter_sublist _)

/-- Witness of C2: the scoring pass of the query "dress" over scenario A. -/
theorem produtosFiltrados_ordem_estavel_witness :
    produtosComScore 0 [js "dres"] (js "dress") [sandalia, vestidoAzul]
        = .ok [⟨sandalia, 0⟩, ⟨vestidoAzul, 100⟩] ∧
      (produtosFiltrados [⟨sandalia, 0⟩, ⟨vestidoAzul, 100⟩]).Pairwise
        (fun a b => b.relevanciaScore ≤ a.relevanciaScore) :=
  ⟨by decide,
    (produtosFiltrados_ordem_estavel 0 [js "dres"] (js "dress") [sandalia, vestidoAzul]
      [⟨sandalia, 0⟩, ⟨vestidoAzul, 100⟩] (by decide)).2.1⟩

/-! ## C3: the score and the clock -/

/-- C3, counterexample: the same product, keywords and normalized query (those
of the query "novidades") score 230 one day after the product was created and
180 forty days after it: two evaluations that differ only in the moment of
the request return different scores. -/
theorem calcularRelevancia_muda_com_o_relogio :
    calcularRelevancia 86400000 novoItem (extrairPalavrasChave (js "novidades"))
        (normalizarTexto (js "novidades")) = .ok 230 ∧
      calcularRelevancia 3456000000 novoItem (extrairPalavrasChave (js "novidades"))
        (normalizarTexto (js "novidades")) = .ok 180 := by
  decide

/-- The "novidades" block reads the clock only in the test on `createdAt`. -/
theorem pontosNovidades_relogio (agora1 agora2 : Int) (produto : Produto)
    (palavrasChave : List JSString) (termo : JSString)
    (h : buscaNovidades palavrasChave termo = true →
      ∀ criado, produto.createdAt = some criado →
        (criado > trintaDiasAtras agora1 ↔ criado > trintaDiasAtras agora2)) :
    pontosNovidades agora1 produto palavrasChave termo =
      pontosNovidades agora2 produto palavrasChave termo := by
  unfold pontosNovidades
  by_cases hb : buscaNovidades palavrasChave termo = true
  · simp only [hb, if_true]
    cases hc : produto.createdAt with
    | none => rfl
    | some criado =>
      have := h hb criado hc
      simp only [this]
  · simp [hb]

theorem calcularRelevancia_relogio (agora1 agora2 : Int) (produto : Produto)
    (palavrasChave : List JSString) (termo : JSString)
    (h : buscaNovidades palavrasChave termo = true →
      ∀ criado, produto.createdAt = some criado →
        (criado > trintaDiasAtras agora1 ↔ criado > trintaDiasAtras agora2)) :
    calcularRelevancia agora1 produto palavrasChave termo =
      calcularRelevancia agora2 produto palavrasChave termo := by
  unfold calcularRelevancia
  rw [pontosNovidades_relogio agora1 agora2 produto palavrasChave termo h]

theorem produtosComScore_relogio (agora1 agora2 : Int) (palavrasChave : List JSString)
    (termo : JSString) (todosProdutos : List Produto)
    (h : buscaNovidades palavrasChave termo = true →
      ∀ produto ∈ todosProdutos, ∀ criado, produto.createdAt = some criado →
        (criado > trintaDiasAtras agora1 ↔ criado > trintaDiasAtras agora2)) :
    produtosComScore agora1 palavrasChave termo todosProdutos =
      produtosComScore agora2 palavrasChave termo todosProdutos := by
  induction todosProdutos with
  | nil => rfl
  | cons produto resto ih =>
    have h1 := calcularRelevancia_relogio agora1 agora2 produto palavrasChave termo
      (fun hb => h hb produto (List.mem_cons_self _ _))
    have h2 := ih (fun hb p hp => h hb p (List.mem_cons_of_mem _ hp))
    unfold produtosComScore
    rw [h1, h2]

/-- C3, amended: the moment of the request reaches the result of
`calcularRelevancia` only through the test `createdAt > now - 30 days` of the
"novidades" block. Two evaluations on the same product, keywords and
normalized query, at the moments `agora1` and `agora2`, give the same result
(the same score, or the same exception) whenever that block is not entered or
the product's `createdAt` lies on the same side of the thirty-day limit at
both moments. When this holds for every product of the catalog, the same
request is answered identically at both moments: same products, same order,
same counts. -/
theorem calcularRelevancia_mesmo_resultado (agora1 agora2 : Int) :
    (∀ (produto : Produto) (palavrasChave : List JSString) (termo : JSString),
      (buscaNovidades palavrasChave termo = true →
        ∀ criado, produto.createdAt = some criado →
          (criado > trintaDiasAtras agora1 ↔ criado > trintaDiasAtras agora2)) →
      calcularRelevancia agora1 produto palavrasChave termo =
        calcularRelevancia agora2 produto palavrasChave termo) ∧
    (∀ (todosProdutos : List Produto) (consulta : JSString) (page limit : Parametro),
      (buscaNovidades (extrairPalavrasChave consulta) (normalizarTexto consulta) = true →
        ∀ produto ∈ todosProdutos, ∀ criado, produto.createdAt = some criado →
          (criado > trintaDiasAtras agora1 ↔ criado > trintaDiasAtras agora2)) →
      search agora1 todosProdutos (.texto consulta) page limit =
        search agora2 todosProdutos (.texto consulta) page limit) := by
  refine ⟨fun produto palavrasChave termo h =>
    calcularRelevancia_relogio agora1 agora2 produto palavrasChave termo h, ?_⟩
  intro todosProdutos consulta page limit h
  unfold search
  simp only
  rw [produtosComScore_relogio agora1 agora2 _ _ todosProdutos h]

/-- Witness of C3 (amended): the product of scenario B and the query
"novidades", at the moment of its creation and one day later. -/
theorem calcularRelevancia_mesmo_resultado_witness :
    buscaNovidades [js "novidade"] (js "novidades") = true ∧
      calcularRelevancia 0 novoItem [js "novidade"] (js "novidades") =
        calcularRelevancia 86400000 novoItem [js "novidade"] (js "novidades") :=
  ⟨by decide,
    (calcularRelevancia_mesmo_resultado 0 86400000).1 novoItem [js "novidade"]
      (js "novidades")
      (fun _ criado hc => by
        have h0 : criado = 0 := by
          simp only [novoItem, Option.some.injEq] at hc
          exact hc.symm
        subst h0
        decide)⟩

/-! ## C4: the score on a term that names a member of `Object.prototype` -/

/-- C4, failing input: "constructor" is a normalized query that the handler
accepts, and for every product, every keyword list and every moment
`calcularRelevancia` returns no score on it: the read
`categoryMapping["constructor"]` is the inherited constructor function, which
is truthy, and `normalizarTexto` throws on it. The handler answers 500. -/
theorem calcularRelevancia_constructor :
    normalizarTexto (js "constructor") = js "constructor" ∧
      (∀ (agora : Int) (produto : Produto) (palavrasChave : List JSString),
        calcularRelevancia agora produto palavrasChave (js "constructor") =
          .error .typeError) ∧
      search 0 [vestidoAzul] (.texto (js "constructor")) .ausente .ausente = .erro 500 := by
  refine ⟨by decide, ?_, by decide⟩
  intro agora produto palavrasChave
  have h : lerPropriedade categoryMapping (js "constructor") = .herdado := by decide
  simp [calcularRelevancia, buscarCategoria, h]

/-! ## Substrings -/

theorem startsWith_iff (s t : JSString) : startsWith s t = true ↔ t <+: s := by
  induction s generalizing t with
  | nil =>
    cases t with
    | nil => simp [startsWith]
    | cons d ds => simp [startsWith]
  | cons c cs ih =>
    cases t with
    | nil => simp [startsWith]
    | cons d ds =>
      simp only [startsWith, Bool.and_eq_true, beq_iff_eq, ih, List.cons_prefix_cons]
      constructor
      · rintro ⟨h1, h2⟩
        exact ⟨h1.symm, h2⟩
      · rintro ⟨h1, h2⟩
        exact ⟨h1.symm, h2⟩

/-- The model of `String.prototype.includes` decides the substring relation. -/
theorem includes_iff (s t : JSString) : includes s t = true ↔ t <:+: s := by
  induction s with
  | nil =>
    simp only [includes, startsWith_iff, List.prefix_nil, List.infix_nil]
  | cons c cs ih =>
    simp only [includes, Bool.or_eq_true, startsWith_iff, ih, List.infix_cons_iff]

/-! ## Property reads -/

theorem contains_iff_mem (l : List JSString) (a : JSString) :
    l.contains a = true ↔ a ∈ l := by
  simp [List.contains]

theorem lookup_mem_values {β : Type} (l : List (JSString × β)) (k : JSString) (v : β)
    (h : l.lookup k = some v) : v ∈ l.map Prod.snd := by
  induction l with
  | nil => simp [List.lookup] at h
  | cons kv rest ih =>
    obtain ⟨a, b⟩ := kv
    simp only [List.lookup] at h
    split at h
    · simp only [Option.some.injEq] at h
      simp [h]
    · simp [ih h]

/-- Every value of `categoryMapping` is a non-empty string with a non-empty
normal form: an own read is always truthy, and so is `categoriaBuscada`. -/
theorem categoryMapping_values (k v : JSString) (h : categoryMapping.lookup k = some v) :
    v ≠ [] ∧ normalizarTexto v ≠ [] := by
  have hall : ∀ w ∈ categoryMapping.map Prod.snd, w ≠ [] ∧ normalizarTexto w ≠ [] := by
    decide
  exact hall v (lookup_mem_values _ _ _ h)

/-- Every value of `colorMapping` is a non-empty string. -/
theorem colorMapping_values (k v : JSString) (h : colorMapping.lookup k = some v) :
    v ≠ [] := by
  have hall : ∀ w ∈ colorMapping.map Prod.snd, w ≠ [] := by decide
  exact hall v (lookup_mem_values _ _ _ h)

theorem lerPropriedade_of_lookup (obj : List (JSString × JSString)) (k v : JSString)
    (h : obj.lookup k = some v) : lerPropriedade obj k = .texto v := by
  simp [lerPropriedade, h]

theorem lerPropriedade_of_not_key (obj : List (JSString × JSString)) (k : JSString)
    (h : obj.lookup k = none) (hk : k ∉ objectPrototype) :
    lerPropriedade obj k = .indefinido := by
  simp [lerPropriedade, h, hk]

theorem lerPropriedade_of_herdado (obj : List (JSString × JSString)) (k : JSString)
    (h : obj.lookup k = none) (hk : k ∈ objectPrototype) :
    lerPropriedade obj k = .herdado := by
  simp [lerPropriedade, h, hk]

/-! ## C5: the category-intent rule -/

/-- Where no word read by the loop names a member of `Object.prototype`, the
loop of lines 183–188 finds the first word that is a key of `categoryMapping`
and the category block adds what the specification's rule says. -/
theorem pontosCategoria_regra (produto : Produto) (termo : JSString)
    (palavrasChave : List JSString)
    (h : ∀ w ∈ termo :: palavrasChave, w ∉ objectPrototype) :
    ∃ categoriaBuscada, buscarCategoria (termo :: palavrasChave) = .ok categoriaBuscada ∧
      pontosCategoria produto categoriaBuscada = regraCategoria produto termo palavrasChave := by
  have key : ∀ ws : List JSString, (∀ w ∈ ws, w ∉ objectPrototype) →
      buscarCategoria ws =
        .ok ((ws.find? (fun t => (categoryMapping.lookup t).isSome)).map
          (fun t => normalizarTexto ((categoryMapping.lookup t).getD []))) := by
    intro ws hws
    induction ws with
    | nil => simp [buscarCategoria]
    | cons w rest ih =>
      have hrest := ih (fun x hx => hws x (List.mem_cons_of_mem _ hx))
      cases hl : categoryMapping.lookup w with
      | none =>
        have hw := lerPropriedade_of_not_key _ _ hl (hws w (List.mem_cons_self _ _))
        simp [buscarCategoria, hw, hrest, List.find?_cons, hl]
      | some v =>
        have hw := lerPropriedade_of_lookup _ _ _ hl
        have hv := (categoryMapping_values _ _ hl).1
        simp [buscarCategoria, hw, hv, List.find?_cons, hl]
  refine ⟨_, key _ h, ?_⟩
  unfold regraCategoria
  cases hf : (termo :: palavrasChave).find? (fun t => (categoryMapping.lookup t).isSome) with
  | none => simp [pontosCategoria]
  | some t =>
    have ht : (categoryMapping.lookup t).isSome = true := by
      simpa using List.find?_some hf
    obtain ⟨v, hv⟩ := Option.isSome_iff_exists.mp ht
    have hne := (categoryMapping_values _ _ hv).2
    simp only [Option.map_some', pontosCategoria, hv, Option.getD_some, if_neg hne,
      Bool.or_eq_true, includes_iff]

/-- Witness of `pontosCategoria_regra`, on the specification's own example:
for the query "beach towel" the full query wins and the wanted category is
"canga", not "praia" from the keyword "beach". -/
theorem pontosCategoria_regra_witness :
    buscarCategoria (js "beach towel" :: [js "beach", js "towel"]) = .ok (some (js "canga")) ∧
      ∃ categoriaBuscada,
        buscarCategoria (js "beach towel" :: [js "beach", js "towel"]) = .ok categoriaBuscada ∧
        pontosCategoria vestidoAzul categoriaBuscada =
          regraCategoria vestidoAzul (js "beach towel") [js "beach", js "towel"] :=
  ⟨by decide,
    pontosCategoria_regra vestidoAzul (js "beach towel") [js "beach", js "towel"] (by decide)⟩

/-- C5, failing input: the query "constructor vestido" over the product of
scenario A. The keywords are "constructor" and "vestido"; the first element of
`[query, keywords...]` that is a key of the category alias table is "vestido",
so the rule of the specification gives +100. The loop of the code stops
earlier, at "constructor", whose read is truthy (the inherited constructor
function), and `normalizarTexto` throws: no score is returned and the handler
answers 500. -/
theorem categoria_constructor_vestido :
    extrairPalavrasChave (js "constructor vestido") = [js "constructor", js "vestido"] ∧
      regraCategoria vestidoAzul (normalizarTexto (js "constructor vestido"))
        (extrairPalavrasChave (js "constructor vestido")) = 100 ∧
      buscarCategoria (normalizarTexto (js "constructor vestido") ::
        extrairPalavrasChave (js "constructor vestido")) = .error .typeError ∧
      calcularRelevancia 0 vestidoAzul (extrairPalavrasChave (js "constructor vestido"))
        (normalizarTexto (js "constructor vestido")) = .error .typeError ∧
      search 0 [vestidoAzul] (.texto (js "constructor vestido")) .ausente .ausente
        = .erro 500 := by
  decide

/-! ## The score as a sum of the blocks -/

/-- A returned score is the sum of what the category block, the "novidades"
block and the fields add. -/
theorem calcularRelevancia_soma (agora : Int) (produto : Produto)
    (palavrasChave : List JSString) (termo : JSString) (score : Int)
    (h : calcularRelevancia agora produto palavrasChave termo = .ok score) :
    ∃ categoriaBuscada pontos,
      buscarCategoria (termo :: palavrasChave) = .ok categoriaBuscada ∧
      pontosCampos palavrasChave termo (campos produto) = .ok pontos ∧
      score = pontosCategoria produto categoriaBuscada
        + pontosNovidades agora produto palavrasChave termo + pontos := by
  unfold calcularRelevancia at h
  split at h
  · rename_i cb hcb
    split at h
    · rename_i pontos hp
      simp only [Except.ok.injEq] at h
      exact ⟨cb, pontos, hcb, hp, h.symm⟩
    · cases h
  · cases h

/-! ## C6: the new-arrivals rule -/

/-- C6: the "novidades" block of `calcularRelevancia` is entered exactly when
the normalized full query is one of "novidades", "new", "novidade", "new
arrivals" or the keyword list contains "new" or "novidades". When entered it
adds the sum of three independent bonuses: 100 if `product.new`, 50 if
`product.createdAt` is later than the moment of the request minus thirty days,
25 if the lower-cased `product.category` is one of vestido, biquini, maio,
short, saia, camiseta; otherwise it adds 0. The sum is one of 0, 25, 50, 75,
100, 125, 150, 175, and it is a summand of every returned score. -/
theorem pontosNovidades_regra (agora : Int) (produto : Produto)
    (palavrasChave : List JSString) (termo : JSString) :
    pontosNovidades agora produto palavrasChave termo =
        (if termo ∈ [js "novidades", js "new", js "novidade", js "new arrivals"] ∨
            js "new" ∈ palavrasChave ∨ js "novidades" ∈ palavrasChave then
          (if produto.new = true then 100 else 0)
          + (if ∃ criado ∈ produto.createdAt, agora - 30 * 86400000 < criado then 50 else 0)
          + (if ∃ categoria ∈ produto.category,
                toLowerCase categoria ∈
                  [js "vestido", js "biquini", js "maio", js "short", js "saia",
                   js "camiseta"] then 25 else 0)
        else 0) ∧
      pontosNovidades agora produto palavrasChave termo ∈
        ([0, 25, 50, 75, 100, 125, 150, 175] : List Int) ∧
      (∀ score, calcularRelevancia agora produto palavrasChave termo = .ok score →
        ∃ categoriaBuscada pontos,
          buscarCategoria (termo :: palavrasChave) = .ok categoriaBuscada ∧
          pontosCampos palavrasChave termo (campos produto) = .ok pontos ∧
          score = pontosCategoria produto categoriaBuscada
            + pontosNovidades agora produto palavrasChave termo + pontos) := by
  refine ⟨?_, ?_, fun score h => calcularRelevancia_soma _ _ _ _ _ h⟩
  · have hb : buscaNovidades palavrasChave termo = true ↔
        (termo ∈ [js "novidades", js "new", js "novidade", js "new arrivals"] ∨
          js "new" ∈ palavrasChave ∨ js "novidades" ∈ palavrasChave) := by
      simp only [buscaNovidades, Bool.or_eq_true, beq_iff_eq, contains_iff_mem,
        List.mem_cons, List.mem_singleton, List.not_mem_nil, or_false, or_assoc]
    unfold pontosNovidades
    by_cases hcond : buscaNovidades palavrasChave termo = true
    · rw [if_pos hcond, if_pos (hb.mp hcond)]
      congr 1
      · congr 1
        cases produto.createdAt with
        | none => simp
        | some criado => simp [trintaDiasAtras]
      · cases produto.category with
        | none => simp
        | some categoria => simp [categoriasNovidades, contains_iff_mem]
    · rw [if_neg hcond, if_neg (fun h => hcond (hb.mpr h))]
  · unfold pontosNovidades
    split
    · cases produto.createdAt <;> cases produto.category <;>
        simp only <;> split_ifs <;> decide
    · decide

/-! ## The fields as a sum -/

/-- What the fields add to a returned score: for every field the value of its
colour loop, of its full-term test and of its keyword loop. -/
theorem pontosCampos_soma (palavrasChave : List JSString) (termo : JSString)
    (cs : List (JSString × Int)) (pontos : Int)
    (h : pontosCampos palavrasChave termo cs = .ok pontos) :
    ∃ cores : List Int,
      List.Forall₂
        (fun (campo : JSString × Int) (cor : Int) =>
          pontosCor (normalizarTexto campo.1) (singularizar (normalizarTexto campo.1))
            campo.2 palavrasChave = .ok cor) cs cores ∧
      pontos = cores.sum
        + (cs.map (fun campo =>
            pontosTermoCompleto (normalizarTexto campo.1)
              (singularizar (normalizarTexto campo.1)) campo.2 termo)).sum
        + (cs.map (fun campo =>
            pontosPalavras (normalizarTexto campo.1)
              (singularizar (normalizarTexto campo.1)) campo.2 palavrasChave)).sum := by
  induction cs generalizing pontos with
  | nil =>
    simp only [pontosCampos, Except.ok.injEq] at h
    exact ⟨[], List.Forall₂.nil, by simp [← h]⟩
  | cons campo resto ih =>
    unfold pontosCampos at h
    split at h
    · rename_i p hp
      split at h
      · rename_i outros houtros
        simp only [Except.ok.injEq] at h
        obtain ⟨cores, hf, hsum⟩ := ih outros houtros
        unfold pontosCampo at hp
        simp only at hp
        split at hp
        · rename_i cor hcor
          simp only [Except.ok.injEq] at hp
          refine ⟨cor :: cores, List.Forall₂.cons hcor hf, ?_⟩
          simp only [List.sum_cons, List.map_cons]
          omega
        · cases hp
      · cases h
    · cases h

/-! ## C7: keyword matching per field -/

/-- C7, counterexample: the field "Azul" (weight 5) and the keyword "azulado".
The keyword contains the normalized field, so the rule as the specification
words it (containment in either direction) gives 5 × 2 = 10; the code tests
only whether the field contains the keyword and adds 0, and the product, which
has no other text, scores 0. -/
theorem pontosPalavra_azulado :
    normalizarTexto (js "Azul") <:+: js "azulado" ∧
      regraPalavra (normalizarTexto (js "Azul")) (singularizar (normalizarTexto (js "Azul")))
        5 (js "azulado") = 10 ∧
      pontosPalavra (normalizarTexto (js "Azul")) (singularizar (normalizarTexto (js "Azul")))
        5 (js "azulado") = 0 ∧
      calcularRelevancia 0 itemAzul [js "azulado"] (js "azulado") = .ok 0 := by
  decide

/-- The converse of `pontosCampos_soma`: when the colour loop of every field
returns, the loop over the fields returns the sum of the colour loops, of the
full-term tests and of the keyword loops. -/
theorem pontosCampos_de_cores (palavrasChave : List JSString) (termo : JSString)
    (cs : List (JSString × Int)) (cores : List Int)
    (h : List.Forall₂
      (fun (campo : JSString × Int) (cor : Int) =>
        pontosCor (normalizarTexto campo.1) (singularizar (normalizarTexto campo.1))
          campo.2 palavrasChave = .ok cor) cs cores) :
    pontosCampos palavrasChave termo cs = .ok
      (cores.sum
        + (cs.map (fun campo =>
            pontosTermoCompleto (normalizarTexto campo.1)
              (singularizar (normalizarTexto campo.1)) campo.2 termo)).sum
        + (cs.map (fun campo =>
            pontosPalavras (normalizarTexto campo.1)
              (singularizar (normalizarTexto campo.1)) campo.2 palavrasChave)).sum) := by
  induction h with
  | nil => rfl
  | cons hcor _ ih =>
    rename_i campo cor resto cores
    simp only [pontosCampos, pontosCampo, hcor, ih, List.sum_cons, List.map_cons,
      Except.ok.injEq]
    omega

/-- C7, amended: the six fields carry the weights name 5, category 4,
description 2, detailedDescription 1, material 3, color 2. For a field with
weight `w`, normalized text `n` and singular `sg`, and a keyword `k` with
`k' = singularizar k`: the keyword adds `w × 5` when `n` or `sg` equals `k` or
`k'`; otherwise `w × 2` when `k` or `k'` is a substring of `n` or of `sg` (the
field contains the keyword); otherwise 0. The contributions accumulate over
all keywords and fields: the score is returned exactly when the category
lookup and the colour loop of every field return, and it is then the sum of
the category block, the "novidades" block, the colour loops, the full-term
tests and, over every field and every keyword, what the keyword adds for the
field. For the product of scenario A and the query "vestido azul" the keywords
add 10 + 10 for the name and 20 + 0 for the category, and the score is 190. -/
theorem pontosPalavra_regra (agora : Int) (produto : Produto)
    (palavrasChave : List JSString) (termo : JSString) :
    (campos produto).map Prod.snd = [5, 4, 2, 1, 3, 2] ∧
      (campos produto).map Prod.fst =
        [produto.name.getD [], produto.category.getD [], produto.description.getD [],
         produto.detailedDescription.getD [], produto.material.getD [],
         produto.color.getD []] ∧
      (∀ (n sg : JSString) (w : Int) (k : JSString),
        pontosPalavra n sg w k =
          if n = k ∨ n = singularizar k ∨ sg = k ∨ sg = singularizar k then w * 5
          else if k <:+: n ∨ singularizar k <:+: n ∨ k <:+: sg ∨ singularizar k <:+: sg then
            w * 2
          else 0) ∧
      (∀ (n sg : JSString) (w : Int),
        pontosPalavras n sg w palavrasChave =
          (palavrasChave.map (pontosPalavra n sg w)).sum) ∧
      (∀ score, calcularRelevancia agora produto palavrasChave termo = .ok score ↔
        ∃ (categoriaBuscada : Option JSString) (cores : List Int),
          buscarCategoria (termo :: palavrasChave) = .ok categoriaBuscada ∧
          List.Forall₂
            (fun (campo : JSString × Int) (cor : Int) =>
              pontosCor (normalizarTexto campo.1) (singularizar (normalizarTexto campo.1))
                campo.2 palavrasChave = .ok cor) (campos produto) cores ∧
          score = pontosCategoria produto categoriaBuscada
            + pontosNovidades agora produto palavrasChave termo
            + (cores.sum
              + ((campos produto).map (fun campo =>
                  pontosTermoCompleto (normalizarTexto campo.1)
                    (singularizar (normalizarTexto campo.1)) campo.2 termo)).sum
              + ((campos produto).map (fun campo =>
                  (palavrasChave.map (fun k =>
                    pontosPalavra (normalizarTexto campo.1)
                      (singularizar (normalizarTexto campo.1)) campo.2 k)).sum)).sum)) ∧
      extrairPalavrasChave (js "vestido azul") = [js "vestido", js "azul"] ∧
      (campos vestidoAzul).map (fun campo =>
          (extrairPalavrasChave (js "vestido azul")).map (fun k =>
            pontosPalavra (normalizarTexto campo.1) (singularizar (normalizarTexto campo.1))
              campo.2 k)) =
        [[10, 10], [20, 0], [0, 0], [0, 0], [0, 0], [0, 0]] ∧
      calcularRelevancia agora vestidoAzul (extrairPalavrasChave (js "vestido azul"))
        (normalizarTexto (js "vestido azul")) = .ok 190 := by
  refine ⟨rfl, rfl, ?_, fun _ _ _ => rfl, ?_, by decide, by decide, ?_⟩
  · intro n sg w k
    simp only [pontosPalavra, Bool.or_eq_true, includes_iff, or_assoc]
  · intro score
    constructor
    · intro h
      obtain ⟨cb, pontos, hcb, hp, hs⟩ := calcularRelevancia_soma _ _ _ _ _ h
      obtain ⟨cores, hf, hsum⟩ := pontosCampos_soma _ _ _ _ hp
      exact ⟨cb, cores, hcb, hf, by rw [hs, hsum]; rfl⟩
    · rintro ⟨cb, cores, hcb, hf, hs⟩
      have hp := pontosCampos_de_cores palavrasChave termo _ _ hf
      unfold calcularRelevancia
      rw [hcb, hp, hs]
      rfl
  · rw [calcularRelevancia_relogio agora 0 vestidoAzul
      (extrairPalavrasChave (js "vestido azul")) (normalizarTexto (js "vestido azul"))
      (fun h => absurd h (by decide))]
    decide

/-! ## C8: the colour-alias rule -/

/-- Where no keyword names a member of `Object.prototype`, the colour loop of
a field adds, for every keyword, what the specification's rule says. -/
theorem pontosCor_regra (textoNormalizado textoSingular : JSString) (peso : Int)
    (palavrasChave : List JSString) (h : ∀ w ∈ palavrasChave, w ∉ objectPrototype) :
    pontosCor textoNormalizado textoSingular peso palavrasChave =
      .ok ((palavrasChave.map (regraCor textoNormalizado textoSingular peso)).sum) := by
  induction palavrasChave with
  | nil => simp [pontosCor]
  | cons w resto ih =>
    have hresto := ih (fun x hx => h x (List.mem_cons_of_mem _ hx))
    cases hl : colorMapping.lookup w with
    | none =>
      have hw := lerPropriedade_of_not_key _ _ hl (h w (List.mem_cons_self _ _))
      simp [pontosCor, hw, hresto, regraCor, hl]
    | some v =>
      have hw := lerPropriedade_of_lookup _ _ _ hl
      have hv := colorMapping_values _ _ hl
      simp [pontosCor, hw, hv, hresto, regraCor, hl, includes_iff]

/-- Witness of `pontosCor_regra`, on the specification's own example: the
keyword "blue" and the name "Vestido Azul" give 5 × 8 = 40. -/
theorem pontosCor_regra_witness :
    regraCor (normalizarTexto (js "Vestido Azul"))
        (singularizar (normalizarTexto (js "Vestido Azul"))) 5 (js "blue") = 40 ∧
      pontosCor (normalizarTexto (js "Vestido Azul"))
        (singularizar (normalizarTexto (js "Vestido Azul"))) 5 [js "blue"] =
        .ok (([js "blue"].map (regraCor (normalizarTexto (js "Vestido Azul"))
          (singularizar (normalizarTexto (js "Vestido Azul"))) 5)).sum) :=
  ⟨by decide,
    pontosCor_regra (normalizarTexto (js "Vestido Azul"))
      (singularizar (normalizarTexto (js "Vestido Azul"))) 5 [js "blue"] (by decide)⟩

/-- C8, failing input: the query "vestido constructor" over the product of
scenario A. The category loop stops at the keyword "vestido" without reading
"constructor". The keyword "constructor" is not a key of the colour alias
table, so the rule of the specification adds 0 for it; in the code the read
`colorMapping["constructor"]` is truthy (the inherited constructor function)
and `normalizarTexto` throws: the colour loop returns nothing, no score is
returned and the handler answers 500. -/
theorem pontosCor_vestido_constructor :
    extrairPalavrasChave (js "vestido constructor") = [js "vestido", js "constructor"] ∧
      buscarCategoria (normalizarTexto (js "vestido constructor") ::
        extrairPalavrasChave (js "vestido constructor")) = .ok (some (js "vestido")) ∧
      regraCor (normalizarTexto (js "Vestido Azul"))
        (singularizar (normalizarTexto (js "Vestido Azul"))) 5 (js "constructor") = 0 ∧
      pontosCor (normalizarTexto (js "Vestido Azul"))
        (singularizar (normalizarTexto (js "Vestido Azul"))) 5
        (extrairPalavrasChave (js "vestido constructor")) = .error .typeError ∧
      calcularRelevancia 0 vestidoAzul (extrairPalavrasChave (js "vestido constructor"))
        (normalizarTexto (js "vestido constructor")) = .error .typeError ∧
      search 0 [vestidoAzul] (.texto (js "vestido constructor")) .ausente .ausente
        = .erro 500 := by
  decide

/-! ## C9: the full-query rule -/

/-- C9: for a field with text `campo.1` and weight `campo.2`, the full-term
test adds `weight × 10`, once, when the normalized field or its singular equals
the normalized full query, and 0 otherwise. With an empty keyword list this is
the whole value of the field; with any keyword list the value of the field is
the value of the colour loop, plus this same amount, plus the value of the
keyword loop, neither of which reads the full query; so two full queries
change the value of a field by the difference of their amounts, whatever the
keywords. -/
theorem pontosCampo_termoCompleto (palavrasChave : List JSString) (termo : JSString)
    (campo : JSString × Int) :
    pontosCampo [] termo campo =
        .ok (if normalizarTexto campo.1 = termo ∨
              singularizar (normalizarTexto campo.1) = termo then campo.2 * 10 else 0) ∧
      pontosCampo palavrasChave termo campo =
        (pontosCor (normalizarTexto campo.1) (singularizar (normalizarTexto campo.1))
            campo.2 palavrasChave).map
          (fun cor =>
            cor
            + (if normalizarTexto campo.1 = termo ∨
                singularizar (normalizarTexto campo.1) = termo then campo.2 * 10 else 0)
            + pontosPalavras (normalizarTexto campo.1)
                (singularizar (normalizarTexto campo.1)) campo.2 palavrasChave) ∧
      (∀ (outroTermo : JSString) (v1 v2 : Int),
        pontosCampo palavrasChave termo campo = .ok v1 →
        pontosCampo palavrasChave outroTermo campo = .ok v2 →
        v1 - v2 =
          (if normalizarTexto campo.1 = termo ∨
              singularizar (normalizarTexto campo.1) = termo then campo.2 * 10 else 0)
          - (if normalizarTexto campo.1 = outroTermo ∨
              singularizar (normalizarTexto campo.1) = outroTermo then campo.2 * 10
             else 0)) := by
  refine ⟨?_, ?_, ?_⟩
  · simp [pontosCampo, pontosCor, pontosTermoCompleto, pontosPalavras]
  · simp only [pontosCampo, pontosTermoCompleto]
    cases pontosCor (normalizarTexto campo.1) (singularizar (normalizarTexto campo.1))
        campo.2 palavrasChave <;> rfl
  · intro outroTermo v1 v2 h1 h2
    simp only [pontosCampo, pontosTermoCompleto] at h1 h2
    cases hc : pontosCor (normalizarTexto campo.1) (singularizar (normalizarTexto campo.1))
        campo.2 palavrasChave with
    | error e => simp [hc] at h1
    | ok cor =>
      simp only [hc, Except.ok.injEq] at h1 h2
      omega

/-! ## C10: the score of scenario A -/

/-- C10, counterexample: for the product of scenario A, the keywords and the
normalized query of "dress", no evaluation returns a score of 180 or more
(the score returned at the moment 0 is 100). -/
theorem vestidoAzul_dress_abaixo_de_180 :
    ¬ ∃ score, calcularRelevancia 0 vestidoAzul (extrairPalavrasChave (js "dress"))
        (normalizarTexto (js "dress")) = .ok score ∧ 180 ≤ score := by
  have h : calcularRelevancia 0 vestidoAzul (extrairPalavrasChave (js "dress"))
      (normalizarTexto (js "dress")) = .ok 100 := by decide
  rintro ⟨score, hs, hge⟩
  rw [h] at hs
  simp only [Except.ok.injEq] at hs
  omega

/-- C10, amended: for the product `{name: "Vestido Azul", category: "vestido"}`
with `normalizedFullQuery = normalize("dress")` and
`keywords = extractKeywords("dress")`, which is the single keyword "dres",
`calcularRelevancia` returns exactly 100 at every moment: the category block
adds 100 ("dress" resolves to "vestido", the product's category) and no field
matches "dress" or "dres". -/
theorem vestidoAzul_dress_100 (agora : Int) :
    extrairPalavrasChave (js "dress") = [js "dres"] ∧
      calcularRelevancia agora vestidoAzul (extrairPalavrasChave (js "dress"))
        (normalizarTexto (js "dress")) = .ok 100 := by
  have h1 : buscarCategoria (normalizarTexto (js "dress") :: extrairPalavrasChave (js "dress"))
      = .ok (some (js "vestido")) := by decide
  have h2 : pontosCampos (extrairPalavrasChave (js "dress")) (normalizarTexto (js "dress"))
      (campos vestidoAzul) = .ok 0 := by decide
  have h3 : buscaNovidades (extrairPalavrasChave (js "dress")) (normalizarTexto (js "dress"))
      = false := by decide
  have h4 : pontosCategoria vestidoAzul (some (js "vestido")) = 100 := by decide
  refine ⟨by decide, ?_⟩
  simp [calcularRelevancia, h1, h2, pontosNovidades, h3, h4]

/-! ## When a score is returned, and its sign -/

theorem pontosCategoria_nonneg (produto : Produto) (categoriaBuscada : Option JSString) :
    0 ≤ pontosCategoria produto categoriaBuscada := by
  unfold pontosCategoria
  split
  · exact le_refl _
  · simp only
    split_ifs <;> decide

theorem pontosNovidades_nonneg (agora : Int) (produto : Produto)
    (palavrasChave : List JSString) (termo : JSString) :
    0 ≤ pontosNovidades agora produto palavrasChave termo := by
  unfold pontosNovidades
  split
  · cases produto.createdAt <;> cases produto.category <;>
      simp only <;> split_ifs <;> omega
  · exact le_refl _

theorem pontosCor_nonneg (textoNormalizado textoSingular : JSString) (peso : Int)
    (hpeso : 0 ≤ peso) (palavrasChave : List JSString) (pontos : Int)
    (h : pontosCor textoNormalizado textoSingular peso palavrasChave = .ok pontos) :
    0 ≤ pontos := by
  induction palavrasChave generalizing pontos with
  | nil =>
    simp only [pontosCor, Except.ok.injEq] at h
    omega
  | cons w resto ih =>
    unfold pontosCor at h
    split at h
    · exact ih pontos h
    · split at h
      · exact ih pontos h
      · simp only at h
        split at h
        · rename_i outros houtros
          simp only [Except.ok.injEq] at h
          have := ih outros houtros
          split_ifs at h <;> omega
        · cases h
    · cases h

theorem pontosPalavras_nonneg (textoNormalizado textoSingular : JSString) (peso : Int)
    (hpeso : 0 ≤ peso) (palavrasChave : List JSString) :
    0 ≤ pontosPalavras textoNormalizado textoSingular peso palavrasChave := by
  unfold pontosPalavras
  apply List.sum_nonneg
  intro x hx
  obtain ⟨k, _, rfl⟩ := List.mem_map.mp hx
  simp only [pontosPalavra]
  split_ifs <;> omega

theorem pontosCampos_nonneg (palavrasChave : List JSString) (termo : JSString)
    (cs : List (JSString × Int)) (hcs : ∀ campo ∈ cs, 0 ≤ campo.2) (pontos : Int)
    (h : pontosCampos palavrasChave termo cs = .ok pontos) : 0 ≤ pontos := by
  induction cs generalizing pontos with
  | nil =>
    simp only [pontosCampos, Except.ok.injEq] at h
    omega
  | cons campo resto ih =>
    have hpeso := hcs campo (List.mem_cons_self _ _)
    unfold pontosCampos at h
    split at h
    · rename_i p hp
      split at h
      · rename_i outros houtros
        simp only [Except.ok.injEq] at h
        have h1 := ih (fun c hc => hcs c (List.mem_cons_of_mem _ hc)) outros houtros
        simp only [pontosCampo] at hp
        split at hp
        · rename_i cor hcor
          simp only [Except.ok.injEq] at hp
          have h2 := pontosCor_nonneg _ _ _ hpeso _ _ hcor
          have h3 := pontosPalavras_nonneg (normalizarTexto campo.1)
            (singularizar (normalizarTexto campo.1)) campo.2 hpeso palavrasChave
          have h4 : 0 ≤ pontosTermoCompleto (normalizarTexto campo.1)
              (singularizar (normalizarTexto campo.1)) campo.2 termo := by
            unfold pontosTermoCompleto
            split_ifs <;> omega
          omega
        · cases hp
      · cases h
    · cases h

theorem campos_pesos (produto : Produto) : ∀ campo ∈ campos produto, 0 ≤ campo.2 := by
  intro campo hc
  simp only [campos, List.mem_cons, List.mem_singleton, List.not_mem_nil, or_false] at hc
  rcases hc with rfl | rfl | rfl | rfl | rfl | rfl <;> simp

/-- Every score that `calcularRelevancia` returns is non-negative. -/
theorem calcularRelevancia_nonneg (agora : Int) (produto : Produto)
    (palavrasChave : List JSString) (termo : JSString) (score : Int)
    (h : calcularRelevancia agora produto palavrasChave termo = .ok score) : 0 ≤ score := by
  obtain ⟨cb, pontos, _, hp, hs⟩ := calcularRelevancia_soma _ _ _ _ _ h
  have h1 := pontosCategoria_nonneg produto cb
  have h2 := pontosNovidades_nonneg agora produto palavrasChave termo
  have h3 := pontosCampos_nonneg _ _ _ (campos_pesos produto) _ hp
  omega

/-- No name of `objectPrototype` is an own key of either alias table. -/
theorem objectPrototype_not_keys :
    ∀ w ∈ objectPrototype, colorMapping.lookup w = none ∧ categoryMapping.lookup w = none := by
  decide

theorem pontosCor_herdado (textoNormalizado textoSingular : JSString) (peso : Int)
    (palavrasChave : List JSString) (h : ∃ w ∈ palavrasChave, w ∈ objectPrototype) :
    pontosCor textoNormalizado textoSingular peso palavrasChave = .error .typeError := by
  induction palavrasChave with
  | nil => simp at h
  | cons w resto ih =>
    by_cases hw : w ∈ objectPrototype
    · have hl := lerPropriedade_of_herdado _ _ (objectPrototype_not_keys w hw).1 hw
      simp [pontosCor, hl]
    · have hresto : ∃ x ∈ resto, x ∈ objectPrototype := by
        obtain ⟨x, hx, hxp⟩ := h
        rcases List.mem_cons.mp hx with rfl | hx
        · exact absurd hxp hw
        · exact ⟨x, hx, hxp⟩
      have hr := ih hresto
      unfold pontosCor
      split
      · exact hr
      · split
        · exact hr
        · simp [hr]
      · rfl

/-- `calcularRelevancia` throws exactly when the normalized full query or one
of the keywords names a member of `Object.prototype`; otherwise it returns a
score. -/
theorem calcularRelevancia_error_iff (agora : Int) (produto : Produto)
    (palavrasChave : List JSString) (termo : JSString) :
    calcularRelevancia agora produto palavrasChave termo = .error .typeError ↔
      ∃ w ∈ termo :: palavrasChave, w ∈ objectPrototype := by
  constructor
  · intro herr
    by_contra hno
    have hall : ∀ w ∈ termo :: palavrasChave, w ∉ objectPrototype :=
      fun w hw hp => hno ⟨w, hw, hp⟩
    obtain ⟨cb, hcb, _⟩ := pontosCategoria_regra produto termo palavrasChave hall
    have hkw : ∀ w ∈ palavrasChave, w ∉ objectPrototype :=
      fun w hw => hall w (List.mem_cons_of_mem _ hw)
    have hcampos : ∀ cs : List (JSString × Int),
        ∃ pontos, pontosCampos palavrasChave termo cs = .ok pontos := by
      intro cs
      induction cs with
      | nil => exact ⟨0, rfl⟩
      | cons campo resto ih =>
        obtain ⟨outros, houtros⟩ := ih
        simp [pontosCampos, pontosCampo, pontosCor_regra _ _ _ _ hkw, houtros]
    obtain ⟨pontos, hp⟩ := hcampos (campos produto)
    simp [calcularRelevancia, hcb, hp] at herr
  · rintro ⟨w, hw, hp⟩
    rcases List.mem_cons.mp hw with rfl | hw
    · have hl := lerPropriedade_of_herdado _ _ (objectPrototype_not_keys w hp).2 hp
      simp [calcularRelevancia, buscarCategoria, hl]
    · have hcor : ∀ campo : JSString × Int,
          pontosCampo palavrasChave termo campo = .error .typeError := by
        intro campo
        simp [pontosCampo, pontosCor_herdado _ _ _ _ ⟨w, hw, hp⟩]
      unfold calcularRelevancia
      split
      · simp [campos, pontosCampos, hcor]
      · rename_i e _
        cases e
        rfl

/-- Where neither the normalized full query nor a keyword names a member of
`Object.prototype`, `calcularRelevancia` returns a score for every product and
the scoring pass over the catalog completes. -/
theorem produtosComScore_returns (agora : Int) (palavrasChave : List JSString)
    (termo : JSString) (todosProdutos : List Produto)
    (h : ∀ w ∈ termo :: palavrasChave, w ∉ objectPrototype) :
    (∀ produto, ∃ score,
        calcularRelevancia agora produto palavrasChave termo = .ok score ∧ 0 ≤ score) ∧
      ∃ comScore, produtosComScore agora palavrasChave termo todosProdutos = .ok comScore := by
  have hcalc : ∀ produto, ∃ score,
      calcularRelevancia agora produto palavrasChave termo = .ok score ∧ 0 ≤ score := by
    intro produto
    cases hc : calcularRelevancia agora produto palavrasChave termo with
    | ok score => exact ⟨score, rfl, calcularRelevancia_nonneg _ _ _ _ _ hc⟩
    | error e =>
      cases e
      obtain ⟨w, hw, hp⟩ := (calcularRelevancia_error_iff _ _ _ _).mp hc
      exact absurd hp (h w hw)
  refine ⟨hcalc, ?_⟩
  induction todosProdutos with
  | nil => exact ⟨[], rfl⟩
  | cons produto resto ih =>
    obtain ⟨score, hscore, _⟩ := hcalc produto
    obtain ⟨outros, houtros⟩ := ih
    exact ⟨{ produto := produto, relevanciaScore := score } :: outros,
      by simp [produtosComScore, hscore, houtros]⟩

/-- Witness of `produtosComScore_returns`: the query "dress" over scenario A. -/
theorem produtosComScore_returns_witness :
    ∃ comScore, produtosComScore 0 [js "dres"] (js "dress") [sandalia, vestidoAzul]
      = .ok comScore :=
  (produtosComScore_returns 0 [js "dres"] (js "dress") [sandalia, vestidoAzul]
    (by decide)).2

/-- A request that passes validation and whose query words name no member of
`Object.prototype` is answered with a body. -/
theorem search_json_of_valid (agora : Int) (todosProdutos : List Produto)
    (consulta : JSString) (page limit : Parametro)
    (hq : trim consulta ≠ [])
    (hpage : menor (parseIntParametro page 1) (some 1) = false)
    (hlimit : menor (parseIntParametro limit 10) (some 1) = false)
    (hmax : menor (some 100) (parseIntParametro limit 10) = false)
    (hw : ∀ w ∈ normalizarTexto consulta :: extrairPalavrasChave consulta,
      w ∉ objectPrototype) :
    ∃ corpo, search agora todosProdutos (.texto consulta) page limit = .json corpo := by
  have hne : consulta ≠ [] := by
    intro h
    apply hq
    rw [h]
    rfl
  obtain ⟨comScore, hcs⟩ := (produtosComScore_returns agora _ _ todosProdutos hw).2
  unfold search
  simp only [hne, hq, or_self, if_false, hpage, hlimit, hmax, Bool.or_self, hcs]
  exact ⟨_, rfl⟩

/-- Witness of `search_json_of_valid`: `GET /search?q=dress` over scenario A. -/
theorem search_json_of_valid_witness :
    ∃ corpo, search 0 [sandalia, vestidoAzul] (.texto (js "dress")) .ausente .ausente
      = .json corpo :=
  search_json_of_valid 0 [sandalia, vestidoAzul] (js "dress") .ausente .ausente
    (by decide) (by decide) (by decide) (by decide) (by decide)

/-! ## Lemmas on keyword extraction -/

theorem mem_semDuplicatas (l : List JSString) (x : JSString) :
    x ∈ semDuplicatas l ↔ x ∈ l := by
  induction l with
  | nil => simp [semDuplicatas]
  | cons y ys ih =>
    simp only [semDuplicatas, List.mem_cons, List.mem_filter, ih, Bool.not_eq_true,
      beq_eq_false_iff_ne, ne_eq]
    constructor
    · rintro (h | ⟨h, _⟩)
      · exact Or.inl h
      · exact Or.inr h
    · rintro (h | h)
      · exact Or.inl h
      · by_cases hxy : x = y
        · exact Or.inl hxy
        · exact Or.inr ⟨h, by simp [hxy]⟩

theorem semDuplicatas_nodup (l : List JSString) : (semDuplicatas l).Nodup := by
  induction l with
  | nil => simp [semDuplicatas]
  | cons y ys ih =>
    simp only [semDuplicatas]
    refine List.nodup_cons.mpr ⟨?_, ih.filter _⟩
    simp [List.mem_filter]

theorem singularizar_length (p : JSString) (h : 2 ≤ p.length) :
    2 ≤ (singularizar p).length := by
  unfold singularizar
  split
  · rename_i hc
    rw [List.length_dropLast]
    omega
  · exact h

/-- Every keyword is the singular of a token of the normalized text that is
longer than one code unit and is not a stopword. -/
theorem extrairPalavrasChave_origem (texto p : JSString)
    (h : p ∈ extrairPalavrasChave texto) :
    ∃ t, t ∈ splitEspacos (normalizarTexto texto) ∧ 1 < t.length ∧ t ∉ stopWords ∧
      p = singularizar t := by
  unfold extrairPalavrasChave at h
  rw [mem_semDuplicatas] at h
  obtain ⟨t, ht, rfl⟩ := List.mem_map.mp h
  simp only [List.mem_filter, decide_eq_true_eq, Bool.not_eq_true', gt_iff_lt] at ht
  refine ⟨t, ht.1.1, ht.1.2, ?_, rfl⟩
  intro hmem
  have := (contains_iff_mem stopWords t).mpr hmem
  rw [this] at ht
  exact absurd ht.2 (by simp)

/-! ## C18: stopwords among the keywords -/

/-- C18, failing input: the query "paras". The token "paras" is not a
stopword, so it passes the filter of line 35; line 36 then stems it to "para",
which is a stopword, and `extrairPalavrasChave` returns it. The same happens
for "coms", "thes" and "ands". -/
theorem extrairPalavrasChave_paras :
    extrairPalavrasChave (js "paras") = [js "para"] ∧ js "para" ∈ stopWords ∧
      extrairPalavrasChave (js "coms") = [js "com"] ∧ js "com" ∈ stopWords ∧
      extrairPalavrasChave (js "thes") = [js "the"] ∧ js "the" ∈ stopWords ∧
      extrairPalavrasChave (js "ands") = [js "and"] ∧ js "and" ∈ stopWords := by
  decide

/-! ## C19: length of the keywords -/

/-- C19: every token returned by `extrairPalavrasChave` has at least two code
units, for every query string; the empty string and a string of white space
give no token at all. -/
theorem extrairPalavrasChave_length (texto : JSString) :
    (∀ p ∈ extrairPalavrasChave texto, 2 ≤ p.length) ∧
      extrairPalavrasChave [] = [] ∧
      extrairPalavrasChave (js "   ") = [] ∧
      extrairPalavrasChave (js " \t\n ") = [] := by
  refine ⟨?_, by decide, by decide, by decide⟩
  intro p hp
  obtain ⟨t, _, hlen, _, rfl⟩ := extrairPalavrasChave_origem texto p hp
  exact singularizar_length t hlen

/-! ## C20: duplicates among the keywords -/

/-- C20: the list returned by `extrairPalavrasChave` has no duplicate, for
every query string; duplicates that arise from stemming are removed too:
"vestido vestidos" gives the single keyword "vestido". -/
theorem extrairPalavrasChave_nodup (texto : JSString) :
    (extrairPalavrasChave texto).Nodup ∧
      extrairPalavrasChave (js "vestido vestidos") = [js "vestido"] := by
  refine ⟨?_, by decide⟩
  unfold extrairPalavrasChave
  exact semDuplicatas_nodup _

/-! ## Lemmas on the answered body -/

/-- What a body answered by the handler is made of: the query is a string,
the parsed page and limit passed the three comparisons of lines 306–312, the
scoring pass completed, and the fields of the body are computed from the
filtered list as in lines 411–435. -/
theorem search_json (agora : Int) (todosProdutos : List Produto)
    (q page limit : Parametro) (corpo : Corpo)
    (h : search agora todosProdutos q page limit = .json corpo) :
    ∃ (consulta : JSString) (comScore : List ProdutoComScore),
      q = .texto consulta ∧ trim consulta ≠ [] ∧
      menor (parseIntParametro page 1) (some 1) = false ∧
      menor (parseIntParametro limit 10) (some 1) = false ∧
      menor (some 100) (parseIntParametro limit 10) = false ∧
      produtosComScore agora (extrairPalavrasChave consulta) (normalizarTexto consulta)
        todosProdutos = .ok comScore ∧
      corpo =
        { data := produtosPaginados (produtosFiltrados comScore)
            (do let p ← parseIntParametro page 1; let l ← parseIntParametro limit 10
                pure ((p - 1) * l))
            (parseIntParametro limit 10)
          search :=
            { query := consulta
              normalizedQuery := normalizarTexto consulta
              keywords := extrairPalavrasChave consulta
              resultsFound := (produtosFiltrados comScore).length }
          pagination :=
            { page := parseIntParametro page 1
              limit := parseIntParametro limit 10
              total := (produtosFiltrados comScore).length
              totalPages :=
                totalPages (produtosFiltrados comScore).length (parseIntParametro limit 10)
              hasNextPage :=
                menor (parseIntParametro page 1)
                  (totalPages (produtosFiltrados comScore).length
                    (parseIntParametro limit 10))
              hasPreviousPage := menor (some 1) (parseIntParametro page 1) } } := by
  unfold search at h
  cases q with
  | ausente => simp at h
  | composto t => simp at h
  | texto consulta =>
    simp only at h
    split at h
    · simp at h
    · rename_i hq
      split at h
      · simp at h
      · rename_i hpl
        split at h
        · simp at h
        · rename_i hmax
          split at h
          · simp at h
          · rename_i comScore hcs
            simp only [Resposta.json.injEq] at h
            simp only [not_or] at hq
            simp only [Bool.or_eq_true, not_or, Bool.not_eq_true] at hpl
            simp only [Bool.not_eq_true] at hmax
            exact ⟨consulta, comScore, rfl, hq.2, hpl.1, hpl.2, hmax, hcs, h.symm⟩

theorem menor_some_false (x y : Int) : menor (some x) (some y) = false ↔ y ≤ x := by
  simp [menor]

theorem slice_length {α : Type} (xs : List α) (k L : Int) (hk : 0 ≤ k) (hL : 0 ≤ L) :
    ((slice xs (some k) (some (k + L))).length : Int) =
      max 0 (min L ((xs.length : Int) - k)) := by
  have h1 : ¬ k < 0 := by omega
  have h2 : ¬ k + L < 0 := by omega
  simp only [slice, indiceRelativo, h1, h2, if_false, List.length_take, List.length_drop]
  omega

theorem produtosPaginados_length_aux (filtrados : List ProdutoComScore) (P L : Int)
    (hP : 1 ≤ P) (hL : 1 ≤ L) :
    ((produtosPaginados filtrados (some ((P - 1) * L)) (some L)).length : Int) =
      max 0 (min L ((filtrados.length : Int) - (P - 1) * L)) := by
  have hk : 0 ≤ (P - 1) * L := mul_nonneg (by omega) (by omega)
  have hdo : (do let s ← (some ((P - 1) * L) : Numero); let l ← (some L : Numero)
                 pure (s + l)) = (some ((P - 1) * L + L) : Numero) := rfl
  unfold produtosPaginados
  rw [hdo, List.length_map]
  exact slice_length filtrados ((P - 1) * L) L hk (by omega)

/-! ## C14: length of a page -/

/-- C14: for a filtered candidate sequence of length `T`, a limit `L ≥ 1` (in
particular `1 ≤ L ≤ 100`) and a page `P ≥ 1`, the page cut by the handler has
`max(0, min(L, T − (P−1)·L))` items; a page beyond the available range is the
empty list. In every body answered by the handler whose parsed page and limit
are the integers `P` and `L`, `data` has that many items, `T` being
`pagination.total`. -/
theorem produtosPaginados_length (filtrados : List ProdutoComScore) (P L : Int)
    (hP : 1 ≤ P) (hL : 1 ≤ L) :
    ((produtosPaginados filtrados (some ((P - 1) * L)) (some L)).length : Int) =
        max 0 (min L ((filtrados.length : Int) - (P - 1) * L)) ∧
      ((filtrados.length : Int) ≤ (P - 1) * L →
        produtosPaginados filtrados (some ((P - 1) * L)) (some L) = []) ∧
      (∀ (agora : Int) (todosProdutos : List Produto) (q page limit : Parametro)
          (corpo : Corpo),
        search agora todosProdutos q page limit = .json corpo →
        parseIntParametro page 1 = some P → parseIntParametro limit 10 = some L →
        (corpo.data.length : Int) =
          max 0 (min L ((corpo.pagination.total : Int) - (P - 1) * L))) := by
  refine ⟨produtosPaginados_length_aux filtrados P L hP hL, ?_, ?_⟩
  · intro hT
    have h := produtosPaginados_length_aux filtrados P L hP hL
    apply List.eq_nil_of_length_eq_zero
    omega
  · intro agora todosProdutos q page limit corpo h hpage hlimit
    obtain ⟨consulta, comScore, _, _, _, _, _, _, hcorpo⟩ := search_json _ _ _ _ _ _ h
    rw [hcorpo, hpage, hlimit]
    exact produtosPaginados_length_aux (produtosFiltrados comScore) P L hP hL

/-- Witness of C14: three candidates, limit 2: page 2 holds one item and page 3
is empty. -/
theorem produtosPaginados_length_witness :
    produtosPaginados [⟨vestidoAzul, 3⟩, ⟨sandalia, 2⟩, ⟨itemAzul, 1⟩] (some ((2 - 1) * 2))
        (some 2) = [itemAzul] ∧
      produtosPaginados [⟨vestidoAzul, 3⟩, ⟨sandalia, 2⟩, ⟨itemAzul, 1⟩] (some ((3 - 1) * 2))
        (some 2) = [] :=
  ⟨by decide,
    (produtosPaginados_length [⟨vestidoAzul, 3⟩, ⟨sandalia, 2⟩, ⟨itemAzul, 1⟩] 3 2
      (by decide) (by decide)).2.1 (by decide)⟩

/-! ## C15: number of pages -/

theorem totalPages_spec (T : Nat) (L : Int) (hL : 1 ≤ L) :
    (T : Int) ≤ ((T : Int) + L - 1) / L * L ∧
      (∀ m : Int, (T : Int) ≤ m * L → ((T : Int) + L - 1) / L ≤ m) := by
  have hpos : 0 < L := by omega
  have hdiv := Int.emod_add_ediv ((T : Int) + L - 1) L
  have hr0 := Int.emod_nonneg ((T : Int) + L - 1) (by omega : L ≠ 0)
  have hr1 := Int.emod_lt_of_pos ((T : Int) + L - 1) hpos
  constructor
  · nlinarith
  · intro m hm
    by_contra hlt
    have h1 : m + 1 ≤ ((T : Int) + L - 1) / L := by omega
    have h2 : (m + 1) * L ≤ ((T : Int) + L - 1) / L * L :=
      Int.mul_le_mul_of_nonneg_right h1 (by omega)
    nlinarith

theorem totalPages_eq_ceil (T : Nat) (L : Int) (hL : 1 ≤ L) :
    ((T : Int) + L - 1) / L = ⌈(T : ℚ) / (L : ℚ)⌉ := by
  obtain ⟨h1, h2⟩ := totalPages_spec T L hL
  have hLq : (0 : ℚ) < (L : ℚ) := by exact_mod_cast (by omega : (0 : Int) < L)
  symm
  rw [Int.ceil_eq_iff]
  constructor
  · rw [lt_div_iff₀ hLq]
    have h3 : (((T : Int) + L - 1) / L - 1) * L < (T : Int) := by
      by_contra hge
      have := h2 (((T : Int) + L - 1) / L - 1) (by omega)
      omega
    exact_mod_cast h3
  · rw [div_le_iff₀ hLq]
    exact_mod_cast h1

/-- C15: for a total `T ≥ 0` and a limit `L ≥ 1` (in particular
`1 ≤ L ≤ 100`), `totalPages` is `ceil(T / L)`, the least integer `n` with
`n·L ≥ T`, and it is 0 when `T = 0`. In every body answered by the handler
whose parsed page and limit are the integers `P` and `L`, `totalPages` is
`ceil(total / L)`, `hasNextPage` is `P < totalPages` and `hasPreviousPage` is
`P > 1`. -/
theorem totalPages_ceil (T : Nat) (L : Int) (hL : 1 ≤ L) :
    (∃ n : Int, totalPages T (some L) = some n ∧
        n = ⌈(T : ℚ) / (L : ℚ)⌉ ∧
        (T : Int) ≤ n * L ∧ (∀ m : Int, (T : Int) ≤ m * L → n ≤ m) ∧
        (T = 0 → n = 0)) ∧
      (∀ (agora : Int) (todosProdutos : List Produto) (q page limit : Parametro)
          (corpo : Corpo) (P : Int),
        search agora todosProdutos q page limit = .json corpo →
        parseIntParametro page 1 = some P → parseIntParametro limit 10 = some L →
        corpo.pagination.totalPages =
            some ⌈(corpo.pagination.total : ℚ) / (L : ℚ)⌉ ∧
          corpo.pagination.hasNextPage =
            decide (P < ⌈(corpo.pagination.total : ℚ) / (L : ℚ)⌉) ∧
          corpo.pagination.hasPreviousPage = decide (1 < P)) := by
  constructor
  · obtain ⟨h1, h2⟩ := totalPages_spec T L hL
    refine ⟨((T : Int) + L - 1) / L, rfl, totalPages_eq_ceil T L hL, h1, h2, ?_⟩
    intro hT
    subst hT
    have h0 := h2 0 (by simp)
    have h3 : (0 : Int) ≤ ((0 : Nat) : Int) := by simp
    by_contra hne
    have hneg : (((0 : Nat) : Int) + L - 1) / L < 0 := by omega
    have hmul : (((0 : Nat) : Int) + L - 1) / L * L ≤ -1 * L :=
      Int.mul_le_mul_of_nonneg_right (by omega) (by omega)
    omega
  · intro agora todosProdutos q page limit corpo P h hpage hlimit
    obtain ⟨consulta, comScore, _, _, _, _, _, _, hcorpo⟩ := search_json _ _ _ _ _ _ h
    rw [hcorpo, hpage, hlimit]
    refine ⟨?_, ?_, ?_⟩
    · simp only [totalPages, totalPages_eq_ceil _ L hL]
    · simp only [totalPages, menor, totalPages_eq_ceil _ L hL]
    · simp only [menor]

/-- Witness of C15: 21 results with limit 10 make 3 pages, and no result makes
no page. -/
theorem totalPages_ceil_witness :
    totalPages 21 (some 10) = some 3 ∧ totalPages 0 (some 10) = some 0 ∧
      ∃ n : Int, totalPages 21 (some 10) = some n ∧ (21 : Int) ≤ n * 10 ∧
        ∀ m : Int, ((21 : Nat) : Int) ≤ m * 10 → n ≤ m :=
  ⟨by decide, by decide,
    match (totalPages_ceil 21 10 (by decide)).1 with
    | ⟨n, h1, _, h3, h4, _⟩ => ⟨n, h1, h3, h4⟩⟩

/-! ## C16: requests rejected by validation -/

/-- When `q` is absent or a string, each of the tests of lines 298–312 answers
400: `q` absent or blank after trimming, parsed page below 1, parsed limit
below 1, parsed limit above 100. -/
theorem search_rejeita (agora : Int) (todosProdutos : List Produto)
    (q page limit : Parametro) (hq : ∀ t, q ≠ .composto t)
    (h : q = .ausente ∨ (∃ s, q = .texto s ∧ trim s = []) ∨
      (∃ P, parseIntParametro page 1 = some P ∧ P < 1) ∨
      (∃ L, parseIntParametro limit 10 = some L ∧ L < 1) ∨
      (∃ L, parseIntParametro limit 10 = some L ∧ 100 < L)) :
    search agora todosProdutos q page limit = .erro 400 := by
  cases q with
  | ausente => rfl
  | composto t => exact absurd rfl (hq t)
  | texto s =>
    unfold search
    simp only
    by_cases hblank : s = [] ∨ trim s = []
    · rw [if_pos hblank]
    · rw [if_neg hblank]
      rcases h with h | ⟨s1, hs1, htrim⟩ | ⟨P, hP, hlt⟩ | ⟨L, hL, hlt⟩ | ⟨L, hL, hgt⟩
      · cases h
      · simp only [Parametro.texto.injEq] at hs1
        subst hs1
        exact absurd (Or.inr htrim) hblank
      · have : menor (parseIntParametro page 1) (some 1) = true := by
          simp [hP, menor, hlt]
        simp [this]
      · have : menor (parseIntParametro limit 10) (some 1) = true := by
          simp [hL, menor, hlt]
        simp [this]
      · have : menor (some 100) (parseIntParametro limit 10) = true := by
          simp [hL, menor, hgt]
        simp only [this, if_true]
        split <;> rfl

/-- Witness of `search_rejeita`: the four requests of scenario C, `limit=150`,
`q=""`, `q` absent and `page=0`. -/
theorem search_rejeita_witness :
    search 0 [vestidoAzul] (.texto (js "dress")) .ausente (.texto (js "150")) = .erro 400 ∧
      search 0 [vestidoAzul] (.texto (js "")) .ausente .ausente = .erro 400 ∧
      search 0 [vestidoAzul] .ausente .ausente .ausente = .erro 400 ∧
      search 0 [vestidoAzul] (.texto (js "dress")) (.texto (js "0")) .ausente = .erro 400 :=
  ⟨search_rejeita 0 [vestidoAzul] (.texto (js "dress")) .ausente (.texto (js "150"))
      (fun _ h => Parametro.noConfusion h)
      (Or.inr (Or.inr (Or.inr (Or.inr ⟨150, by decide, by decide⟩)))),
    by decide, by decide, by decide⟩

/-- C16, failing input: `GET /search?q=a&q=b&page=0`. The repeated parameter
makes `req.query.q` an array; the parsed page is 0, below 1. The array is
truthy, so line 298 goes on to `q.trim()`, which is not a function: the
`TypeError` is caught at line 437 and the handler answers 500, not 400, before
page and limit are looked at. The same holds for every page and limit. -/
theorem search_q_repetido :
    parseIntParametro (.texto (js "0")) 1 = some 0 ∧
      search 0 [vestidoAzul] (.composto (js "a,b")) (.texto (js "0")) .ausente = .erro 500 ∧
      (∀ (agora : Int) (todosProdutos : List Produto) (t : JSString) (page limit : Parametro),
        search agora todosProdutos (.composto t) page limit = .erro 500) := by
  refine ⟨by decide, by decide, ?_⟩
  intro agora todosProdutos t page limit
  rfl

/-! ## C17: what passes validation -/

/-- In every body answered by the handler the parsed page is `NaN` or an
integer of at least 1, and the parsed limit is `NaN` or an integer of 1 to
100. -/
theorem search_limites (agora : Int) (todosProdutos : List Produto)
    (q page limit : Parametro) (corpo : Corpo)
    (h : search agora todosProdutos q page limit = .json corpo) :
    (parseIntParametro page 1 = none ∨ ∃ P, parseIntParametro page 1 = some P ∧ 1 ≤ P) ∧
      (parseIntParametro limit 10 = none ∨
        ∃ L, parseIntParametro limit 10 = some L ∧ 1 ≤ L ∧ L ≤ 100) := by
  obtain ⟨_, _, _, _, hp, hl1, hl2, _, _⟩ := search_json _ _ _ _ _ _ h
  constructor
  · cases hpage : parseIntParametro page 1 with
    | none => exact Or.inl rfl
    | some P =>
      rw [hpage, menor_some_false] at hp
      exact Or.inr ⟨P, rfl, hp⟩
  · cases hlimit : parseIntParametro limit 10 with
    | none => exact Or.inl rfl
    | some L =>
      rw [hlimit, menor_some_false] at hl1 hl2
      exact Or.inr ⟨L, rfl, hl1, hl2⟩

/-- Witness of `search_limites`: `GET /search?q=dress` over scenario A. -/
theorem search_limites_witness :
    search 0 [sandalia, vestidoAzul] (.texto (js "dress")) .ausente .ausente
        = .json corpoDress ∧
      (parseIntParametro .ausente 1 = none ∨
        ∃ P, parseIntParametro .ausente 1 = some P ∧ 1 ≤ P) :=
  ⟨by decide,
    (search_limites 0 [sandalia, vestidoAzul] (.texto (js "dress")) .ausente .ausente
      corpoDress (by decide)).1⟩

/-- C17, failing input: `GET /search?q=dress&page=abc` and
`GET /search?q=dress&limit=abc`. `parseInt("abc")` is `NaN`; the comparisons
`NaN < 1` and `NaN > 100` of lines 306 and 310 are false, so the request gets
past validation without a 400 and is answered with a body whose parsed page,
or limit, is `NaN`: not an integer of at least 1. The page is cut with
`skip = NaN` and is empty although one product was found. -/
theorem search_page_nan :
    parseInt (js "abc") = none ∧
      search 0 [vestidoAzul] (.texto (js "dress")) (.texto (js "abc")) .ausente
        = .json corpoPaginaNaN ∧
      corpoPaginaNaN.pagination.page = none ∧
      search 0 [vestidoAzul] (.texto (js "dress")) .ausente (.texto (js "abc"))
        = .json corpoLimiteNaN ∧
      corpoLimiteNaN.pagination.limit = none := by
  decide

/-! ## C11: the ranking of scenario A -/

/-- A query that does not enter the "novidades" block is answered in the same
way at every moment. -/
theorem search_relogio (agora1 agora2 : Int) (todosProdutos : List Produto)
    (consulta : JSString) (page limit : Parametro)
    (h : buscaNovidades (extrairPalavrasChave consulta) (normalizarTexto consulta) = false) :
    search agora1 todosProdutos (.texto consulta) page limit =
      search agora2 todosProdutos (.texto consulta) page limit := by
  unfold search
  simp only
  rw [produtosComScore_relogio agora1 agora2 _ _ todosProdutos
    (fun hb => absurd hb (by simp [h]))]

/-- C11: searching "dress" over the catalog of scenario A, in either catalog
order and at every moment, returns exactly the vestido item. The category
alias resolves ("dress" gives the wanted category "vestido"), the vestido item
scores 100 and the sandalia item scores 0 and is excluded: `data` is the
vestido item alone and `resultsFound` is 1. -/
theorem search_dress_cenarioA (agora : Int) :
    buscarCategoria (normalizarTexto (js "dress") :: extrairPalavrasChave (js "dress"))
        = .ok (some (js "vestido")) ∧
      calcularRelevancia agora vestidoAzul (extrairPalavrasChave (js "dress"))
        (normalizarTexto (js "dress")) = .ok 100 ∧
      calcularRelevancia agora sandalia (extrairPalavrasChave (js "dress"))
        (normalizarTexto (js "dress")) = .ok 0 ∧
      search agora [vestidoAzul, sandalia] (.texto (js "dress")) .ausente .ausente
        = .json corpoDress ∧
      search agora [sandalia, vestidoAzul] (.texto (js "dress")) .ausente .ausente
        = .json corpoDress ∧
      corpoDress.data = [vestidoAzul] ∧ corpoDress.search.resultsFound = 1 := by
  have hn : buscaNovidades (extrairPalavrasChave (js "dress")) (normalizarTexto (js "dress"))
      = false := by decide
  have hrel : ∀ produto : Produto,
      calcularRelevancia agora produto (extrairPalavrasChave (js "dress"))
        (normalizarTexto (js "dress")) =
      calcularRelevancia 0 produto (extrairPalavrasChave (js "dress"))
        (normalizarTexto (js "dress")) :=
    fun produto => calcularRelevancia_relogio agora 0 produto _ _
      (fun hb => absurd hb (by simp [hn]))
  refine ⟨by decide, ?_, ?_, ?_, ?_, rfl, rfl⟩
  · rw [hrel]
    decide
  · rw [hrel]
    decide
  · rw [search_relogio agora 0 _ _ _ _ hn]
    decide
  · rw [search_relogio agora 0 _ _ _ _ hn]
    decide

/-! ## C13: a query that matches nothing -/

theorem singularizar_contido (s : JSString) : singularizar s <:+: s := by
  unfold singularizar
  split
  · exact (List.dropLast_prefix s).isInfix
  · exact List.infix_refl s

/-- A field in which the keyword does not occur gets nothing from a query made
of that single keyword, when the keyword is its own singular, is not a key of
`colorMapping` and does not name a member of `Object.prototype`. -/
theorem pontosCampo_sem_ocorrencia (k : JSString) (hs : singularizar k = k)
    (hc : colorMapping.lookup k = none) (hp : k ∉ objectPrototype)
    (campo : JSString × Int) (h : ¬ k <:+: normalizarTexto campo.1) :
    pontosCampo [k] k campo = .ok 0 := by
  have hts : ¬ k <:+: singularizar (normalizarTexto campo.1) :=
    fun hk => h (hk.trans (singularizar_contido _))
  have h1 : normalizarTexto campo.1 ≠ k := fun he => h (he ▸ List.infix_refl _)
  have h2 : singularizar (normalizarTexto campo.1) ≠ k :=
    fun he => hts (he ▸ List.infix_refl _)
  have hi1 : includes (normalizarTexto campo.1) k = false := by
    rw [← Bool.not_eq_true, includes_iff]
    exact h
  have hi2 : includes (singularizar (normalizarTexto campo.1)) k = false := by
    rw [← Bool.not_eq_true, includes_iff]
    exact hts
  have hcor := lerPropriedade_of_not_key colorMapping k hc hp
  simp [pontosCampo, pontosCor, hcor, pontosTermoCompleto, pontosPalavras, pontosPalavra,
    hs, h1, h2, hi1, hi2]

theorem pontosCampos_sem_ocorrencia (k : JSString) (hs : singularizar k = k)
    (hc : colorMapping.lookup k = none) (hp : k ∉ objectPrototype)
    (cs : List (JSString × Int)) (h : ∀ campo ∈ cs, ¬ k <:+: normalizarTexto campo.1) :
    pontosCampos [k] k cs = .ok 0 := by
  induction cs with
  | nil => rfl
  | cons campo resto ih =>
    have h1 := pontosCampo_sem_ocorrencia k hs hc hp campo (h campo (List.mem_cons_self _ _))
    have h2 := ih (fun c hcm => h c (List.mem_cons_of_mem _ hcm))
    simp [pontosCampos, h1, h2]

theorem produtosComScore_zero (agora : Int) (palavrasChave : List JSString)
    (termo : JSString) (todosProdutos : List Produto)
    (h : ∀ p ∈ todosProdutos, calcularRelevancia agora p palavrasChave termo = .ok 0) :
    produtosComScore agora palavrasChave termo todosProdutos =
        .ok (todosProdutos.map (fun p => { produto := p, relevanciaScore := 0 })) ∧
      produtosFiltrados
        (todosProdutos.map (fun p => ({ produto := p, relevanciaScore := 0 } : ProdutoComScore)))
        = [] := by
  constructor
  · induction todosProdutos with
    | nil => rfl
    | cons p resto ih =>
      have h1 := h p (List.mem_cons_self _ _)
      have h2 := ih (fun x hx => h x (List.mem_cons_of_mem _ hx))
      simp [produtosComScore, h1, h2]
  · have hf : (todosProdutos.map
        (fun p => ({ produto := p, relevanciaScore := 0 } : ProdutoComScore))).filter
        (fun p => decide (p.relevanciaScore > 0)) = [] := by
      rw [List.filter_eq_nil_iff]
      intro x hx
      obtain ⟨p, _, rfl⟩ := List.mem_map.mp hx
      simp
    unfold produtosFiltrados
    rw [hf]
    rfl

/-- C13: for the query "zzznomatch" and a catalog in which none of the six
searched texts of any product contains "zzznomatch" after normalization, every
product scores 0, and for every page `P ≥ 1` and limit `1 ≤ L ≤ 100` the
handler answers with a body, not an error, with `data = []`,
`resultsFound = 0`, `total = 0`, `totalPages = 0` and `hasNextPage = false`. -/
theorem search_zzznomatch (agora : Int) (todosProdutos : List Produto)
    (page limit : Parametro) (P L : Int)
    (hcat : ∀ p ∈ todosProdutos, ∀ campo ∈ campos p,
      ¬ js "zzznomatch" <:+: normalizarTexto campo.1)
    (hpage : parseIntParametro page 1 = some P) (hP : 1 ≤ P)
    (hlimit : parseIntParametro limit 10 = some L) (hL1 : 1 ≤ L) (hL2 : L ≤ 100) :
    (∀ p ∈ todosProdutos,
        calcularRelevancia agora p (extrairPalavrasChave (js "zzznomatch"))
          (normalizarTexto (js "zzznomatch")) = .ok 0) ∧
      search agora todosProdutos (.texto (js "zzznomatch")) page limit =
        .json
          { data := []
            search :=
              { query := js "zzznomatch"
                normalizedQuery := js "zzznomatch"
                keywords := [js "zzznomatch"]
                resultsFound := 0 }
            pagination :=
              { page := some P
                limit := some L
                total := 0
                totalPages := some 0
                hasNextPage := false
                hasPreviousPage := decide (1 < P) } } := by
  have hkw : extrairPalavrasChave (js "zzznomatch") = [js "zzznomatch"] := by decide
  have hnorm : normalizarTexto (js "zzznomatch") = js "zzznomatch" := by decide
  have hscore : ∀ p ∈ todosProdutos,
      calcularRelevancia agora p [js "zzznomatch"] (js "zzznomatch") = .ok 0 := by
    intro p hp
    have hcat0 : buscarCategoria [js "zzznomatch", js "zzznomatch"] = .ok none := by decide
    have hnov : buscaNovidades [js "zzznomatch"] (js "zzznomatch") = false := by decide
    have hcampos := pontosCampos_sem_ocorrencia (js "zzznomatch") (by decide) (by decide)
      (by decide) (campos p) (hcat p hp)
    simp [calcularRelevancia, hcat0, hcampos, pontosCategoria, pontosNovidades, hnov]
  rw [hkw, hnorm]
  refine ⟨hscore, ?_⟩
  obtain ⟨hcs, hfil⟩ := produtosComScore_zero agora _ _ todosProdutos hscore
  have hq : ¬ (js "zzznomatch" = [] ∨ trim (js "zzznomatch") = []) := by decide
  have hm1 : menor (some P) (some 1) = false := (menor_some_false P 1).mpr hP
  have hm2 : menor (some L) (some 1) = false := (menor_some_false L 1).mpr hL1
  have hm3 : menor (some 100) (some L) = false := (menor_some_false 100 L).mpr hL2
  have htp : totalPages 0 (some L) = some 0 := by
    simp only [totalPages, Nat.cast_zero, zero_add, Option.some.injEq]
    exact Int.ediv_eq_zero_of_lt (by omega) (by omega)
  have hnext : menor (some P) (some 0) = false := (menor_some_false P 0).mpr (by omega)
  unfold search
  simp only [hq, if_false, hpage, hlimit, hm1, hm2, hm3, Bool.or_self, hkw, hnorm, hcs, hfil,
    List.length_nil, htp, hnext, Bool.false_eq_true]
  simp [produtosPaginados, slice, menor]

/-- Witness of C13: the query "zzznomatch" over scenario A, first page. -/
theorem search_zzznomatch_witness :
    (∀ p ∈ [vestidoAzul, sandalia], ∀ campo ∈ campos p,
        ¬ js "zzznomatch" <:+: normalizarTexto campo.1) ∧
      (∀ p ∈ [vestidoAzul, sandalia],
        calcularRelevancia 0 p (extrairPalavrasChave (js "zzznomatch"))
          (normalizarTexto (js "zzznomatch")) = .ok 0) :=
  ⟨by decide,
    (search_zzznomatch 0 [vestidoAzul, sandalia] .ausente .ausente 1 10 (by decide) rfl
      (by decide) rfl (by decide) (by decide)).1⟩

/-! ## C12: the ranking of scenario B -/

/-- C12, counterexample: on day 366, for the query "novidades", two sandals
with the same six texts, one flagged `new` and created the day before, the
other not flagged and created a year earlier. The first scores 150 and the
second scores 0, so the second is filtered out: the result is the first
product alone, and the second is not in it to be preceded. -/
theorem search_novidades_sandalias :
    calcularRelevancia 31622400000 sandaliaNova (extrairPalavrasChave (js "novidades"))
        (normalizarTexto (js "novidades")) = .ok 150 ∧
      calcularRelevancia 31622400000 sandaliaVelha (extrairPalavrasChave (js "novidades"))
        (normalizarTexto (js "novidades")) = .ok 0 ∧
      search 31622400000 [sandaliaVelha, sandaliaNova] (.texto (js "novidades")) .ausente
        .ausente = .json corpoNovidades ∧
      sandaliaVelha ∉ corpoNovidades.data := by
  decide

theorem sublist_pair_of_mem {α : Type} (a b : α) (l : List α) (ha : a ∈ l) (hb : b ∈ l)
    (hab : a ≠ b) : List.Sublist [a, b] l ∨ List.Sublist [b, a] l := by
  induction l with
  | nil => simp at ha
  | cons x xs ih =>
    by_cases hax : a = x
    · have hbx : b ∈ xs := by
        rcases List.mem_cons.mp hb with h | h
        · exact absurd (hax.trans h.symm) hab
        · exact h
      subst hax
      exact Or.inl (List.Sublist.cons₂ a (List.singleton_sublist.mpr hbx))
    · have haxs : a ∈ xs := by
        rcases List.mem_cons.mp ha with h | h
        · exact absurd h hax
        · exact h
      by_cases hbx : b = x
      · subst hbx
        exact Or.inr (List.Sublist.cons₂ b (List.singleton_sublist.mpr haxs))
      · have hbxs : b ∈ xs := by
          rcases List.mem_cons.mp hb with h | h
          · exact absurd h hbx
          · exact h
        rcases ih haxs hbxs with h | h
        · exact Or.inl (List.Sublist.cons x h)
        · exact Or.inr (List.Sublist.cons x h)

theorem pontosCategoria_congr (p1 p2 : Produto) (h : p1.category = p2.category)
    (categoriaBuscada : Option JSString) :
    pontosCategoria p1 categoriaBuscada = pontosCategoria p2 categoriaBuscada := by
  simp only [pontosCategoria, h]

/-- In the "novidades" block a product flagged `new` and created within the
last thirty days gets at least 150. -/
theorem pontosNovidades_novo (agora : Int) (palavrasChave : List JSString)
    (termo : JSString) (hb : buscaNovidades palavrasChave termo = true)
    (p : Produto) (c : Int) (hn : p.new = true) (hc : p.createdAt = some c)
    (hr : trintaDiasAtras agora < c) :
    150 ≤ pontosNovidades agora p palavrasChave termo := by
  have h1 : c > trintaDiasAtras agora := hr
  simp only [pontosNovidades, hb, if_true, hn, hc, h1]
  cases p.category with
  | none => simp
  | some cat =>
    simp only
    split_ifs <;> omega

/-- In the "novidades" block a product flagged `new` and created within the
last thirty days gets 150 more than a product of the same category that is
not flagged and was not created within the last thirty days. -/
theorem pontosNovidades_diferenca (agora : Int) (palavrasChave : List JSString)
    (termo : JSString) (hb : buscaNovidades palavrasChave termo = true)
    (p1 p2 : Produto) (c1 c2 : Int) (hcat : p1.category = p2.category)
    (hn1 : p1.new = true) (hc1 : p1.createdAt = some c1) (hr1 : trintaDiasAtras agora < c1)
    (hn2 : p2.new = false) (hc2 : p2.createdAt = some c2) (hr2 : c2 ≤ trintaDiasAtras agora) :
    pontosNovidades agora p1 palavrasChave termo =
      pontosNovidades agora p2 palavrasChave termo + 150 := by
  have h2 : ¬ c2 > trintaDiasAtras agora := by omega
  have h1 : c1 > trintaDiasAtras agora := hr1
  simp only [pontosNovidades, hb, if_true, hn1, hn2, hc1, hc2, h1, h2, if_false, hcat,
    Bool.false_eq_true]
  cases p2.category with
  | none => simp
  | some c =>
    simp only
    split_ifs <;> omega

theorem mem_comScore_of_mem (agora : Int) (palavrasChave : List JSString) (termo : JSString)
    (todosProdutos : List Produto) (comScore : List ProdutoComScore)
    (h : produtosComScore agora palavrasChave termo todosProdutos = .ok comScore)
    (p : Produto) (s : Int) (hp : p ∈ todosProdutos)
    (hs : calcularRelevancia agora p palavrasChave termo = .ok s) :
    ({ produto := p, relevanciaScore := s } : ProdutoComScore) ∈ comScore := by
  obtain ⟨hmap, hscores⟩ := produtosComScore_ok _ _ _ _ _ h
  rw [← hmap] at hp
  obtain ⟨e, he, hep⟩ := List.mem_map.mp hp
  have hsc := hscores e he
  rw [hep, hs] at hsc
  have hes : s = e.relevanciaScore := Except.ok.inj hsc
  have heq : e = { produto := p, relevanciaScore := s } := by
    cases e
    simp only at hep hes
    rw [hep, hes]
  exact heq ▸ he

/-- C12, amended: for the query "novidades" and any moment `agora`, every
product with `new = true` and `createdAt` within the last thirty days scores
at least 150. For two products with identical name, category, description,
detailedDescription, material and color, the first with `new = true` and
created within the last thirty days, the second with `new = false` and created
more than thirty days ago, the first scores exactly 150 more than the second.
In the result of any catalog that holds both, the first is present; the second
is present exactly when its score is positive, and then the first precedes it;
the second never precedes the first. -/
theorem search_novidades_ordem (agora : Int) :
    (∀ (p : Produto) (c : Int), p.new = true → p.createdAt = some c →
        trintaDiasAtras agora < c →
        ∃ s, calcularRelevancia agora p (extrairPalavrasChave (js "novidades"))
          (normalizarTexto (js "novidades")) = .ok s ∧ 150 ≤ s) ∧
      (∀ (p1 p2 : Produto) (c1 c2 : Int),
        p1.name = p2.name → p1.category = p2.category →
        p1.description = p2.description →
        p1.detailedDescription = p2.detailedDescription →
        p1.material = p2.material → p1.color = p2.color →
        p1.new = true → p1.createdAt = some c1 → trintaDiasAtras agora < c1 →
        p2.new = false → p2.createdAt = some c2 → c2 < trintaDiasAtras agora →
        ∃ s1 s2,
          calcularRelevancia agora p1 (extrairPalavrasChave (js "novidades"))
            (normalizarTexto (js "novidades")) = .ok s1 ∧
          calcularRelevancia agora p2 (extrairPalavrasChave (js "novidades"))
            (normalizarTexto (js "novidades")) = .ok s2 ∧
          s1 = s2 + 150 ∧
          ∀ (todosProdutos : List Produto) (comScore : List ProdutoComScore),
            produtosComScore agora (extrairPalavrasChave (js "novidades"))
              (normalizarTexto (js "novidades")) todosProdutos = .ok comScore →
            p1 ∈ todosProdutos → p2 ∈ todosProdutos →
            ({ produto := p1, relevanciaScore := s1 } : ProdutoComScore) ∈
                produtosFiltrados comScore ∧
              (({ produto := p2, relevanciaScore := s2 } : ProdutoComScore) ∈
                produtosFiltrados comScore ↔ 0 < s2) ∧
              (0 < s2 →
                List.Sublist
                  [({ produto := p1, relevanciaScore := s1 } : ProdutoComScore),
                   { produto := p2, relevanciaScore := s2 }]
                  (produtosFiltrados comScore)) ∧
              ¬ List.Sublist
                  [({ produto := p2, relevanciaScore := s2 } : ProdutoComScore),
                   { produto := p1, relevanciaScore := s1 }]
                  (produtosFiltrados comScore)) := by
  have hb : buscaNovidades (extrairPalavrasChave (js "novidades"))
      (normalizarTexto (js "novidades")) = true := by decide
  have hall : ∀ w ∈ normalizarTexto (js "novidades") :: extrairPalavrasChave (js "novidades"),
      w ∉ objectPrototype := by decide
  have hret := fun p => (produtosComScore_returns agora _ _ [] hall).1 p
  constructor
  · intro p c hn hc hr
    obtain ⟨s, hs, _⟩ := hret p
    obtain ⟨cb, pontos, _, hp, hsum⟩ := calcularRelevancia_soma _ _ _ _ _ hs
    have h1 := pontosCategoria_nonneg p cb
    have h2 := pontosNovidades_novo agora _ _ hb p c hn hc hr
    have h3 := pontosCampos_nonneg _ _ _ (campos_pesos p) _ hp
    exact ⟨s, hs, by omega⟩
  · intro p1 p2 c1 c2 hname hcat hdesc hdet hmat hcol hn1 hc1 hr1 hn2 hc2 hr2
    obtain ⟨s1, hs1, _⟩ := hret p1
    obtain ⟨s2, hs2, _⟩ := hret p2
    obtain ⟨cb1, f1, hcb1, hf1, hsum1⟩ := calcularRelevancia_soma _ _ _ _ _ hs1
    obtain ⟨cb2, f2, hcb2, hf2, hsum2⟩ := calcularRelevancia_soma _ _ _ _ _ hs2
    have hcb : cb1 = cb2 := by
      rw [hcb1] at hcb2
      exact Except.ok.inj hcb2
    have hcampos : campos p1 = campos p2 := by
      simp only [campos, hname, hcat, hdesc, hdet, hmat, hcol]
    have hf : f1 = f2 := by
      rw [hcampos, hf2] at hf1
      exact (Except.ok.inj hf1).symm
    have hdiff := pontosNovidades_diferenca agora _ _ hb p1 p2 c1 c2 hcat hn1 hc1 hr1 hn2
      hc2 (by omega)
    have hcatp := pontosCategoria_congr p1 p2 hcat cb2
    have hs : s1 = s2 + 150 := by
      rw [hsum1, hsum2, hcb, hf, hcatp, hdiff]
      omega
    refine ⟨s1, s2, hs1, hs2, hs, ?_⟩
    intro todosProdutos comScore hcs hm1 hm2
    have he1 := mem_comScore_of_mem _ _ _ _ _ hcs p1 s1 hm1 hs1
    have he2 := mem_comScore_of_mem _ _ _ _ _ hcs p2 s2 hm2 hs2
    have hs2nn : 0 ≤ s2 := calcularRelevancia_nonneg _ _ _ _ _ hs2
    have hperm : (produtosFiltrados comScore).Perm
        (comScore.filter (fun p => decide (p.relevanciaScore > 0))) :=
      sort_perm compararScore _
    have hmem : ∀ e, e ∈ produtosFiltrados comScore ↔
        e ∈ comScore ∧ 0 < e.relevanciaScore := by
      intro e
      rw [hperm.mem_iff]
      simp
    have hsorted : (produtosFiltrados comScore).Pairwise
        (fun a b => b.relevanciaScore ≤ a.relevanciaScore) := sort_sorted _
    have hnot : ¬ List.Sublist
        [({ produto := p2, relevanciaScore := s2 } : ProdutoComScore),
         { produto := p1, relevanciaScore := s1 }] (produtosFiltrados comScore) := by
      intro hsub
      have hpw := List.Pairwise.sublist hsub hsorted
      simp only [List.pairwise_cons, List.mem_singleton, forall_eq] at hpw
      omega
    have hin1 := (hmem { produto := p1, relevanciaScore := s1 }).mpr
      ⟨he1, by show 0 < s1; omega⟩
    refine ⟨hin1, ?_, ?_, hnot⟩
    · constructor
      · intro h
        exact ((hmem _).mp h).2
      · intro h
        exact (hmem _).mpr ⟨he2, h⟩
    · intro hpos
      have hin2 := (hmem { produto := p2, relevanciaScore := s2 }).mpr ⟨he2, hpos⟩
      have hne : ({ produto := p1, relevanciaScore := s1 } : ProdutoComScore) ≠
          { produto := p2, relevanciaScore := s2 } := by
        intro heq
        have := congrArg ProdutoComScore.relevanciaScore heq
        simp only at this
        omega
      rcases sublist_pair_of_mem _ _ _ hin1 hin2 hne with h | h
      · exact h
      · exact absurd h hnot

/-- Witness of C12 (amended): the sandal of scenario B flagged `new` and
created the day before scores at least 150 on day 366. -/
theorem search_novidades_ordem_witness :
    ∃ s, calcularRelevancia 31622400000 sandaliaNova (extrairPalavrasChave (js "novidades"))
      (normalizarTexto (js "novidades")) = .ok s ∧ 150 ≤ s :=
  (search_novidades_ordem 31622400000).1 sandaliaNova 31536000000 rfl rfl (by decide)

/-! ## Lemmas on `trim` -/

theorem trimStart_of_head (s : JSString)
    (h : ∀ c, s.head? = some c → isWhiteSpace c = false) : trimStart s = s := by
  cases s with
  | nil => rfl
  | cons c cs =>
    have hc := h c rfl
    simp [trimStart, hc]

theorem head_trimStart (s : JSString) (c : Nat) (h : (trimStart s).head? = some c) :
    isWhiteSpace c = false := by
  induction s with
  | nil => simp [trimStart] at h
  | cons d ds ih =>
    unfold trimStart at h
    split at h
    · exact ih h
    · rename_i hd
      simp only [List.head?_cons, Option.some.injEq] at h
      subst h
      simpa using hd

theorem getLast_trimStart (s : JSString) (c : Nat) (h : (trimStart s).getLast? = some c) :
    s.getLast? = some c := by
  induction s with
  | nil => simp [trimStart] at h
  | cons d ds ih =>
    unfold trimStart at h
    split at h
    · have h1 := ih h
      cases ds with
      | nil => simp at h1
      | cons e es => simpa [List.getLast?_cons_cons] using h1
    · exact h

theorem mem_trimStart (s : JSString) (c : Nat) (h : c ∈ trimStart s) : c ∈ s := by
  induction s with
  | nil => simp [trimStart] at h
  | cons d ds ih =>
    unfold trimStart at h
    split at h
    · exact List.mem_cons_of_mem _ (ih h)
    · exact h

theorem mem_trim (s : JSString) (c : Nat) (h : c ∈ trim s) : c ∈ s := by
  unfold trim at h
  rw [List.mem_reverse] at h
  have h1 := mem_trimStart _ _ h
  rw [List.mem_reverse] at h1
  exact mem_trimStart _ _ h1

/-- The result of `trim` neither starts nor ends with white space. -/
theorem trim_aparado (s : JSString) :
    (∀ c, (trim s).head? = some c → isWhiteSpace c = false) ∧
      (∀ c, (trim s).getLast? = some c → isWhiteSpace c = false) := by
  unfold trim
  constructor
  · intro c hc
    rw [List.head?_reverse] at hc
    have h1 := getLast_trimStart _ _ hc
    rw [List.getLast?_reverse] at h1
    exact head_trimStart _ _ h1
  · intro c hc
    rw [List.getLast?_reverse] at hc
    exact head_trimStart _ _ hc

/-- A string that neither starts nor ends with white space is left unchanged by
`trim`. -/
theorem trim_of_aparado (s : JSString)
    (h1 : ∀ c, s.head? = some c → isWhiteSpace c = false)
    (h2 : ∀ c, s.getLast? = some c → isWhiteSpace c = false) : trim s = s := by
  unfold trim
  rw [trimStart_of_head s h1, trimStart_of_head s.reverse, List.reverse_reverse]
  intro c hc
  rw [List.head?_reverse] at hc
  exact h2 c hc

theorem trim_trim (s : JSString) : trim (trim s) = trim s :=
  trim_of_aparado _ (trim_aparado s).1 (trim_aparado s).2

/-! ## Lemmas on the canonical ordering -/

theorem inserirMarca_perm (c : Nat) (l : List Nat) : (inserirMarca c l).Perm (c :: l) := by
  induction l with
  | nil => exact List.Perm.refl _
  | cons d ds ih =>
    unfold inserirMarca
    split_ifs
    · exact ((List.Perm.cons d ih).trans (List.Perm.swap c d ds))
    · exact List.Perm.refl _

theorem ordenarMarcas_perm (l : List Nat) : (ordenarMarcas l).Perm l := by
  induction l with
  | nil => exact List.Perm.refl _
  | cons c cs ih =>
    exact (inserirMarca_perm c _).trans (List.Perm.cons c ih)

theorem mem_ordenarMarcas (l : List Nat) (u : Nat) : u ∈ ordenarMarcas l ↔ u ∈ l :=
  (ordenarMarcas_perm l).mem_iff

theorem inserirMarca_of_starter (c : Nat) (l : List Nat) (h : ccc c = 0) :
    inserirMarca c l = c :: l := by
  cases l with
  | nil => rfl
  | cons d ds =>
    unfold inserirMarca
    rw [if_neg]
    omega

/-- A text without marks of non-zero combining class is in canonical order. -/
theorem ordenarMarcas_of_starters (l : List Nat) (h : ∀ c ∈ l, ccc c = 0) :
    ordenarMarcas l = l := by
  induction l with
  | nil => rfl
  | cons c cs ih =>
    have hc := h c (List.mem_cons_self _ _)
    have hcs := ih (fun d hd => h d (List.mem_cons_of_mem _ hd))
    simp only [ordenarMarcas, hcs, inserirMarca_of_starter c cs hc]

theorem removerAcentos_inserirMarca (c : Nat) (l : List Nat) (h : isCombiningMark c = true) :
    removerAcentos (inserirMarca c l) = removerAcentos l := by
  induction l with
  | nil => simp [inserirMarca, removerAcentos, h]
  | cons d ds ih =>
    unfold inserirMarca
    split_ifs
    · simp only [removerAcentos, List.filter_cons] at ih ⊢
      rw [ih]
    · simp [removerAcentos, List.filter_cons, h]

/-- The canonical reordering is not seen after the removal of the accents when
every mark that it moves is one of U+0300–U+036F. -/
theorem removerAcentos_ordenarMarcas (l : List Nat)
    (h : ∀ c ∈ l, ccc c ≠ 0 → isCombiningMark c = true) :
    removerAcentos (ordenarMarcas l) = removerAcentos l := by
  induction l with
  | nil => rfl
  | cons c cs ih =>
    have hcs := ih (fun d hd => h d (List.mem_cons_of_mem _ hd))
    by_cases hc : ccc c = 0
    · simp only [ordenarMarcas, inserirMarca_of_starter c _ hc]
      simp only [removerAcentos, List.filter_cons] at hcs ⊢
      rw [hcs]
    · have hm := h c (List.mem_cons_self _ _) hc
      simp only [ordenarMarcas, removerAcentos_inserirMarca c _ hm, hcs]
      simp [removerAcentos, List.filter_cons, hm]


/-! ## The repertoire of the model, code unit by code unit -/

theorem repertorio_marca (c : Nat) (h : isCombiningMark c = true) :
    ∃ i, i < 0x70 ∧ c = 0x300 + i := by
  simp only [isCombiningMark, decide_eq_true_eq] at h
  exact ⟨c - 0x300, by omega, by omega⟩

theorem unidade_estavel_latina :
    ∀ c < 0x180, ∀ u ∈ ((lowerUnit c).map decomporUnit).flatten,
      isCombiningMark u = true ∨ (lowerUnit u = [u] ∧ decomporUnit u = [u] ∧ ccc u = 0) := by
  decide!

theorem unidade_estavel_marca :
    ∀ i < 0x70, ∀ u ∈ ((lowerUnit (0x300 + i)).map decomporUnit).flatten,
      isCombiningMark u = true ∨ (lowerUnit u = [u] ∧ decomporUnit u = [u] ∧ ccc u = 0) := by
  decide!

/-- What is left of a code unit of the repertoire (U+0000–U+017F and the
combining marks U+0300–U+036F) after lower-casing and decomposition is a
combining mark of U+0300–U+036F or a code unit of combining class 0 that
lower-casing and decomposition leave unchanged. -/
theorem unidade_estavel (c u : Nat) (hc : c < 0x180 ∨ isCombiningMark c = true)
    (hu : u ∈ ((lowerUnit c).map decomporUnit).flatten) :
    isCombiningMark u = true ∨ (lowerUnit u = [u] ∧ decomporUnit u = [u] ∧ ccc u = 0) := by
  rcases hc with hc | hc
  · exact unidade_estavel_latina c hc u hu
  · obtain ⟨i, hi, rfl⟩ := repertorio_marca c hc
    exact unidade_estavel_marca i hi u hu

theorem decompor_marcas_latina :
    ∀ c < 0x180, ∀ u ∈ decomporUnit c, ccc u ≠ 0 → isCombiningMark u = true := by
  decide!

theorem decompor_marcas_marca :
    ∀ i < 0x70, ∀ u ∈ decomporUnit (0x300 + i), ccc u ≠ 0 → isCombiningMark u = true := by
  decide!

theorem decompor_marcas (c u : Nat) (hc : c < 0x180 ∨ isCombiningMark c = true)
    (hu : u ∈ decomporUnit c) (h : ccc u ≠ 0) : isCombiningMark u = true := by
  rcases hc with hc | hc
  · exact decompor_marcas_latina c hc u hu h
  · obtain ⟨i, hi, rfl⟩ := repertorio_marca c hc
    exact decompor_marcas_marca i hi u hu h

theorem lower_lower_latina :
    ∀ c < 0x180, ((lowerUnit c).map lowerUnit).flatten = lowerUnit c := by
  decide!

theorem lower_lower_marca :
    ∀ i < 0x70, ((lowerUnit (0x300 + i)).map lowerUnit).flatten = lowerUnit (0x300 + i) := by
  decide!

theorem lower_lower (c : Nat) (hc : c < 0x180 ∨ isCombiningMark c = true) :
    ((lowerUnit c).map lowerUnit).flatten = lowerUnit c := by
  rcases hc with hc | hc
  · exact lower_lower_latina c hc
  · obtain ⟨i, hi, rfl⟩ := repertorio_marca c hc
    exact lower_lower_marca i hi

theorem lower_upper_latina :
    ∀ c < 0x180, c ∉ [0xB5, 0xDF, 0x131, 0x149, 0x17F, 0x345] →
      ((upperUnit c).map lowerUnit).flatten = lowerUnit c := by
  decide!

theorem lower_upper_marca :
    ∀ i < 0x70, 0x300 + i ∉ [0xB5, 0xDF, 0x131, 0x149, 0x17F, 0x345] →
      ((upperUnit (0x300 + i)).map lowerUnit).flatten = lowerUnit (0x300 + i) := by
  decide!

theorem lower_upper (c : Nat) (hc : c < 0x180 ∨ isCombiningMark c = true)
    (he : c ∉ [0xB5, 0xDF, 0x131, 0x149, 0x17F, 0x345]) :
    ((upperUnit c).map lowerUnit).flatten = lowerUnit c := by
  rcases hc with hc | hc
  · exact lower_upper_latina c hc he
  · obtain ⟨i, hi, rfl⟩ := repertorio_marca c hc
    exact lower_upper_marca i hi he

theorem decompor_lower_latina :
    ∀ c < 0x180,
      removerAcentos ((lowerUnit c).map decomporUnit).flatten =
        ((removerAcentos (decomporUnit c)).map lowerUnit).flatten := by
  decide!

theorem decompor_lower_marca :
    ∀ i < 0x70,
      removerAcentos ((lowerUnit (0x300 + i)).map decomporUnit).flatten =
        ((removerAcentos (decomporUnit (0x300 + i))).map lowerUnit).flatten := by
  decide!

theorem decompor_lower (c : Nat) (hc : c < 0x180 ∨ isCombiningMark c = true) :
    removerAcentos ((lowerUnit c).map decomporUnit).flatten =
      ((removerAcentos (decomporUnit c)).map lowerUnit).flatten := by
  rcases hc with hc | hc
  · exact decompor_lower_latina c hc
  · obtain ⟨i, hi, rfl⟩ := repertorio_marca c hc
    exact decompor_lower_marca i hi


/-! ## The steps of `normalizarTexto` on the repertoire -/

theorem flatten_map_unidades (f : Nat → List Nat) (l : List Nat) (h : ∀ u ∈ l, f u = [u]) :
    (l.map f).flatten = l := by
  induction l with
  | nil => rfl
  | cons u us ih =>
    simp only [List.map_cons, List.flatten_cons, h u (List.mem_cons_self _ _),
      ih (fun v hv => h v (List.mem_cons_of_mem _ hv)), List.singleton_append]

theorem flatten_map_flatten_map (f g : Nat → List Nat) (l : List Nat) :
    (((l.map f).flatten).map g).flatten = (l.map (fun c => ((f c).map g).flatten)).flatten := by
  induction l with
  | nil => rfl
  | cons c cs ih =>
    simp only [List.map_cons, List.flatten_cons, List.map_append, List.flatten_append, ih]

theorem removerAcentos_flatten_map (f : Nat → List Nat) (l : List Nat) :
    removerAcentos (l.map f).flatten = (l.map (fun c => removerAcentos (f c))).flatten := by
  induction l with
  | nil => rfl
  | cons c cs ih =>
    simp only [removerAcentos, List.map_cons, List.flatten_cons, List.filter_append] at ih ⊢
    rw [ih]

theorem mem_flatten_map (f : Nat → List Nat) (l : List Nat) (u : Nat) :
    u ∈ (l.map f).flatten ↔ ∃ a ∈ l, u ∈ f a := by
  simp only [List.mem_flatten, List.mem_map, exists_exists_and_eq_and]

theorem flatten_map_congr (f g : Nat → List Nat) (l : List Nat) (h : ∀ c ∈ l, f c = g c) :
    (l.map f).flatten = (l.map g).flatten := by
  rw [List.map_congr_left h]

/-- Every code unit of `removerAcentos (nfd (toLowerCase x))`, for a text `x`
of the repertoire, has combining class 0, is left unchanged by lower-casing and
by decomposition, and is not a combining mark of U+0300–U+036F. -/
theorem unidades_estaveis (x : JSString)
    (hx : ∀ c ∈ x, c < 0x180 ∨ isCombiningMark c = true) (u : Nat)
    (hu : u ∈ removerAcentos (nfd (toLowerCase x))) :
    lowerUnit u = [u] ∧ decomporUnit u = [u] ∧ ccc u = 0 ∧ isCombiningMark u = false := by
  simp only [removerAcentos, nfd, toLowerCase, List.mem_filter, mem_ordenarMarcas,
    flatten_map_flatten_map, Bool.not_eq_true', List.mem_flatten, List.mem_map,
    exists_exists_and_eq_and] at hu
  obtain ⟨⟨c, hc, hcu⟩, hm⟩ := hu
  rcases unidade_estavel c u (hx c hc) ((mem_flatten_map _ _ _).mpr hcu) with
    h | ⟨h1, h2, h3⟩
  · rw [hm] at h
    cases h
  · exact ⟨h1, h2, h3, hm⟩

/-- A text of code units of combining class 0 that are neither changed by
lower-casing or decomposition nor removed as accents is left unchanged by the
first three steps of `normalizarTexto`. -/
theorem passos_de_estaveis (y : JSString)
    (h : ∀ u ∈ y, lowerUnit u = [u] ∧ decomporUnit u = [u] ∧ ccc u = 0 ∧
      isCombiningMark u = false) :
    removerAcentos (nfd (toLowerCase y)) = y := by
  have h1 : toLowerCase y = y := flatten_map_unidades _ _ (fun u hu => (h u hu).1)
  have h2 : (y.map decomporUnit).flatten = y :=
    flatten_map_unidades _ _ (fun u hu => (h u hu).2.1)
  have h3 : ordenarMarcas y = y := ordenarMarcas_of_starters _ (fun u hu => (h u hu).2.2.1)
  have h4 : removerAcentos y = y := by
    unfold removerAcentos
    rw [List.filter_eq_self]
    intro u hu
    simp [(h u hu).2.2.2]
  rw [h1, nfd, h2, h3, h4]

theorem toLowerCase_toLowerCase (x : JSString)
    (hx : ∀ c ∈ x, c < 0x180 ∨ isCombiningMark c = true) :
    toLowerCase (toLowerCase x) = toLowerCase x := by
  unfold toLowerCase
  rw [flatten_map_flatten_map]
  exact flatten_map_congr _ _ _ (fun c hc => lower_lower c (hx c hc))

theorem toLowerCase_toUpperCase (x : JSString)
    (hx : ∀ c ∈ x, (c < 0x180 ∨ isCombiningMark c = true) ∧
      c ∉ [0xB5, 0xDF, 0x131, 0x149, 0x17F, 0x345]) :
    toLowerCase (toUpperCase x) = toLowerCase x := by
  unfold toLowerCase toUpperCase
  rw [flatten_map_flatten_map]
  exact flatten_map_congr _ _ _ (fun c hc => lower_upper c (hx c hc).1 (hx c hc).2)

/-- On the repertoire the canonical reordering of `nfd (toLowerCase x)` is not
seen after the removal of the accents. -/
theorem removerAcentos_nfd_lower (x : JSString)
    (hx : ∀ c ∈ x, c < 0x180 ∨ isCombiningMark c = true) :
    removerAcentos (nfd (toLowerCase x)) =
      (x.map (fun c => removerAcentos ((lowerUnit c).map decomporUnit).flatten)).flatten := by
  unfold nfd toLowerCase
  rw [removerAcentos_ordenarMarcas, flatten_map_flatten_map, removerAcentos_flatten_map]
  intro u hu hccc
  simp only [flatten_map_flatten_map, List.mem_flatten, List.mem_map,
    exists_exists_and_eq_and] at hu
  obtain ⟨c, hc, hcu⟩ := hu
  rcases unidade_estavel c u (hx c hc) ((mem_flatten_map _ _ _).mpr hcu) with h | ⟨_, _, h3⟩
  · exact h
  · exact absurd h3 hccc

theorem removerAcentos_nfd (x : JSString)
    (hx : ∀ c ∈ x, c < 0x180 ∨ isCombiningMark c = true) :
    removerAcentos (nfd x) = (x.map (fun c => removerAcentos (decomporUnit c))).flatten := by
  unfold nfd
  rw [removerAcentos_ordenarMarcas, removerAcentos_flatten_map]
  intro u hu hccc
  simp only [List.mem_flatten, List.mem_map, exists_exists_and_eq_and] at hu
  obtain ⟨c, hc, hcu⟩ := hu
  exact decompor_marcas c u (hx c hc) hcu hccc

/-- On the repertoire lower-casing commutes with the removal of accents. -/
theorem removerAcentos_nfd_toLowerCase (x : JSString)
    (hx : ∀ c ∈ x, c < 0x180 ∨ isCombiningMark c = true) :
    removerAcentos (nfd (toLowerCase x)) = toLowerCase (removerAcentos (nfd x)) := by
  rw [removerAcentos_nfd_lower x hx, removerAcentos_nfd x hx]
  unfold toLowerCase
  rw [flatten_map_flatten_map]
  exact flatten_map_congr _ _ _ (fun c hc => decompor_lower c (hx c hc))

/-! ## C21: `normalizarTexto` twice -/

/-- C21, counterexample: the text `a`, patah (U+05B7), grapheme joiner (U+034F),
hiriq (U+05B4). The joiner, of combining class 0, keeps the two Hebrew points
in their order during the first decomposition and is then removed with the
accents, being in U+0300–U+036F; the second normalization finds the points
adjacent and puts hiriq (class 14) before patah (class 17). -/
theorem normalizarTexto_patah_hiriq :
    nfd [0x61, 0x5B7, 0x34F, 0x5B4] = [0x61, 0x5B7, 0x34F, 0x5B4] ∧
      normalizarTexto [0x61, 0x5B7, 0x34F, 0x5B4] = [0x61, 0x5B7, 0x5B4] ∧
      nfd [0x61, 0x5B7, 0x5B4] = [0x61, 0x5B4, 0x5B7] ∧
      normalizarTexto (normalizarTexto [0x61, 0x5B7, 0x34F, 0x5B4]) = [0x61, 0x5B4, 0x5B7] ∧
      normalizarTexto (normalizarTexto [0x61, 0x5B7, 0x34F, 0x5B4]) ≠
        normalizarTexto [0x61, 0x5B7, 0x34F, 0x5B4] := by
  decide

/-- C21, amended: `normalizarTexto` is idempotent on every text of the
characters U+0000–U+017F (Basic Latin, Latin-1 Supplement, Latin Extended-A)
and the combining marks U+0300–U+036F, and the empty string is normalized to
the empty string. -/
theorem normalizarTexto_idempotente (x : JSString)
    (hx : ∀ c ∈ x, c < 0x180 ∨ isCombiningMark c = true) :
    normalizarTexto (normalizarTexto x) = normalizarTexto x ∧
      normalizarTexto (js "") = js "" := by
  refine ⟨?_, by decide⟩
  have hpassos : removerAcentos (nfd (toLowerCase (normalizarTexto x))) = normalizarTexto x :=
    passos_de_estaveis _ (fun u hu => unidades_estaveis x hx u (mem_trim _ _ hu))
  show trim (removerAcentos (nfd (toLowerCase (normalizarTexto x)))) = normalizarTexto x
  rw [hpassos]
  exact trim_trim _

/-- Witness of C21 (amended): " Sandália  Ž" is normalized to "sandalia  z",
which is normalized to itself. -/
theorem normalizarTexto_idempotente_witness :
    (∀ c ∈ js " Sandália  Ž", c < 0x180 ∨ isCombiningMark c = true) ∧
      normalizarTexto (js " Sandália  Ž") = js "sandalia  z" ∧
      normalizarTexto (normalizarTexto (js " Sandália  Ž")) = normalizarTexto (js " Sandália  Ž") :=
  ⟨by decide, by decide, (normalizarTexto_idempotente (js " Sandália  Ž") (by decide)).1⟩

/-! ## C22: case and accents -/

/-- C22, counterexample: the upper case of "ß" is "SS", so "ß" is normalized to
itself and its upper case to "ss"; likewise "Straße" is normalized to "straße"
and "STRASSE", its upper case, to "strasse". -/
theorem normalizarTexto_eszett :
    toUpperCase (js "ß") = js "SS" ∧
      normalizarTexto (js "ß") = js "ß" ∧
      normalizarTexto (toUpperCase (js "ß")) = js "ss" ∧
      toUpperCase (js "Straße") = js "STRASSE" ∧
      normalizarTexto (js "Straße") = js "straße" ∧
      normalizarTexto (toUpperCase (js "Straße")) = js "strasse" := by
  decide

/-- C22, amended: on texts of the characters U+0000–U+017F (Basic Latin,
Latin-1 Supplement, Latin Extended-A) and the combining marks U+0300–U+036F,
`normalize(toLowerCase(x)) = normalize(x)`; `normalize(toUpperCase(x)) =
normalize(x)` when `x` holds none of the micro sign (U+00B5), "ß" (U+00DF), the
dotless "ı" (U+0131), "ŉ" (U+0149), the long "ſ" (U+017F) and the combining
iota subscript (U+0345), and for each of these six the equation fails; and two
texts that differ only by accents on their letters, that is, that are equal
once decomposed and stripped of the combining marks U+0300–U+036F, normalize to
the same string. So `normalize("Vestido") = normalize("vestido") =
normalize("VESTIDO")` and `normalize("Sandália") = "sandalia"`, whether the
accent is part of the letter or a combining mark after it. -/
theorem normalizarTexto_insensivel :
    (∀ x : JSString, (∀ c ∈ x, c < 0x180 ∨ isCombiningMark c = true) →
        normalizarTexto (toLowerCase x) = normalizarTexto x) ∧
      (∀ x : JSString,
        (∀ c ∈ x, (c < 0x180 ∨ isCombiningMark c = true) ∧
          c ∉ [0xB5, 0xDF, 0x131, 0x149, 0x17F, 0x345]) →
        normalizarTexto (toUpperCase x) = normalizarTexto x) ∧
      (∀ c ∈ [0xB5, 0xDF, 0x131, 0x149, 0x17F, 0x345],
        normalizarTexto (toUpperCase [c]) ≠ normalizarTexto [c]) ∧
      (∀ x y : JSString, (∀ c ∈ x, c < 0x180 ∨ isCombiningMark c = true) →
        (∀ c ∈ y, c < 0x180 ∨ isCombiningMark c = true) →
        removerAcentos (nfd x) = removerAcentos (nfd y) →
        normalizarTexto x = normalizarTexto y) ∧
      normalizarTexto (js "Vestido") = normalizarTexto (js "vestido") ∧
      normalizarTexto (js "vestido") = normalizarTexto (js "VESTIDO") ∧
      toUpperCase (js "Vestido") = js "VESTIDO" ∧
      normalizarTexto (js "Sandália") = js "sandalia" ∧
      normalizarTexto (js "Sandalia") = js "sandalia" ∧
      normalizarTexto (js "Sanda\u0301lia") = js "sandalia" := by
  refine ⟨?_, ?_, by decide, ?_, by decide, by decide, by decide, by decide, by decide,
    by decide⟩
  · intro x hx
    simp only [normalizarTexto, toLowerCase_toLowerCase x hx]
  · intro x hx
    simp only [normalizarTexto, toLowerCase_toUpperCase x hx]
  · intro x y hx hy hxy
    simp only [normalizarTexto, removerAcentos_nfd_toLowerCase x hx,
      removerAcentos_nfd_toLowerCase y hy, hxy]

/-- Witness of C22 (amended): "Žena" holds letters of Basic Latin and of Latin
Extended-A, its upper case is "ŽENA", and both are normalized to "zena". -/
theorem normalizarTexto_insensivel_witness :
    (∀ c ∈ js "Žena", (c < 0x180 ∨ isCombiningMark c = true) ∧
        c ∉ [0xB5, 0xDF, 0x131, 0x149, 0x17F, 0x345]) ∧
      toUpperCase (js "Žena") = js "ŽENA" ∧
      normalizarTexto (js "Žena") = js "zena" ∧
      normalizarTexto (toUpperCase (js "Žena")) = normalizarTexto (js "Žena") :=
  ⟨by decide, by decide, by decide, normalizarTexto_insensivel.2.1 (js "Žena") (by decide)⟩

/-! ## C23: `singularizar` -/

/-- C23: a word longer than 3 code units that ends with "s" loses its last code
unit (`v ++ "s"` becomes `v`); every other word, of length at most 3 or not
ending with "s", is returned unchanged. So "vestidos" gives "vestido", "lens"
gives "len", "bus" gives "bus" and "azul" gives "azul". -/
theorem singularizar_regra (w : JSString) :
    (3 < w.length → w.getLast? = some 0x73 → singularizar w = w.dropLast) ∧
      (∀ v : JSString, w = v ++ js "s" → 3 < w.length → singularizar w = v) ∧
      (w.length ≤ 3 ∨ w.getLast? ≠ some 0x73 → singularizar w = w) ∧
      (w.length ≤ 3 ∨ (¬ ∃ v, w = v ++ js "s") → singularizar w = w) ∧
      singularizar (js "vestidos") = js "vestido" ∧
      singularizar (js "lens") = js "len" ∧
      singularizar (js "bus") = js "bus" ∧
      singularizar (js "azul") = js "azul" := by
  have hs : js "s" = [0x73] := by decide
  have hpos : 3 < w.length → w.getLast? = some 0x73 → singularizar w = w.dropLast := by
    intro h1 h2
    simp [singularizar, endsWithUnit, h1, h2]
  have hneg : w.length ≤ 3 ∨ w.getLast? ≠ some 0x73 → singularizar w = w := by
    intro h
    unfold singularizar endsWithUnit
    rw [if_neg]
    rintro ⟨h1, h2⟩
    rcases h with h | h
    · omega
    · exact h (by simpa using h2)
  refine ⟨hpos, ?_, hneg, ?_, by decide, by decide, by decide, by decide⟩
  · intro v hv hlen
    rw [hpos hlen (by rw [hv, hs]; simp), hv, hs, List.dropLast_concat]
  · intro h
    apply hneg
    rcases h with h | h
    · exact Or.inl h
    · refine Or.inr (fun hlast => h ?_)
      obtain ⟨ys, hys⟩ := List.getLast?_eq_some_iff.mp hlast
      exact ⟨ys, by rw [hys, hs]⟩

/-! ## C24: the keys of the alias tables -/

/-- C24, counterexample: "maiô" is a key of `categoryMapping` and is not
normalized: its normal form is "maio". -/
theorem categoryMapping_maio :
    js "maiô" ∈ categoryMapping.map Prod.fst ∧
      normalizarTexto (js "maiô") = js "maio" ∧
      normalizarTexto (js "maiô") ≠ js "maiô" := by
  decide

/-- C24, amended: every key of `colorMapping` is a normalized, lower-case
string. Every key of `categoryMapping` is lower-case and trimmed, and is
normalized except the five keys written with an accent, "maiô", "maiôs",
"sandálias", "calçados" and "acessórios"; the normal form of each of these five
is another key of the table, with the same canonical token. -/
theorem aliasTables_keys :
    (∀ k ∈ colorMapping.map Prod.fst, normalizarTexto k = k) ∧
      (∀ k ∈ categoryMapping.map Prod.fst,
        toLowerCase k = k ∧ trim k = k ∧
          (normalizarTexto k = k ∨
            k ∈ [js "maiô", js "maiôs", js "sandálias", js "calçados", js "acessórios"])) ∧
      (∀ k ∈ [js "maiô", js "maiôs", js "sandálias", js "calçados", js "acessórios"],
        k ∈ categoryMapping.map Prod.fst ∧ normalizarTexto k ≠ k ∧
          normalizarTexto k ∈ categoryMapping.map Prod.fst ∧
          categoryMapping.lookup (normalizarTexto k) = categoryMapping.lookup k) := by
  refine ⟨by decide, by decide, by decide⟩

/-! ## C25: what a term resolves to -/

/-- A term that does not name a member of `Object.prototype` resolves through
an alias table exactly when it is one of the table's own keys, and then to the
value listed for that key; otherwise the read is `undefined`. -/
theorem lerPropriedade_exato (obj : List (JSString × JSString)) (k : JSString)
    (hk : k ∉ objectPrototype) :
    (∀ v, lerPropriedade obj k = .texto v ↔ obj.lookup k = some v) ∧
      (lerPropriedade obj k = .indefinido ↔ obj.lookup k = none) ∧
      lerPropriedade obj k ≠ .herdado := by
  cases h : obj.lookup k with
  | none => simp [lerPropriedade, h, hk]
  | some w => simp [lerPropriedade, h]

/-- Witness of `lerPropriedade_exato`: "dres" is not a key, "dress" is. -/
theorem lerPropriedade_exato_witness :
    lerPropriedade categoryMapping (js "dres") = .indefinido ∧
      (lerPropriedade categoryMapping (js "dres") = .indefinido ↔
        categoryMapping.lookup (js "dres") = none) :=
  ⟨by decide, (lerPropriedade_exato categoryMapping (js "dres") (by decide)).2.1⟩

/-- C25, failing input: the term "constructor" (and "__proto__"). The listed
keys resolve to their canonical token and the near-miss "dres" resolves to
nothing, as the claim says. "constructor" is not a key of either table, yet
the reads `categoryMapping["constructor"]` and `colorMapping["constructor"]`
yield the function inherited from `Object.prototype`: the term resolves to
something, `normalizarTexto` throws on it, scoring fails and the handler
answers 500. -/
theorem lerPropriedade_constructor :
    lerPropriedade categoryMapping (js "dress") = .texto (js "vestido") ∧
      lerPropriedade categoryMapping (js "dresses") = .texto (js "vestido") ∧
      lerPropriedade categoryMapping (js "vestido") = .texto (js "vestido") ∧
      lerPropriedade categoryMapping (js "vestidos") = .texto (js "vestido") ∧
      lerPropriedade categoryMapping (js "new") = .texto (js "novidades") ∧
      lerPropriedade categoryMapping (js "novelty") = .texto (js "novidades") ∧
      lerPropriedade categoryMapping (js "novidades") = .texto (js "novidades") ∧
      lerPropriedade colorMapping (js "red") = .texto (js "Vermelho") ∧
      lerPropriedade categoryMapping (js "dres") = .indefinido ∧
      categoryMapping.lookup (js "constructor") = none ∧
      colorMapping.lookup (js "constructor") = none ∧
      lerPropriedade categoryMapping (js "constructor") = .herdado ∧
      lerPropriedade colorMapping (js "constructor") = .herdado ∧
      lerPropriedade categoryMapping (js "__proto__") = .herdado ∧
      calcularRelevancia 0 sandalia (extrairPalavrasChave (js "constructor"))
        (normalizarTexto (js "constructor")) = .error .typeError ∧
      search 0 [sandalia] (.texto (js "__proto__")) .ausente .ausente = .erro 500 := by
  decide

/-! ## C26: products without a category -/

theorem buscarCategoria_ne_nil (palavras : List JSString) (buscada : JSString)
    (h : buscarCategoria palavras = .ok (some buscada)) : buscada ≠ [] := by
  induction palavras with
  | nil => simp [buscarCategoria] at h
  | cons w resto ih =>
    unfold buscarCategoria at h
    cases hl : categoryMapping.lookup w with
    | none =>
      by_cases hw : w ∈ objectPrototype
      · simp [lerPropriedade, hl, hw] at h
      · simp only [lerPropriedade, hl, hw, contains_iff_mem, if_false] at h
        exact ih h
    | some v =>
      have hv := categoryMapping_values _ _ hl
      simp only [lerPropriedade, hl, hv.1, if_false, Except.ok.injEq, Option.some.injEq] at h
      rw [← h]
      exact hv.2

/-- For a product whose category is absent, empty or blank, the category block
adds exactly 80 whenever the loop of lines 183–188 resolved a wanted category;
every score returned for such a product is then at least 80, and the product
is in the filtered list of every scoring pass that completes. -/
theorem pontosCategoria_sem_categoria (agora : Int) (produto : Produto)
    (palavrasChave : List JSString) (termo buscada : JSString)
    (hcat : normalizarTexto (produto.category.getD []) = [])
    (hb : buscarCategoria (termo :: palavrasChave) = .ok (some buscada)) :
    pontosCategoria produto (some buscada) = 80 ∧
      (∀ score, calcularRelevancia agora produto palavrasChave termo = .ok score →
        80 ≤ score) ∧
      (∀ (todosProdutos : List Produto) (comScore : List ProdutoComScore),
        produtosComScore agora palavrasChave termo todosProdutos = .ok comScore →
        produto ∈ todosProdutos →
        produto ∈ (produtosFiltrados comScore).map (fun p => p.produto)) := by
  have hne := buscarCategoria_ne_nil _ _ hb
  have h80 : pontosCategoria produto (some buscada) = 80 := by
    have h1 : includes buscada [] = true := (includes_iff _ _).mpr List.nil_infix
    have h2 : ([] : JSString) ≠ buscada := fun h => hne h.symm
    simp [pontosCategoria, hne, hcat, h1, h2]
  have hscore : ∀ score, calcularRelevancia agora produto palavrasChave termo = .ok score →
      80 ≤ score := by
    intro score hs
    obtain ⟨cb, pontos, hcb, hp, hsum⟩ := calcularRelevancia_soma _ _ _ _ _ hs
    rw [hb] at hcb
    have hcb2 : some buscada = cb := Except.ok.inj hcb
    subst hcb2
    have h2 := pontosNovidades_nonneg agora produto palavrasChave termo
    have h3 := pontosCampos_nonneg _ _ _ (campos_pesos produto) _ hp
    omega
  refine ⟨h80, hscore, ?_⟩
  intro todosProdutos comScore hcs hmem
  obtain ⟨hmap, hscores⟩ := produtosComScore_ok _ _ _ _ _ hcs
  rw [← hmap] at hmem
  obtain ⟨e, he, hep⟩ := List.mem_map.mp hmem
  have hes := hscores e he
  rw [hep] at hes
  have hpos := hscore _ hes
  have hperm : (produtosFiltrados comScore).Perm
      (comScore.filter (fun p => decide (p.relevanciaScore > 0))) :=
    sort_perm compararScore _
  refine List.mem_map.mpr ⟨e, ?_, hep⟩
  rw [hperm.mem_iff, List.mem_filter]
  exact ⟨he, by simp only [gt_iff_lt, decide_eq_true_eq]; omega⟩

/-- Witness of `pontosCategoria_sem_categoria`: the query "vestido" and a
product without a category. -/
theorem pontosCategoria_sem_categoria_witness :
    buscarCategoria (js "vestido" :: [js "vestido"]) = .ok (some (js "vestido")) ∧
      pontosCategoria semCategoria (some (js "vestido")) = 80 :=
  ⟨by decide,
    (pontosCategoria_sem_categoria 0 semCategoria [js "vestido"] (js "vestido")
      (js "vestido") (by decide) (by decide)).1⟩

/-- C26, failing input: `GET /search?q=vestido constructor` over a catalog with
a product without a category. The category loop resolves the wanted category
"vestido" and the category block adds 80 for the product, as the claim says.
The colour loop then reads `colorMapping["constructor"]`, the inherited
function, and `normalizarTexto` throws: the product gets no score and is not
returned; the handler answers 500. -/
theorem sem_categoria_vestido_constructor :
    semCategoria.category = none ∧
      buscarCategoria (normalizarTexto (js "vestido constructor") ::
        extrairPalavrasChave (js "vestido constructor")) = .ok (some (js "vestido")) ∧
      pontosCategoria semCategoria (some (js "vestido")) = 80 ∧
      calcularRelevancia 0 semCategoria (extrairPalavrasChave (js "vestido constructor"))
        (normalizarTexto (js "vestido constructor")) = .error .typeError ∧
      search 0 [semCategoria] (.texto (js "vestido constructor")) .ausente .ausente
        = .erro 500 := by
  decide

/-! ## C27: a category word inside a longer query -/

theorem lookup_mem_keys {β : Type} (l : List (JSString × β)) (k : JSString)
    (h : (l.lookup k).isSome = true) : k ∈ l.map Prod.fst := by
  induction l with
  | nil => simp [List.lookup] at h
  | cons kv rest ih =>
    obtain ⟨a, b⟩ := kv
    simp only [List.lookup] at h
    split at h
    · rename_i hka
      have : k = a := by simpa using hka
      simp [this]
    · simp [ih h]

theorem buscarCategoria_find (palavras : List JSString)
    (h : ∀ w ∈ palavras, w ∉ objectPrototype) :
    buscarCategoria palavras =
      .ok ((palavras.find? (fun t => (categoryMapping.lookup t).isSome)).map
        (fun t => normalizarTexto ((categoryMapping.lookup t).getD []))) := by
  induction palavras with
  | nil => simp [buscarCategoria]
  | cons w rest ih =>
    have hrest := ih (fun x hx => h x (List.mem_cons_of_mem _ hx))
    cases hl : categoryMapping.lookup w with
    | none =>
      have hw := lerPropriedade_of_not_key _ _ hl (h w (List.mem_cons_self _ _))
      simp [buscarCategoria, hw, hrest, List.find?_cons, hl]
    | some v =>
      have hw := lerPropriedade_of_lookup _ _ _ hl
      have hv := (categoryMapping_values _ _ hl).1
      simp [buscarCategoria, hw, hv, List.find?_cons, hl]

/-- A token of the normalized query that is a key of `categoryMapping` and is
its own singular makes the category loop resolve a wanted category, when no
word read names a member of `Object.prototype`. -/
theorem buscarCategoria_de_token (q t : JSString)
    (ht : t ∈ splitEspacos (normalizarTexto q))
    (hk : (categoryMapping.lookup t).isSome = true) (hs : singularizar t = t)
    (hno : ∀ w ∈ normalizarTexto q :: extrairPalavrasChave q, w ∉ objectPrototype) :
    ∃ buscada, buscarCategoria (normalizarTexto q :: extrairPalavrasChave q)
      = .ok (some buscada) := by
  have hkeys : ∀ k ∈ categoryMapping.map Prod.fst, 1 < k.length ∧ k ∉ stopWords := by
    decide
  obtain ⟨hlen, hstop⟩ := hkeys t (lookup_mem_keys _ _ hk)
  have hmem : t ∈ extrairPalavrasChave q := by
    unfold extrairPalavrasChave
    rw [mem_semDuplicatas]
    refine List.mem_map.mpr ⟨t, ?_, hs⟩
    simp only [List.mem_filter, decide_eq_true_eq, Bool.not_eq_true', gt_iff_lt]
    refine ⟨⟨ht, hlen⟩, ?_⟩
    rw [← Bool.not_eq_true, contains_iff_mem]
    exact hstop
  rw [buscarCategoria_find _ hno]
  have hex : ∃ w ∈ normalizarTexto q :: extrairPalavrasChave q,
      (categoryMapping.lookup w).isSome = true :=
    ⟨t, List.mem_cons_of_mem _ hmem, hk⟩
  cases hf : (normalizarTexto q :: extrairPalavrasChave q).find?
      (fun t => (categoryMapping.lookup t).isSome) with
  | none =>
    rw [List.find?_eq_none] at hf
    obtain ⟨w, hw, hwk⟩ := hex
    exact absurd hwk (hf w hw)
  | some w => exact ⟨_, rfl⟩

/-- Witness of `buscarCategoria_de_token`: the query "blue vestido". -/
theorem buscarCategoria_de_token_witness :
    ∃ buscada, buscarCategoria (normalizarTexto (js "blue vestido") ::
      extrairPalavrasChave (js "blue vestido")) = .ok (some buscada) :=
  buscarCategoria_de_token (js "blue vestido") (js "vestido") (by decide) (by decide)
    (by decide) (by decide)

/-- C27, failing input: the query "blue dress". Its token "dress" is a key of
the category alias table. `extrairPalavrasChave` stems it to "dres", which is
not a key, and the full query "blue dress" is not a key either: the category
loop resolves nothing, and the vestido product gets only the 40 points of the
colour "blue", without any category bonus. -/
theorem buscarCategoria_blue_dress :
    splitEspacos (normalizarTexto (js "blue dress")) = [js "blue", js "dress"] ∧
      (categoryMapping.lookup (js "dress")).isSome = true ∧
      extrairPalavrasChave (js "blue dress") = [js "blue", js "dres"] ∧
      buscarCategoria (normalizarTexto (js "blue dress") ::
        extrairPalavrasChave (js "blue dress")) = .ok none ∧
      calcularRelevancia 0 vestidoAzul (extrairPalavrasChave (js "blue dress"))
        (normalizarTexto (js "blue dress")) = .ok 40 := by
  decide

/-! ## C28: colour names through keyword extraction -/

/-- C28, failing input: the colour key "moss". It is longer than 3 code units
and ends with "s", so `extrairPalavrasChave("moss")` is `["mos"]`, which is
not a key of `colorMapping`: the query "moss" never reaches the colour-alias
rule, and a product of the colour "Musgo" scores 0 for it. Every other key of
`colorMapping` is extracted unchanged. -/
theorem extrairPalavrasChave_moss :
    js "moss" ∈ colorMapping.map Prod.fst ∧
      extrairPalavrasChave (js "moss") = [js "mos"] ∧
      colorMapping.lookup (js "mos") = none ∧
      colorMapping.lookup (js "moss") = some (js "Musgo") ∧
      calcularRelevancia 0 itemMusgo (extrairPalavrasChave (js "moss"))
        (normalizarTexto (js "moss")) = .ok 0 ∧
      (∀ k ∈ colorMapping.map Prod.fst, k ≠ js "moss" → extrairPalavrasChave k = [k]) := by
  decide

/-! ## C29: the normalized query of an accepted request -/

theorem trimStart_eq_nil (s : JSString) (h : trimStart s = []) :
    ∀ c ∈ s, isWhiteSpace c = true := by
  induction s with
  | nil => simp
  | cons d ds ih =>
    unfold trimStart at h
    split at h
    · rename_i hd
      intro c hc
      rcases List.mem_cons.mp hc with rfl | hc
      · exact hd
      · exact ih h c hc
    · cases h

theorem trim_ne_nil (s : JSString) (h : ∃ c ∈ s, isWhiteSpace c = false) : trim s ≠ [] := by
  intro ht
  unfold trim at ht
  rw [List.reverse_eq_nil_iff] at ht
  have hall := trimStart_eq_nil _ ht
  have ha : trimStart s = [] := by
    cases hs : trimStart s with
    | nil => rfl
    | cons d ds =>
      have h1 := head_trimStart s d (by rw [hs]; rfl)
      have h2 := hall d (by rw [hs]; simp)
      rw [h1] at h2
      cases h2
  obtain ⟨c, hc, hws⟩ := h
  have := trimStart_eq_nil s ha c hc
  rw [hws] at this
  cases this

theorem unidade_visivel_latina :
    ∀ c < 0x180, isWhiteSpace c = false → isCombiningMark c = false →
      ∃ u ∈ ((lowerUnit c).map decomporUnit).flatten,
        isCombiningMark u = false ∧ isWhiteSpace u = false := by
  decide!

/-- A query of the repertoire (U+0000–U+017F and the combining marks
U+0300–U+036F) with a code unit that is neither white space nor a combining
mark has a non-empty normal form. -/
theorem normalizarTexto_ne_nil (q : JSString)
    (hq : ∀ c ∈ q, c < 0x180 ∨ isCombiningMark c = true)
    (h : ∃ c ∈ q, isWhiteSpace c = false ∧ isCombiningMark c = false) :
    normalizarTexto q ≠ [] := by
  obtain ⟨c, hc, h1, h2⟩ := h
  have hlt : c < 0x180 := by
    rcases hq c hc with hlt | hm
    · exact hlt
    · rw [h2] at hm
      cases hm
  obtain ⟨u, hu, hm, hws⟩ := unidade_visivel_latina c hlt h1 h2
  apply trim_ne_nil
  refine ⟨u, ?_, hws⟩
  simp only [removerAcentos, nfd, toLowerCase, List.mem_filter, mem_ordenarMarcas,
    flatten_map_flatten_map, mem_flatten_map, Bool.not_eq_true']
  exact ⟨⟨c, hc, (mem_flatten_map _ _ _).mp hu⟩, hm⟩

/-- Witness of `normalizarTexto_ne_nil`: the query "dress". -/
theorem normalizarTexto_ne_nil_witness : normalizarTexto (js "dress") ≠ [] :=
  normalizarTexto_ne_nil (js "dress") (by decide) (by decide)

/-- C29, failing input: the query made of the single code unit U+0301, a
combining acute accent (`GET /search?q=%CC%81`). It is not white space, so
`q.trim()` is not empty and the request passes validation; `normalizarTexto`
removes the accent, so the normalized full query is the empty string and there
is no keyword. The full-term test then matches every empty field: an empty
field of weight 2 gets 20, the product of scenario A scores 80 through its
four empty fields, and the handler returns the whole catalog. -/
theorem search_acento_solto :
    js "\u0301" = [0x301] ∧
      trim (js "\u0301") ≠ [] ∧
      normalizarTexto (js "\u0301") = [] ∧
      extrairPalavrasChave (js "\u0301") = [] ∧
      pontosTermoCompleto (normalizarTexto []) (singularizar (normalizarTexto [])) 2
        (normalizarTexto (js "\u0301")) = 20 ∧
      calcularRelevancia 0 vestidoAzul (extrairPalavrasChave (js "\u0301"))
        (normalizarTexto (js "\u0301")) = .ok 80 ∧
      (match search 0 [vestidoAzul, sandalia] (.texto (js "\u0301")) .ausente .ausente with
        | .json corpo => some (corpo.search.normalizedQuery, corpo.data)
        | .erro _ => none) = some ([], [vestidoAzul, sandalia]) := by
  decide

/-! ## C30: the pages partition the ranking -/

theorem slice_eq_drop_take {α : Type} (xs : List α) (k L : Nat) :
    slice xs (some (k : Int)) (some ((k : Int) + (L : Int))) = (xs.drop k).take L := by
  have h1 : ¬ (k : Int) < 0 := by omega
  have h2 : ¬ (k : Int) + (L : Int) < 0 := by omega
  have e1 : ((k : Int)).toNat = k := by omega
  have e2 : ((k : Int) + (L : Int)).toNat = k + L := by omega
  simp only [slice, indiceRelativo, h1, h2, if_false, e1, e2]
  by_cases hk : k ≤ xs.length
  · rw [Nat.min_eq_left hk, List.take_eq_take]
    simp only [List.length_drop]
    omega
  · have hd1 : xs.drop (min k xs.length) = [] := by
      apply List.drop_eq_nil_of_le
      omega
    have hd2 : xs.drop k = [] := by
      apply List.drop_eq_nil_of_le
      omega
    rw [hd1, hd2]
    simp

theorem paginas_concat {α : Type} (L : Nat) (n : Nat) (xs : List α)
    (hn : xs.length ≤ n * L) :
    ((List.range n).map (fun i => (xs.drop (i * L)).take L)).flatten = xs := by
  induction n generalizing xs with
  | zero =>
    have : xs = [] := List.eq_nil_of_length_eq_zero (by omega)
    simp [this]
  | succ m ih =>
    have hlen : (xs.drop L).length ≤ m * L := by
      rw [List.length_drop]
      have : (m + 1) * L = m * L + L := by ring
      omega
    have hrest := ih (xs.drop L) hlen
    rw [List.range_succ_eq_map, List.map_cons, List.flatten_cons, List.map_map]
    have hfun : ((fun i => (xs.drop (i * L)).take L) ∘ Nat.succ) =
        (fun i => ((xs.drop L).drop (i * L)).take L) := by
      funext i
      simp only [Function.comp, List.drop_drop]
      congr 2
      rw [Nat.succ_mul]
      omega
    rw [hfun, hrest]
    simp

theorem produtosPaginados_pagina (S : List ProdutoComScore) (l i : Nat) :
    produtosPaginados S (some ((((i : Int) + 1) - 1) * (l : Int))) (some (l : Int)) =
      ((S.map (fun p => p.produto)).drop (i * l)).take l := by
  have hk : (((i : Int) + 1) - 1) * (l : Int) = ((i * l : Nat) : Int) := by
    push_cast
    ring
  have hdo : (do let s ← (some ((i * l : Nat) : Int) : Numero); let x ← (some (l : Int) : Numero)
                 pure (s + x)) = (some (((i * l : Nat) : Int) + (l : Int)) : Numero) := rfl
  unfold produtosPaginados
  rw [hk, hdo, slice_eq_drop_take, List.map_take, List.map_drop]

/-- C30: for a filtered, sorted candidate sequence `S` and a limit `L ≥ 1` (in
particular `1 ≤ L ≤ 100`), `totalPages` is a natural number `n` and the pages
1, 2, ..., `n`, concatenated in that order, are exactly `S` with the score
removed: the pages are consecutive pieces of the ranking. The products of the
filtered list are products of the catalog, unchanged. For a fixed moment,
catalog, query and limit, the body answered for page `P` carries the page `P`
of that one filtered list, and its `totalPages`. -/
theorem paginas_particao (S : List ProdutoComScore) (L : Int) (hL : 1 ≤ L) :
    (∃ n : Nat, totalPages S.length (some L) = some (n : Int) ∧
        ((List.range n).map (fun (i : Nat) =>
            produtosPaginados S (some ((((i : Int) + 1) - 1) * L)) (some L))).flatten =
          S.map (fun p => p.produto)) ∧
      (∀ (agora : Int) (palavrasChave : List JSString) (termo : JSString)
          (todosProdutos : List Produto) (comScore : List ProdutoComScore),
        produtosComScore agora palavrasChave termo todosProdutos = .ok comScore →
        ∀ p ∈ (produtosFiltrados comScore).map (fun e => e.produto), p ∈ todosProdutos) ∧
      (∀ (agora : Int) (todosProdutos : List Produto) (consulta : JSString)
          (limit : Parametro) (comScore : List ProdutoComScore),
        produtosComScore agora (extrairPalavrasChave consulta) (normalizarTexto consulta)
          todosProdutos = .ok comScore →
        parseIntParametro limit 10 = some L →
        ∀ (page : Parametro) (P : Int) (corpo : Corpo),
          search agora todosProdutos (.texto consulta) page limit = .json corpo →
          parseIntParametro page 1 = some P →
          corpo.data =
              produtosPaginados (produtosFiltrados comScore) (some ((P - 1) * L)) (some L) ∧
            corpo.pagination.totalPages =
              totalPages (produtosFiltrados comScore).length (some L)) := by
  refine ⟨?_, ?_, ?_⟩
  · have hm0 : 0 ≤ ((S.length : Int) + L - 1) / L :=
      Int.ediv_nonneg (by omega) (by omega)
    have hl : ((L.toNat : Nat) : Int) = L := Int.toNat_of_nonneg (by omega)
    have hn : (((((S.length : Int) + L - 1) / L).toNat : Nat) : Int) =
        ((S.length : Int) + L - 1) / L := Int.toNat_of_nonneg hm0
    refine ⟨(((S.length : Int) + L - 1) / L).toNat, ?_, ?_⟩
    · rw [hn]
      rfl
    · have hspec := (totalPages_spec S.length L hL).1
      have hlen : (S.map (fun p => p.produto)).length ≤
          (((S.length : Int) + L - 1) / L).toNat * L.toNat := by
        rw [List.length_map]
        have : (S.length : Int) ≤
            (((((S.length : Int) + L - 1) / L).toNat * L.toNat : Nat) : Int) := by
          push_cast
          rw [hn, hl]
          exact hspec
        exact_mod_cast this
      have hpages : (fun i : Nat =>
          produtosPaginados S (some ((((i : Int) + 1) - 1) * L)) (some L)) =
          (fun i : Nat => ((S.map (fun p => p.produto)).drop (i * L.toNat)).take L.toNat) := by
        funext i
        have := produtosPaginados_pagina S L.toNat i
        rw [hl] at this
        exact this
      rw [hpages]
      exact paginas_concat L.toNat _ _ hlen
  · intro agora palavrasChave termo todosProdutos comScore hcs p hp
    obtain ⟨hmap, _⟩ := produtosComScore_ok _ _ _ _ _ hcs
    obtain ⟨e, he, rfl⟩ := List.mem_map.mp hp
    have hperm : (produtosFiltrados comScore).Perm
        (comScore.filter (fun p => decide (p.relevanciaScore > 0))) :=
      sort_perm compararScore _
    rw [hperm.mem_iff, List.mem_filter] at he
    rw [← hmap]
    exact List.mem_map.mpr ⟨e, he.1, rfl⟩
  · intro agora todosProdutos consulta limit comScore hcs hlimit page P corpo h hpage
    obtain ⟨consulta2, comScore2, hq, _, _, _, _, hcs2, hcorpo⟩ := search_json _ _ _ _ _ _ h
    simp only [Parametro.texto.injEq] at hq
    subst hq
    rw [hcs] at hcs2
    have hcc : comScore = comScore2 := Except.ok.inj hcs2
    subst hcc
    rw [hcorpo, hpage, hlimit]
    exact ⟨rfl, rfl⟩

/-- Witness of C30: three candidates with limit 2 make two pages, which
together are the three products in rank order. -/
theorem paginas_particao_witness :
    totalPages 3 (some 2) = some 2 ∧
      produtosPaginados [⟨vestidoAzul, 3⟩, ⟨sandalia, 2⟩, ⟨itemAzul, 1⟩] (some ((1 - 1) * 2))
          (some 2) ++
        produtosPaginados [⟨vestidoAzul, 3⟩, ⟨sandalia, 2⟩, ⟨itemAzul, 1⟩] (some ((2 - 1) * 2))
          (some 2) = [vestidoAzul, sandalia, itemAzul] ∧
      ∃ n : Nat, totalPages [(⟨vestidoAzul, 3⟩ : ProdutoComScore), ⟨sandalia, 2⟩,
          ⟨itemAzul, 1⟩].length (some 2) = some (n : Int) :=
  ⟨by decide, by decide,
    match (paginas_particao [⟨vestidoAzul, 3⟩, ⟨sandalia, 2⟩, ⟨itemAzul, 1⟩] 2
        (by decide)).1 with
    | ⟨n, h1, _⟩ => ⟨n, h1⟩⟩

end MaresiaDB
